import Mathlib

/-!
# libircclient: line framing utilities and the DCC engine

A shallow embedding of `src/src/utils.c` and `src/libircclient/src/dcc.c`.

Conventions of the embedding:

* a C `char` buffer is a `List Nat` of bytes; `sizeof buf` is the length of the list;
* `int` and `unsigned int` values are `Int` and `Nat`; the 32-bit wrap of the
  file-transfer counter is written out explicitly;
* system calls (`read`, `write`, `accept`, ...) and the user callback are the
  environment: their results are inputs of the step functions, and every call
  made is recorded in a trace of events.
-/

namespace Libirc

/-! ## utils.c -/

/-- Byte stored at index `i` of a buffer (`buf[i]`). -/
def byteAt (buf : List Nat) (i : Nat) : Nat := buf.getD i 0

/-- The loop of `libirc_findcrlf`: `offset` is the loop variable, the first
argument after `length` bounds the number of iterations. -/
def libirc_findcrlf_loop (buf : List Nat) (length : Int) : Nat → Nat → Int
  | 0, _ => 0
  | fuel + 1, offset =>
    if (offset : Int) < length - 1 then
      if byteAt buf offset = 0x0D ∧ byteAt buf (offset + 1) = 0x0A then
        (offset : Int) + 2
      else
        libirc_findcrlf_loop buf length fuel (offset + 1)
    else 0

/-- Finds a separator (CR LF), which separates two lines (utils.c, line 38). -/
def libirc_findcrlf (buf : List Nat) (length : Int) : Int :=
  libirc_findcrlf_loop buf length length.toNat 0

/-- The loop of `libirc_findcrorlf`; returns the buffer after the call and the
returned offset. -/
def libirc_findcrorlf_loop (buf : List Nat) (length : Int) : Nat → Nat → List Nat × Int
  | 0, _ => (buf, 0)
  | fuel + 1, offset =>
    if (offset : Int) < length then
      if byteAt buf offset = 0x0D ∨ byteAt buf offset = 0x0A then
        -- buf[offset++] = 0
        let buf1 := buf.set offset 0
        let offset1 := offset + 1
        if (offset1 : Int) < length - 1
            ∧ (byteAt buf1 offset1 = 0x0D ∨ byteAt buf1 offset1 = 0x0A) then
          (buf1, (offset1 : Int) + 1)
        else
          (buf1, (offset1 : Int))
      else
        libirc_findcrorlf_loop buf length fuel (offset + 1)
    else (buf, 0)

/-- Scans for the first CR or LF, overwrites it with NUL and returns the
offset after the terminator (utils.c, line 49). -/
def libirc_findcrorlf (buf : List Nat) (length : Int) : List Nat × Int :=
  libirc_findcrorlf_loop buf length length.toNat 0

/-- A CR LF pair starts at index `k` of the first `n` bytes of `buf`. -/
def IsCrlfAt (buf : List Nat) (n : Int) (k : Nat) : Prop :=
  (k : Int) + 1 < n ∧ byteAt buf k = 0x0D ∧ byteAt buf (k + 1) = 0x0A

/-- The byte at index `k` is a CR or a LF. -/
def IsCrOrLf (buf : List Nat) (k : Nat) : Prop :=
  byteAt buf k = 0x0D ∨ byteAt buf k = 0x0A

instance (buf : List Nat) (n : Int) (k : Nat) : Decidable (IsCrlfAt buf n k) := by
  unfold IsCrlfAt; infer_instance

instance (buf : List Nat) (k : Nat) : Decidable (IsCrOrLf buf k) := by
  unfold IsCrOrLf; infer_instance

/-- Value returned by `libirc_findcrorlf` when the first CR or LF is at `i`. -/
def crorlfResult (buf : List Nat) (length : Int) (i : Nat) : Int :=
  if ((i + 1 : Nat) : Int) < length - 1 ∧ IsCrOrLf buf (i + 1) then (i : Int) + 2
  else (i : Int) + 1


/-! ## dcc.c: data model -/

/-- Modelled from the spec: the DCC states `LIBIRC_STATE_*`, whose definitions
are in a header that is not part of the sources at hand (spec, section 3). -/
inductive DccState
  | INIT | LISTENING | CONNECTING | CONNECTED | CONFIRM_SIZE | REMOVED
  deriving DecidableEq, Repr

/-- The DCC modes `LIBIRC_DCC_CHAT`, `LIBIRC_DCC_SENDFILE`, `LIBIRC_DCC_RECVFILE`
(dcc.c, lines 25-27). -/
inductive DccMode
  | CHAT | SENDFILE | RECVFILE
  deriving DecidableEq, Repr

/-- Modelled from the spec: the status given to a DCC callback, 0 (`OK`) or one
of the error codes `LIBIRC_ERR_*` of `libirc_errors.h`, which is not part of
the sources at hand; the codes are nonzero and distinct (spec, section 4.9). -/
inductive Status
  | OK | ERR_READ | ERR_WRITE | ERR_CLOSED | ERR_ACCEPT | ERR_CONNECT | ERR_TIMEOUT
  | ERR_STATE | ERR_INVAL | ERR_NOMEM | ERR_SOCKET | ERR_OPENFILE | ERR_NODCCSEND
  deriving DecidableEq, Repr

/-- A `struct sockaddr_in` as it lies in memory: the family, the two bytes of
`sin_port` and the four bytes of `sin_addr.s_addr`, both in network byte
order. -/
structure SockAddr where
  sin_family : Nat
  sin_port : List Nat
  sin_addr : List Nat
  deriving DecidableEq, Repr

/-- A `struct sockaddr_in` after `memset (.., 0, ..)`. -/
def SockAddr.zero : SockAddr :=
  { sin_family := 0, sin_port := [0, 0], sin_addr := [0, 0, 0, 0] }

/-- The address family `AF_INET`. -/
def AF_INET : Nat := 2

/-- Modelled from the spec: `struct irc_dcc_session_s` of `libirc_dcc.h`, which
is not part of the sources at hand; the fields are those `dcc.c` uses. `cb` says
whether a callback is installed (the function pointer is not null), `sizeof` of
the two buffers is the length of the lists, `file_confirm_offset` is an
`unsigned int` of 32 bits as the `htonl`/`ntohl` conversions of it require.
The `next` pointer is the tail of the list the session is in. The user context
`ctx` is a number; it and `remote_addr` are zero unless set. -/
structure DccSession where
  id : Nat
  sock : Int
  fd : Int
  dccmode : DccMode
  state : DccState
  timeout : Int
  cb : Bool
  received_file_size : Nat
  file_confirm_offset : Nat
  incoming_buf : List Nat
  incoming_offset : Nat
  outgoing_buf : List Nat
  outgoing_offset : Nat
  ctx : Nat := 0
  remote_addr : SockAddr := SockAddr.zero
  deriving DecidableEq, Repr

/-- One invocation of the DCC callback `(*dcc->cb)(session, id, status, ctx,
data, length)`: `data` is `none` for a null pointer and otherwise the bytes the
callback can see through the pointer. -/
structure CbCall where
  id : Nat
  status : Status
  data : Option (List Nat)
  length : Nat
  deriving DecidableEq, Repr

/-- What the engine does to the outside world, in order. -/
inductive Event
  | callback (c : CbCall)
  | read (sock : Int) (amount : Nat)
  | write (sock : Int) (offered : List Nat) (ret : Int)
  | accept (sock : Int)
  | getpeername (sock : Int)
  | fileRead (fd : Int) (amount : Nat)
  | close (fd : Int)
  | connect (sock : Int)
  | chat_req (nick : List Nat) (addr : List Nat) (dccid : Nat)
  | send_req (nick : List Nat) (addr : List Nat) (filename : List Nat) (size : Nat)
      (dccid : Nat)
  | cmd_notice (nick : List Nat) (text : List Nat)
  | cmd_ctcp_request (nick : List Nat) (text : List Nat)
  | lock_dcc
  | unlock_dcc
  | lock_outbuf
  | unlock_outbuf
  deriving DecidableEq, Repr

/-- The outside world during one pass. A `read` result is `none` for a negative
return value and `some bs` for a return value of `bs.length` with the bytes
`bs` stored in the buffer; `write` and `accept` give their return value;
`getpeername` gives `true` on success; `cbDestroys c` says whether the user
callback, invoked as `c`, calls `irc_dcc_destroy` on its own DCC session;
`acceptAddr` is the peer address a successful `accept` stores. -/
structure Env where
  now : Int
  dcc_timeout : Int
  fileRead : Int → Option (List Nat)
  sockRead : Int → Option (List Nat)
  sockWrite : Int → Int
  accept : Int → Int
  getpeername : Int → Bool
  cbDestroys : CbCall → Bool
  acceptAddr : Int → SockAddr := fun _ => SockAddr.zero

/-- Two to the power 32, the modulus of `unsigned int` arithmetic. -/
def U32 : Nat := 4294967296

/-- The four bytes `htonl x` leaves in memory: `x` in network byte order. -/
def htonl_bytes (x : Nat) : List Nat :=
  [x / 16777216 % 256, x / 65536 % 256, x / 256 % 256, x % 256]

/-- The value `ntohl (*((unsigned int*) buf))` reads from the first four bytes
of `buf`. -/
def ntohl_bytes (buf : List Nat) : Nat :=
  byteAt buf 0 * 16777216 + byteAt buf 1 * 65536 + byteAt buf 2 * 256 + byteAt buf 3

/-- Stores `bs` in `buf` from index `off` on. -/
def bufWrite (buf : List Nat) (off : Nat) (bs : List Nat) : List Nat :=
  buf.take off ++ bs ++ buf.drop (off + bs.length)

/-- The call `memmove (buf, buf + k, n)`. -/
def memmove_front (buf : List Nat) (k n : Nat) : List Nat :=
  bufWrite buf 0 ((buf.drop k).take n)

/-- The bytes of the C string starting at `buf`: those before the first NUL. -/
def cstr (buf : List Nat) : List Nat := buf.takeWhile (fun b => b != 0)

/-- The call `strlen (buf)`. -/
def strlen (buf : List Nat) : Nat := (cstr buf).length

/-! ## dcc.c: session list -/

/-- What `libirc_dcc_destroy_nolock` and `irc_dcc_destroy` do to the session
they found: close the socket, `sock = -1`, `state = REMOVED`. -/
def DccSession.destroy (dcc : DccSession) : DccSession × List Event :=
  ({ dcc with sock := -1, state := DccState.REMOVED },
    if dcc.sock ≥ 0 then [Event.close dcc.sock] else [])

/-- The function `libirc_find_dcc_session`: the first session of the list with
the given id. -/
def libirc_find_dcc_session (l : List DccSession) (dccid : Nat) : Option DccSession :=
  l.find? (fun s => s.id == dccid)

/-- The function `libirc_dcc_destroy_nolock` on the list of a session
(dcc.c, line 53). -/
def libirc_dcc_destroy_nolock : List DccSession → Nat → List DccSession × List Event
  | [], _ => ([], [])
  | s :: rest, dccid =>
    if s.id = dccid then (s.destroy.1 :: rest, s.destroy.2)
    else ((s :: (libirc_dcc_destroy_nolock rest dccid).1),
      (libirc_dcc_destroy_nolock rest dccid).2)

/-- Invokes the callback of a session. The id of a session is unique in its
list (ids come from the counter `dcc_last_id`), so a callback that calls
`irc_dcc_destroy` with the id it was given marks this very session. Calling a
callback that is not installed is a call through a null pointer: `none`. -/
def invokeCb (cbDestroys : CbCall → Bool) (dcc : DccSession) (status : Status)
    (data : Option (List Nat)) (length : Nat) : Option (DccSession × List Event) :=
  if dcc.cb then
    let c : CbCall := { id := dcc.id, status := status, data := data, length := length }
    if cbDestroys c then
      some (dcc.destroy.1, Event.callback c :: dcc.destroy.2)
    else
      some (dcc, [Event.callback c])
  else none

/-- The error exit of the read and write blocks: `if ( err )` the callback is
invoked with the error and `libirc_dcc_destroy_nolock (ircsession, dcc->id)`
marks the session (the id is unique, so the session found is `dcc`). -/
def dccFail (cbDestroys : CbCall → Bool) (dcc : DccSession) (err : Status) :
    Option (DccSession × List Event) :=
  match invokeCb cbDestroys dcc err none 0 with
  | none => none
  | some (d, ev) => some (d.destroy.1, ev ++ d.destroy.2)

/-! ## dcc.c: `libirc_dcc_process_descriptors` -/

/-- The block run when the socket of a CONNECTED or CONFIRM_SIZE session is
flagged in `in_set` (dcc.c, lines 299-404). `rd` is the result of `read`.
`none` as a result stands for `abort()` or a call through a null pointer.
The value `offset` is at most `incoming_offset` (it is `incoming_offset` or the
result of `libirc_findcrorlf` on that many bytes), so the unsigned subtraction
`incoming_offset - offset` does not wrap. -/
def dcc_read_ready (cbDestroys : CbCall → Bool) (rd : Option (List Nat)) (dcc : DccSession) :
    Option (DccSession × List Event) :=
  let amount := (dcc.incoming_buf.length - 1) - dcc.incoming_offset
  let ev0 := [Event.read dcc.sock amount]
  match rd with
  | none =>
    -- length < 0
    (dccFail cbDestroys dcc Status.ERR_READ).map (fun r => (r.1, ev0 ++ r.2))
  | some [] =>
    -- length == 0
    let dcc1 := if dcc.fd ≥ 0 then { dcc with fd := -1 } else dcc
    let ev1 := if dcc.fd ≥ 0 then [Event.close dcc.fd] else []
    (dccFail cbDestroys dcc1 Status.ERR_CLOSED).map (fun r => (r.1, ev0 ++ ev1 ++ r.2))
  | some (b :: bs) =>
    let data := b :: bs
    let inoff := dcc.incoming_offset + data.length
    let buf1 := bufWrite dcc.incoming_buf dcc.incoming_offset data
    let scan := if dcc.dccmode ≠ DccMode.CHAT then (buf1, (inoff : Int))
      else libirc_findcrorlf buf1 inoff
    let offset : Nat := scan.2.toNat
    let dcc1 := { dcc with incoming_buf := scan.1, incoming_offset := inoff }
    if dcc1.state = DccState.CONFIRM_SIZE then
      if dcc1.dccmode ≠ DccMode.SENDFILE then none
      else if dcc1.incoming_offset = 4 then
        let received_size := ntohl_bytes dcc1.incoming_buf
        if dcc1.file_confirm_offset = received_size then
          some ({ dcc1 with state := DccState.CONNECTED, incoming_offset := 0 }, ev0)
        else
          (dccFail cbDestroys dcc1 Status.ERR_WRITE).map (fun r => (r.1, ev0 ++ r.2))
      else some (dcc1, ev0)
    else
      let called : Option (DccSession × List Event) :=
        if dcc1.dccmode ≠ DccMode.CHAT then
          if dcc1.dccmode ≠ DccMode.RECVFILE then none
          else
            match invokeCb cbDestroys dcc1 Status.OK (some (dcc1.incoming_buf.take offset))
                offset with
            | none => none
            | some (d, ev) =>
              if d.state ≠ DccState.REMOVED then
                let fco := (d.file_confirm_offset + offset) % U32
                some ({ d with
                  state := DccState.CONFIRM_SIZE
                  file_confirm_offset := fco
                  outgoing_buf := bufWrite d.outgoing_buf 0 (htonl_bytes fco)
                  outgoing_offset := 4 }, ev)
              else some (d, ev)
        else
          invokeCb cbDestroys dcc1 Status.OK (some (cstr dcc1.incoming_buf))
            (strlen dcc1.incoming_buf)
      match called with
      | none => none
      | some (d, ev) =>
        let buf2 := if d.incoming_offset - offset > 0 then
            memmove_front d.incoming_buf offset (d.incoming_offset - offset)
          else d.incoming_buf
        some ({ d with incoming_buf := buf2, incoming_offset := d.incoming_offset - offset },
          ev0 ++ ev)

/-- The block run when the socket of a CONNECTED or CONFIRM_SIZE session is
flagged in `out_set` (dcc.c, lines 417-503). `wr` is the return value of
`write`, which is at most the number of bytes offered, so the unsigned
subtraction `outgoing_offset - length` does not wrap. -/
def dcc_write_ready (cbDestroys : CbCall → Bool) (wr : Int) (dcc : DccSession) :
    Option (DccSession × List Event) :=
  let offsetI : Int := if dcc.dccmode = DccMode.CHAT then
      libirc_findcrlf dcc.outgoing_buf dcc.outgoing_offset
    else (dcc.outgoing_offset : Int)
  if offsetI > 0 then
    let offset : Nat := offsetI.toNat
    let ev0 := [Event.write dcc.sock (dcc.outgoing_buf.take offset) wr]
    if wr < 0 then
      (dccFail cbDestroys dcc Status.ERR_WRITE).map (fun r => (r.1, ev0 ++ r.2))
    else if wr = 0 then
      (dccFail cbDestroys dcc Status.ERR_CLOSED).map (fun r => (r.1, ev0 ++ r.2))
    else
      let length : Nat := wr.toNat
      let sent : Option (DccSession × List Event) :=
        if dcc.state = DccState.CONNECTED ∧ dcc.dccmode = DccMode.SENDFILE then
          invokeCb cbDestroys
            { dcc with
              file_confirm_offset := (dcc.file_confirm_offset + offset) % U32
              state := DccState.CONFIRM_SIZE }
            Status.OK none offset
        else some (dcc, [])
      match sent with
      | none => none
      | some (d, ev1) =>
        let buf2 := if d.outgoing_offset - length > 0 then
            memmove_front d.outgoing_buf length (d.outgoing_offset - length)
          else d.outgoing_buf
        let d2 := { d with outgoing_buf := buf2, outgoing_offset := d.outgoing_offset - length }
        if d2.state = DccState.CONFIRM_SIZE ∧ d2.dccmode = DccMode.RECVFILE
            ∧ d2.outgoing_offset = 0 then
          if d2.received_file_size = d2.file_confirm_offset then
            match invokeCb cbDestroys d2 Status.OK none 0 with
            | none => none
            | some (d3, ev3) => some (d3.destroy.1, ev0 ++ ev1 ++ ev3 ++ d3.destroy.2)
          else
            some ({ d2 with state := DccState.CONNECTED }, ev0 ++ ev1)
        else some (d2, ev0 ++ ev1)
  else some (dcc, [])

/-- The block run when the socket of a LISTENING session is flagged in `in_set`
(dcc.c, lines 227-264): the connection is accepted. -/
def dcc_accept_ready (env : Env) (dcc : DccSession) : Option (DccSession × List Event) :=
  let nsock := env.accept dcc.sock
  let ev0 := [Event.accept dcc.sock]
  let err := if nsock < 0 then Status.ERR_ACCEPT else Status.OK
  let dcc1 := if err = Status.OK then
      { dcc with
        sock := nsock, state := DccState.CONNECTED, remote_addr := env.acceptAddr dcc.sock }
    else dcc
  let ev1 := if err = Status.OK then [Event.close dcc.sock] else []
  let called := if dcc1.dccmode = DccMode.CHAT then invokeCb env.cbDestroys dcc1 err none 0
    else some (dcc1, [])
  match called with
  | none => none
  | some (d, ev2) =>
    if err ≠ Status.OK then some (d.destroy.1, ev0 ++ ev1 ++ ev2 ++ d.destroy.2)
    else some (d, ev0 ++ ev1 ++ ev2)

/-- The block run when the socket of a CONNECTING session is flagged in
`out_set` (dcc.c, lines 266-294): `getpeername` tells whether the connect
succeeded. -/
def dcc_connect_ready (env : Env) (dcc : DccSession) : Option (DccSession × List Event) :=
  let ev0 := [Event.getpeername dcc.sock]
  let err := if env.getpeername dcc.sock then Status.OK else Status.ERR_CONNECT
  let dcc1 := if err = Status.OK then { dcc with state := DccState.CONNECTED } else dcc
  let called := if dcc1.dccmode = DccMode.CHAT then invokeCb env.cbDestroys dcc1 err none 0
    else some (dcc1, [])
  match called with
  | none => none
  | some (d, ev2) =>
    if err ≠ Status.OK then some (d.destroy.1, ev0 ++ ev2 ++ d.destroy.2)
    else some (d, ev0 ++ ev2)

/-- One iteration of the loop of `libirc_dcc_process_descriptors` (dcc.c, lines
225-506). The boolean of the result is `true` when the iteration ends with the
`break` of line 504, `false` when it ends normally or with the `continue` of
line 412. -/
def dcc_process_one (env : Env) (in_set out_set : List Int) (dcc : DccSession) :
    Option (DccSession × List Event × Bool) :=
  let r1 := if dcc.state = DccState.LISTENING ∧ dcc.sock ∈ in_set then dcc_accept_ready env dcc
    else some (dcc, [])
  match r1 with
  | none => none
  | some (d1, e1) =>
    let r2 := if d1.state = DccState.CONNECTING ∧ d1.sock ∈ out_set then
        dcc_connect_ready env d1
      else some (d1, [])
    match r2 with
    | none => none
    | some (d2, e2) =>
      if d2.state = DccState.CONNECTED ∨ d2.state = DccState.CONFIRM_SIZE then
        let r3 := if d2.sock ∈ in_set then
            dcc_read_ready env.cbDestroys (env.sockRead d2.sock) d2
          else some (d2, [])
        match r3 with
        | none => none
        | some (d3, e3) =>
          if d3.state = DccState.REMOVED then some (d3, e1 ++ e2 ++ e3, false)
          else
            let r4 := if d3.sock ∈ out_set then
                dcc_write_ready env.cbDestroys (env.sockWrite d3.sock) d3
              else some (d3, [])
            match r4 with
            | none => none
            | some (d4, e4) => some (d4, e1 ++ e2 ++ e3 ++ e4, true)
      else some (d2, e1 ++ e2, false)

/-- The function `libirc_dcc_process_descriptors` (dcc.c, line 215) on the list
of DCC sessions: the sessions after the pass and the events of the pass. -/
def libirc_dcc_process_descriptors (env : Env) (in_set out_set : List Int) :
    List DccSession → Option (List DccSession × List Event)
  | [] => some ([], [])
  | dcc :: rest =>
    match dcc_process_one env in_set out_set dcc with
    | none => none
    | some (d, ev, true) => some (d :: rest, ev)
    | some (d, ev, false) =>
      match libirc_dcc_process_descriptors env in_set out_set rest with
      | none => none
      | some (l, ev2) => some (d :: l, ev ++ ev2)

/-! ## dcc.c: the locks of the write block -/

/-- The locks of dcc.c: how many times the DCC-list mutex of the parent session
(`LOCK_DCC_MUTEX`) and the mutex `mutex_outbuf` of the DCC session at hand
(`LOCK_DCC_OUTBUF`) are held. -/
structure Locks where
  mutex_dcc : Int
  mutex_outbuf : Int
  deriving DecidableEq, Repr

/-- The event is a lock or an unlock. -/
def isLockEvent : Event → Bool
  | Event.lock_dcc => true
  | Event.unlock_dcc => true
  | Event.lock_outbuf => true
  | Event.unlock_outbuf => true
  | _ => false

/-- The locks held after an event. -/
def lockStep (l : Locks) : Event → Locks
  | Event.lock_dcc => { l with mutex_dcc := l.mutex_dcc + 1 }
  | Event.unlock_dcc => { l with mutex_dcc := l.mutex_dcc - 1 }
  | Event.lock_outbuf => { l with mutex_outbuf := l.mutex_outbuf + 1 }
  | Event.unlock_outbuf => { l with mutex_outbuf := l.mutex_outbuf - 1 }
  | _ => l

/-- The callbacks of a trace, each with the locks held when it is invoked,
`l` being the locks held when the trace starts. -/
def callbackLocks : Locks → List Event → List (CbCall × Locks)
  | _, [] => []
  | l, Event.callback c :: ev => (c, l) :: callbackLocks l ev
  | l, e :: ev => callbackLocks (lockStep l e) ev

/-- The callback invoked between `UNLOCK_DCC_MUTEX (ircsession)` and
`LOCK_DCC_MUTEX (ircsession)`, as at lines 454-456, 478-480 and 497-499 of
dcc.c. -/
def invokeCbUnlocked (cbDestroys : CbCall → Bool) (dcc : DccSession) (status : Status)
    (data : Option (List Nat)) (length : Nat) : Option (DccSession × List Event) :=
  match invokeCb cbDestroys dcc status data length with
  | none => none
  | some (d, ev) => some (d, [Event.unlock_dcc] ++ ev ++ [Event.lock_dcc])

/-- The error exit `if ( err )` of the write block with its lock operations
(dcc.c, lines 495-502). -/
def dccFailUnlocked (cbDestroys : CbCall → Bool) (dcc : DccSession) (err : Status) :
    Option (DccSession × List Event) :=
  match invokeCbUnlocked cbDestroys dcc err none 0 with
  | none => none
  | some (d, ev) => some (d.destroy.1, ev ++ d.destroy.2)

/-- The write block (dcc.c, lines 417-503) with its lock operations in the
trace: `LOCK_DCC_OUTBUF (dcc)` at line 426, `UNLOCK_DCC_OUTBUF (dcc)` at line
489, and the DCC mutex released around each callback. Without the lock events
it is `dcc_write_ready`. -/
def dcc_write_ready_locked (cbDestroys : CbCall → Bool) (wr : Int) (dcc : DccSession) :
    Option (DccSession × List Event) :=
  let offsetI : Int := if dcc.dccmode = DccMode.CHAT then
      libirc_findcrlf dcc.outgoing_buf dcc.outgoing_offset
    else (dcc.outgoing_offset : Int)
  if offsetI > 0 then
    let offset : Nat := offsetI.toNat
    let ev0 := [Event.lock_outbuf, Event.write dcc.sock (dcc.outgoing_buf.take offset) wr]
    if wr < 0 then
      (dccFailUnlocked cbDestroys dcc Status.ERR_WRITE).map
        (fun r => (r.1, ev0 ++ [Event.unlock_outbuf] ++ r.2))
    else if wr = 0 then
      (dccFailUnlocked cbDestroys dcc Status.ERR_CLOSED).map
        (fun r => (r.1, ev0 ++ [Event.unlock_outbuf] ++ r.2))
    else
      let length : Nat := wr.toNat
      let sent : Option (DccSession × List Event) :=
        if dcc.state = DccState.CONNECTED ∧ dcc.dccmode = DccMode.SENDFILE then
          invokeCbUnlocked cbDestroys
            { dcc with
              file_confirm_offset := (dcc.file_confirm_offset + offset) % U32
              state := DccState.CONFIRM_SIZE }
            Status.OK none offset
        else some (dcc, [])
      match sent with
      | none => none
      | some (d, ev1) =>
        let buf2 := if d.outgoing_offset - length > 0 then
            memmove_front d.outgoing_buf length (d.outgoing_offset - length)
          else d.outgoing_buf
        let d2 := { d with outgoing_buf := buf2, outgoing_offset := d.outgoing_offset - length }
        if d2.state = DccState.CONFIRM_SIZE ∧ d2.dccmode = DccMode.RECVFILE
            ∧ d2.outgoing_offset = 0 then
          if d2.received_file_size = d2.file_confirm_offset then
            match invokeCbUnlocked cbDestroys d2 Status.OK none 0 with
            | none => none
            | some (d3, ev3) =>
              some (d3.destroy.1,
                ev0 ++ ev1 ++ ev3 ++ d3.destroy.2 ++ [Event.unlock_outbuf])
          else
            some ({ d2 with state := DccState.CONNECTED },
              ev0 ++ ev1 ++ [Event.unlock_outbuf])
        else some (d2, ev0 ++ ev1 ++ [Event.unlock_outbuf])
  else some (dcc, [Event.lock_outbuf, Event.unlock_outbuf])

/-! ## dcc.c: `libirc_dcc_add_descriptors` -/

/-- The descriptor sets and `maxfd` given to `libirc_dcc_add_descriptors`. -/
structure FdSets where
  in_set : List Int
  out_set : List Int
  maxfd : Int
  deriving DecidableEq, Repr

/-- The call `libirc_add_to_set (fd, in_set, maxfd)` (utils.c, line 17). -/
def add_to_in_set (fd : Int) (s : FdSets) : FdSets :=
  { s with in_set := fd :: s.in_set, maxfd := if s.maxfd < fd then fd else s.maxfd }

/-- The call `libirc_add_to_set (fd, out_set, maxfd)` (utils.c, line 17). -/
def add_to_out_set (fd : Int) (s : FdSets) : FdSets :=
  { s with out_set := fd :: s.out_set, maxfd := if s.maxfd < fd then fd else s.maxfd }

/-- The events of `libirc_remove_dcc_session`: the socket and the file are
closed when they are open. -/
def removeEvents (dcc : DccSession) : List Event :=
  (if dcc.sock ≥ 0 then [Event.close dcc.sock] else [])
    ++ (if dcc.fd ≥ 0 then [Event.close dcc.fd] else [])

/-- The timeout block of an iteration of the first loop of
`libirc_dcc_add_descriptors` (dcc.c, lines 115-133). The boolean of the result
says whether the session was unlinked from the list by
`libirc_remove_dcc_session`. -/
def dcc_timeout_check (env : Env) (dcc : DccSession) :
    Option (DccSession × Bool × List Event) :=
  if (dcc.state = DccState.CONNECTED ∨ dcc.state = DccState.INIT
        ∨ dcc.state = DccState.LISTENING)
      ∧ env.now - dcc.timeout > env.dcc_timeout then
    let called := if dcc.state ≠ DccState.INIT ∧ dcc.cb = true then
        invokeCb env.cbDestroys dcc Status.ERR_TIMEOUT none 0
      else some (dcc, [])
    match called with
    | none => none
    | some (d, ev) => some (d, true, ev ++ removeEvents d)
  else some (dcc, false, [])

/-- The block of an iteration of the first loop that asks a sending session
for data (dcc.c, lines 139-157). `gone1` says whether the timeout block has
unlinked the session: `libirc_remove_dcc_session` has then freed it (line 97),
and the test of line 139 reads freed memory, which has no defined result
(`none`). -/
def dcc_send_pump (env : Env) (gone1 : Bool) (d1 : DccSession) :
    Option (DccSession × List Event) :=
  if gone1 then none
  else if d1.state = DccState.CONNECTED ∧ d1.dccmode = DccMode.SENDFILE ∧ d1.fd ≥ 0
      ∧ d1.outgoing_offset = 0 then
    let ev0 := [Event.fileRead d1.fd d1.outgoing_buf.length]
    match env.fileRead d1.fd with
    | some (b :: bs) =>
      some ({ d1 with
        outgoing_buf := bufWrite d1.outgoing_buf 0 (b :: bs)
        outgoing_offset := (b :: bs).length }, ev0)
    | r =>
      let err := if r = none then Status.ERR_READ else Status.OK
      match invokeCb env.cbDestroys d1 err none 0 with
      | none => none
      | some (d, ev) => some (d.destroy.1, ev0 ++ ev ++ d.destroy.2)
  else some (d1, [])

/-- One iteration of the first loop of `libirc_dcc_add_descriptors` (dcc.c,
lines 111-162): the timeout block, the data block and the clean-up of line 160.
The boolean of the result says whether the clean-up unlinked the session with
`libirc_remove_dcc_session`, which frees it. A session unlinked by the timeout
block is freed at line 132 and the rest of the iteration still uses it: the
iteration has then no defined result (`none`). -/
def dcc_preprocess_one (env : Env) (dcc : DccSession) :
    Option (DccSession × Bool × List Event) :=
  match dcc_timeout_check env dcc with
  | none => none
  | some (d1, gone1, e1) =>
    match dcc_send_pump env gone1 d1 with
    | none => none
    | some (d2, e2) =>
      if d2.state = DccState.REMOVED then some (d2, true, e1 ++ e2 ++ removeEvents d2)
      else some (d2, gone1, e1 ++ e2)

/-- The first loop of `libirc_dcc_add_descriptors` (dcc.c, lines 111-162). The
second argument and the last component of the result are the variable
`dcc_next`, as the list it points to: each iteration sets it to `dcc->next`.
The step of the loop is `dcc = dcc->next`, not `dcc = dcc_next`: after an
iteration that unlinked and freed the session it reads freed memory, and the
loop has no defined result (`none`). -/
def dcc_preprocess (env : Env) :
    List DccSession → List DccSession → Option (List DccSession × List Event × List DccSession)
  | [], dcc_next => some ([], [], dcc_next)
  | dcc :: rest, _ =>
    match dcc_preprocess_one env dcc with
    | none => none
    | some (d, gone, ev) =>
      if gone then none
      else
        match dcc_preprocess env rest rest with
        | none => none
        | some (l, ev2, dcc_next) => some (d :: l, ev ++ ev2, dcc_next)

/-- The body of the second loop of `libirc_dcc_add_descriptors`: the `switch`
on the state of the session (dcc.c, lines 166-208). -/
def dcc_register (dcc : DccSession) (s : FdSets) : FdSets :=
  match dcc.state with
  | DccState.LISTENING => add_to_in_set dcc.sock s
  | DccState.CONNECTING => add_to_out_set dcc.sock s
  | DccState.CONNECTED =>
    let s1 := if dcc.incoming_offset < dcc.incoming_buf.length - 1 then
        add_to_in_set dcc.sock s
      else s
    if dcc.outgoing_offset > 0 then add_to_out_set dcc.sock s1 else s1
  | DccState.CONFIRM_SIZE =>
    let s1 := if dcc.dccmode = DccMode.RECVFILE ∧ dcc.outgoing_offset > 0 then
        add_to_out_set dcc.sock s
      else s
    if dcc.dccmode = DccMode.SENDFILE ∧ dcc.incoming_offset < 4 then
      add_to_in_set dcc.sock s1
    else s1
  | _ => s

/-- The second loop of `libirc_dcc_add_descriptors` (dcc.c, line 164),
`for ( dcc = ircsession->dcc_sessions; dcc; dcc = dcc_next )`: the loop
variable advances to `dcc_next`, which the loop never changes. With `dcc_next`
null the body runs once, on the head; otherwise the loop does not end,
rendered as `none`. -/
def dcc_register_loop (dcc_next : List DccSession) :
    List DccSession → FdSets → Option FdSets
  | [], s => some s
  | dcc :: _, s => if dcc_next = [] then some (dcc_register dcc s) else none

/-- The function `libirc_dcc_add_descriptors` (dcc.c, line 101): the list after
the call, the descriptor sets after the call, and the events. The variable
`dcc_next` is not initialised; it is read only after the first loop has set
it. -/
def libirc_dcc_add_descriptors (env : Env) (l : List DccSession) (s : FdSets) :
    Option (List DccSession × FdSets × List Event) :=
  match dcc_preprocess env l [] with
  | none => none
  | some (l1, ev, dcc_next) =>
    match dcc_register_loop dcc_next l1 s with
    | none => none
    | some s1 => some (l1, s1, ev)

/-! ## dcc.c: the parent session and the public DCC calls -/

/-- The fields of `struct irc_session_s` (libirc_session.h) that dcc.c uses.
The `state` takes the same constants `LIBIRC_STATE_*` as a DCC state;
`mutex_dcc` counts the calls of `LOCK_DCC_MUTEX` not yet matched by a call of
`UNLOCK_DCC_MUTEX`; the two booleans say whether the handlers
`callbacks.event_dcc_chat_req` and `callbacks.event_dcc_send_req` are set. -/
structure IrcSession where
  state : DccState
  lasterror : Status
  local_addr : List Nat
  dcc_last_id : Nat
  dcc_sessions : List DccSession
  mutex_dcc : Int
  event_dcc_chat_req : Bool
  event_dcc_send_req : Bool
  deriving DecidableEq, Repr

/-- The macro `LOCK_DCC_MUTEX (session)`. -/
def LOCK_DCC_MUTEX (session : IrcSession) : IrcSession :=
  { session with mutex_dcc := session.mutex_dcc + 1 }

/-- The macro `UNLOCK_DCC_MUTEX (session)`. -/
def UNLOCK_DCC_MUTEX (session : IrcSession) : IrcSession :=
  { session with mutex_dcc := session.mutex_dcc - 1 }

/-- The function `libirc_find_dcc_session` with its `lock_list` argument
(dcc.c, line 30): the session found and the parent session after the call. -/
def libirc_find_dcc_session_lock (session : IrcSession) (dccid : Nat) (lock_list : Bool) :
    Option DccSession × IrcSession :=
  let s1 := if lock_list then LOCK_DCC_MUTEX session else session
  match libirc_find_dcc_session s1.dcc_sessions dccid with
  | some dcc => (some dcc, s1)
  | none => (none, if lock_list then UNLOCK_DCC_MUTEX s1 else s1)

/-- A write through the pointer `libirc_find_dcc_session` returned: the first
session of the list with the given id is replaced by its image under `f`. -/
def modify_dcc : List DccSession → Nat → (DccSession → DccSession) → List DccSession
  | [], _, _ => []
  | s :: rest, dccid, f =>
    if s.id = dccid then f s :: rest else s :: modify_dcc rest dccid f

/-- The function `irc_dcc_destroy` (dcc.c, line 586): the return value, the
parent session after the call, and the events. -/
def irc_dcc_destroy (session : IrcSession) (dccid : Nat) : Int × IrcSession × List Event :=
  match libirc_find_dcc_session_lock session dccid true with
  | (none, s1) => (1, s1, [])
  | (some dcc, s1) =>
    (0, UNLOCK_DCC_MUTEX
        { s1 with dcc_sessions := modify_dcc s1.dcc_sessions dccid (fun d => d.destroy.1) },
      dcc.destroy.2)

/-- The function `irc_dcc_decline` (dcc.c, line 779). -/
def irc_dcc_decline (session : IrcSession) (dccid : Nat) : Int × IrcSession × List Event :=
  match libirc_find_dcc_session_lock session dccid true with
  | (none, s1) => (1, s1, [])
  | (some dcc, s1) =>
    if dcc.state ≠ DccState.INIT then
      (1, UNLOCK_DCC_MUTEX { s1 with lasterror := Status.ERR_STATE }, [])
    else
      (0, UNLOCK_DCC_MUTEX
          { s1 with dcc_sessions := (libirc_dcc_destroy_nolock s1.dcc_sessions dccid).1 },
        (libirc_dcc_destroy_nolock s1.dcc_sessions dccid).2)

/-- The outcome of the `connect` call of `irc_dcc_accept`: it returned 0, or it
returned -1 with `errno` `EINPROGRESS` or `EWOULDBLOCK`, or it returned -1 with
another `errno`. -/
inductive ConnectResult
  | done | in_progress | failed
  deriving DecidableEq, Repr

/-- The function `irc_dcc_accept` (dcc.c, line 748). The callback given is
rendered by whether it is not null. -/
def irc_dcc_accept (session : IrcSession) (dccid : Nat) (ctx : Nat) (callback : Bool)
    (conn : ConnectResult) : Int × IrcSession × List Event :=
  match libirc_find_dcc_session_lock session dccid true with
  | (none, s1) => (1, s1, [])
  | (some dcc, s1) =>
    if dcc.state ≠ DccState.INIT then
      (1, UNLOCK_DCC_MUTEX { s1 with lasterror := Status.ERR_STATE }, [])
    else
      let l1 := modify_dcc s1.dcc_sessions dccid (fun d => { d with cb := callback, ctx := ctx })
      if conn = ConnectResult.failed then
        (0, UNLOCK_DCC_MUTEX { s1 with dcc_sessions := (libirc_dcc_destroy_nolock l1 dccid).1 },
          Event.connect dcc.sock :: (libirc_dcc_destroy_nolock l1 dccid).2)
      else
        (0, { s1 with
              dcc_sessions :=
                modify_dcc l1 dccid (fun d => { d with state := DccState.CONNECTING }) },
          [Event.connect dcc.sock])

/-- The function `irc_dcc_msg` (dcc.c, line 654); `text` is a C string. The
copy of the text by `strcpy` and the two stores of CR and LF leave the text
followed by CR LF at `outgoing_offset`. -/
def irc_dcc_msg (session : IrcSession) (dccid : Nat) (text : List Nat) :
    Int × IrcSession × List Event :=
  match libirc_find_dcc_session_lock session dccid true with
  | (none, s1) => (1, s1, [])
  | (some dcc, s1) =>
    if dcc.dccmode ≠ DccMode.CHAT then
      (1, UNLOCK_DCC_MUTEX { s1 with lasterror := Status.ERR_INVAL }, [])
    else if strlen text + 2 ≥ dcc.outgoing_buf.length - dcc.outgoing_offset then
      (1, UNLOCK_DCC_MUTEX { s1 with lasterror := Status.ERR_NOMEM }, [])
    else
      (0, UNLOCK_DCC_MUTEX
          { s1 with
            dcc_sessions := modify_dcc s1.dcc_sessions dccid (fun d =>
              { d with
                outgoing_buf :=
                  bufWrite d.outgoing_buf d.outgoing_offset (cstr text ++ [0x0D, 0x0A])
                outgoing_offset := d.outgoing_offset + strlen text + 2 }) },
        [])

/-- The two bytes `htons p` leaves in memory. -/
def htons_bytes (p : Nat) : List Nat := [p / 256 % 256, p % 256]

/-- The value `ntohs` reads from the first two bytes of `buf`. -/
def ntohs_bytes (buf : List Nat) : Nat := byteAt buf 0 * 256 + byteAt buf 1

/-- The results of the system calls of `libirc_new_dcc_session`, the time, and
the size of the two buffers of a DCC session (a constant of `libirc_dcc.h`). -/
structure NewDccEnv where
  malloc_ok : Bool
  sock : Int
  bind_ok : Bool
  listen_ok : Bool
  fcntl_ok : Bool
  now : Int
  bufsize : Nat
  deriving DecidableEq, Repr

/-- The function `libirc_new_dcc_session` (dcc.c, line 512): the error code
returned, the parent session after the call and the events. On success the new
session is the head of the list. `ip` is an `unsigned long`; `htonl` takes its
low 32 bits. -/
def libirc_new_dcc_session (e : NewDccEnv) (session : IrcSession) (ip : Nat) (port : Nat)
    (dccmode : DccMode) (ctx : Nat) : Status × IrcSession × List Event :=
  if e.malloc_ok = false then (Status.ERR_NOMEM, session, [])
  else if e.sock < 0 then (Status.ERR_SOCKET, session, [])
  else
    let store (state : DccState) (remote : SockAddr) : Status × IrcSession × List Event :=
      (Status.OK,
        { session with
          dcc_last_id := (session.dcc_last_id + 1) % U32
          dcc_sessions :=
            { id := session.dcc_last_id, sock := e.sock, fd := -1, dccmode := dccmode,
              state := state, timeout := e.now, cb := false,
              received_file_size := 0, file_confirm_offset := 0,
              incoming_buf := List.replicate e.bufsize 0, incoming_offset := 0,
              outgoing_buf := List.replicate e.bufsize 0, outgoing_offset := 0,
              ctx := ctx, remote_addr := remote } :: session.dcc_sessions },
        [])
    if ip = 0 then
      if e.bind_ok = false then (Status.ERR_SOCKET, session, [Event.close e.sock])
      else if e.listen_ok = false then (Status.ERR_SOCKET, session, [Event.close e.sock])
      else store DccState.LISTENING SockAddr.zero
    else
      if e.fcntl_ok = false then (Status.ERR_SOCKET, session, [Event.close e.sock])
      else store DccState.INIT
        { sin_family := AF_INET, sin_port := htons_bytes port, sin_addr := htonl_bytes (ip % U32) }

/-! ### The C library: `sscanf` and `sprintf` for the formats of dcc.c -/

/-- The function `isspace` in the C locale. -/
def isSpace (c : Nat) : Bool := c == 32 || (9 ≤ c && c ≤ 13)

/-- The function `isdigit`. -/
def isDigit (c : Nat) : Bool := 48 ≤ c && c ≤ 57

/-- Skips leading white space. -/
def skipSpace : List Nat → List Nat
  | [] => []
  | c :: cs => if isSpace c then skipSpace cs else c :: cs

/-- Reads decimal digits: the value read, starting from `acc`, and the rest of
the input. -/
def scanDigits : List Nat → Nat → Nat × List Nat
  | [], acc => (acc, [])
  | c :: cs, acc => if isDigit c then scanDigits cs (acc * 10 + (c - 48)) else (acc, c :: cs)

/-- The largest `unsigned long` plus one, for a long of 64 bits. -/
def ULONG : Nat := 18446744073709551616

/-- An unsigned decimal conversion of `sscanf` (`%lu` with `w = 64`, `%hu` with
`w = 16`), done as `strtoul` does: white space is skipped, a sign is allowed,
at least one digit is needed, the value is clamped to the largest
`unsigned long`, negated when the sign is a minus, and stored in `w` bits. -/
def scanUnsigned (w : Nat) (s : List Nat) : Option (Nat × List Nat) :=
  let s1 := skipSpace s
  let neg : Bool := match s1 with
    | 45 :: _ => true
    | _ => false
  let s2 := match s1 with
    | 45 :: r => r
    | 43 :: r => r
    | r => r
  match s2 with
  | [] => none
  | c :: _ =>
    if isDigit c then
      let v := min (scanDigits s2 0).1 (ULONG - 1)
      let v1 := if neg then (ULONG - v) % ULONG else v
      some (v1 % 2 ^ w, (scanDigits s2 0).2)
    else none

/-- A directive of a `sscanf` format: an ordinary character, white space, `%lu`,
`%hu` or `%s`. -/
inductive ScanItem
  | lit (c : Nat) | space | lu | hu | str
  deriving DecidableEq, Repr

/-- A value stored by a conversion of `sscanf`. -/
inductive ScanVal
  | num (n : Nat) | text (s : List Nat)
  deriving DecidableEq, Repr

/-- The function `sscanf`: the values stored by the conversions done before the
first directive that fails; its return value is the length of this list. -/
def sscanf : List ScanItem → List Nat → List ScanVal
  | [], _ => []
  | ScanItem.lit _ :: _, [] => []
  | ScanItem.lit c :: fmt, x :: s => if x = c then sscanf fmt s else []
  | ScanItem.space :: fmt, s => sscanf fmt (skipSpace s)
  | ScanItem.lu :: fmt, s =>
    match scanUnsigned 64 s with
    | some (v, rest) => ScanVal.num v :: sscanf fmt rest
    | none => []
  | ScanItem.hu :: fmt, s =>
    match scanUnsigned 16 s with
    | some (v, rest) => ScanVal.num v :: sscanf fmt rest
    | none => []
  | ScanItem.str :: fmt, s =>
    if (skipSpace s).takeWhile (fun c => !isSpace c) = [] then []
    else
      ScanVal.text ((skipSpace s).takeWhile (fun c => !isSpace c))
        :: sscanf fmt ((skipSpace s).dropWhile (fun c => !isSpace c))

/-- The ordinary characters of a format. -/
def lits (s : List Nat) : List ScanItem := s.map ScanItem.lit

/-- The format `DCC CHAT chat %lu %hu`. -/
def fmt_dcc_chat : List ScanItem :=
  lits [68, 67, 67] ++ [ScanItem.space] ++ lits [67, 72, 65, 84] ++ [ScanItem.space]
    ++ lits [99, 104, 97, 116] ++ [ScanItem.space, ScanItem.lu, ScanItem.space, ScanItem.hu]

/-- The format `DCC SEND %s %lu %hu %lu`. -/
def fmt_dcc_send : List ScanItem :=
  lits [68, 67, 67] ++ [ScanItem.space] ++ lits [83, 69, 78, 68]
    ++ [ScanItem.space, ScanItem.str, ScanItem.space, ScanItem.lu, ScanItem.space,
        ScanItem.hu, ScanItem.space, ScanItem.lu]

/-- The digits of `n` in base ten, most significant first, as characters; the
first argument bounds the number of digits. -/
def decimalAux : Nat → Nat → List Nat
  | 0, _ => []
  | fuel + 1, n => if n < 10 then [48 + n] else decimalAux fuel (n / 10) ++ [48 + n % 10]

/-- What `sprintf` writes for `%lu` and `%u`: the decimal digits of `n`. -/
def decimal (n : Nat) : List Nat := decimalAux (n + 1) n

/-- The text `inet_ntoa` gives for the four bytes of an address: the bytes in
decimal, separated by dots. -/
def inet_ntoa (addr : List Nat) : List Nat :=
  decimal (byteAt addr 0) ++ [46] ++ decimal (byteAt addr 1) ++ [46]
    ++ decimal (byteAt addr 2) ++ [46] ++ decimal (byteAt addr 3)

/-! ### DCC requests and offers -/

/-- A write through the pointer `libirc_new_dcc_session` stored in `*pdcc`: the
new session is the head of the list. -/
def modify_head (f : DccSession → DccSession) : List DccSession → List DccSession
  | [] => []
  | d :: rest => f d :: rest

/-- The function `libirc_dcc_request` (dcc.c, line 689): the parent session
after the call and the events. `req` is a C string. The handlers
`event_dcc_chat_req` and `event_dcc_send_req` are recorded as events; what a
handler does through the public calls (accept, decline) is rendered by these
calls being made after `libirc_dcc_request`, which writes nothing but
`received_file_size` after the handler returns. -/
def libirc_dcc_request (e : NewDccEnv) (session : IrcSession) (nick req : List Nat) :
    IrcSession × List Event :=
  match sscanf fmt_dcc_chat (cstr req) with
  | [ScanVal.num ip, ScanVal.num port] =>
    if session.event_dcc_chat_req then
      match libirc_new_dcc_session e session ip port DccMode.CHAT 0 with
      | (Status.OK, s1, ev) =>
        match s1.dcc_sessions with
        | dcc :: _ => (s1, ev ++ [Event.chat_req nick dcc.remote_addr.sin_addr dcc.id])
        | [] => (s1, ev)
      | (err, s1, ev) => ({ s1 with lasterror := err }, ev)
    else (session, [])
  | _ =>
    match sscanf fmt_dcc_send (cstr req) with
    | [ScanVal.text filename, ScanVal.num ip, ScanVal.num port, ScanVal.num size] =>
      if session.event_dcc_send_req then
        match libirc_new_dcc_session e session ip port DccMode.RECVFILE 0 with
        | (Status.OK, s1, ev) =>
          match s1.dcc_sessions with
          | dcc :: _ =>
            ({ s1 with
                dcc_sessions :=
                  modify_head (fun d => { d with received_file_size := size }) s1.dcc_sessions },
              ev ++ [Event.send_req nick dcc.remote_addr.sin_addr filename size dcc.id])
          | [] => (s1, ev)
        | (err, s1, ev) => ({ s1 with lasterror := err }, ev)
      else (session, [])
    | _ => (session, [])

/-- The outside world of `irc_dcc_chat` and `irc_dcc_sendfile` besides
`libirc_new_dcc_session`: the address `getsockname` gives (`none` when it
fails), and the outcome of `irc_cmd_notice` and of `irc_cmd_ctcp_request`
(`none` for the return value 0, `some err` for a failure that sets `lasterror`
to `err`). -/
structure OfferEnv where
  getsockname : Option SockAddr
  notice : Option Status
  ctcp_request : Option Status
  deriving DecidableEq, Repr

/-- Modelled from the spec: `irc_cmd_notice` and `irc_cmd_ctcp_request`, which
are defined outside the sources at hand, followed by the removal of the new
session when one of them fails. They are formatters over the outbound path
(spec, section 4.4): they queue a command for `nick` and return 0, or fail and
return nonzero with `lasterror` set; the second is not called when the first
fails. The result is the return value of `irc_dcc_chat` from there on. -/
def send_offer (o : OfferEnv) (session : IrcSession) (nick notbuf cmdbuf : List Nat)
    (callback : Bool) (mode : DccMode) : Int × IrcSession × List Event × Option Nat :=
  match session.dcc_sessions with
  | [] => (1, session, [], none)
  | dcc :: rest =>
    match o.notice with
    | some err =>
      (1, { session with lasterror := err, dcc_sessions := rest }, removeEvents dcc, none)
    | none =>
      match o.ctcp_request with
      | some err =>
        (1, { session with lasterror := err, dcc_sessions := rest },
          Event.cmd_notice nick notbuf :: removeEvents dcc, none)
      | none =>
        (0, { session with
              dcc_sessions := { dcc with cb := callback, dccmode := mode } :: rest },
          [Event.cmd_notice nick notbuf, Event.cmd_ctcp_request nick cmdbuf], some dcc.id)

/-- The function `irc_dcc_chat` (dcc.c, line 607): the return value, the parent
session after the call, the events, and the id stored in `*dccid`. -/
def irc_dcc_chat (e : NewDccEnv) (o : OfferEnv) (session : IrcSession) (ctx : Nat)
    (nick : List Nat) (callback : Bool) : Int × IrcSession × List Event × Option Nat :=
  if session.state ≠ DccState.CONNECTED then
    (1, { session with lasterror := Status.ERR_STATE }, [], none)
  else
    match libirc_new_dcc_session e session 0 0 DccMode.CHAT ctx with
    | (Status.OK, s1, ev) =>
      match s1.dcc_sessions with
      | [] => (1, s1, ev, none)
      | dcc :: rest =>
        match o.getsockname with
        | none =>
          (1, { s1 with lasterror := Status.ERR_SOCKET, dcc_sessions := rest },
            ev ++ removeEvents dcc, none)
        | some saddr =>
          let r := send_offer o s1 nick
            ([68, 67, 67, 32, 67, 104, 97, 116, 32, 40] ++ inet_ntoa saddr.sin_addr ++ [41])
            ([68, 67, 67, 32, 67, 72, 65, 84, 32, 99, 104, 97, 116, 32]
              ++ decimal (ntohl_bytes saddr.sin_addr) ++ [32]
              ++ decimal (ntohs_bytes saddr.sin_port))
            callback DccMode.CHAT
          (r.1, r.2.1, ev ++ r.2.2.1, r.2.2.2)
    | (err, s1, ev) => (1, { s1 with lasterror := err }, ev, none)

/-- The outside world of `irc_dcc_sendfile` for the file: whether `stat`
succeeds, whether the file is a regular file, its size, and the descriptor
`open` returns (-1 when it fails). -/
structure FileEnv where
  stat_ok : Bool
  is_reg : Bool
  st_size : Nat
  open_fd : Int
  deriving DecidableEq, Repr

/-- The file name without its path, as `irc_dcc_sendfile` computes it: what
follows the last backslash if there is one, else what follows the last slash
if there is one, else the whole name. -/
def strip_path (filename : List Nat) : List Nat :=
  if 92 ∈ filename then (filename.reverse.takeWhile (fun c => c != 92)).reverse
  else if 47 ∈ filename then (filename.reverse.takeWhile (fun c => c != 47)).reverse
  else filename

/-- The function `irc_dcc_sendfile` (dcc.c, line 799). `filename` is `none` for
a null pointer and otherwise the bytes of the C string; `callback` and `dccid`
are rendered by whether they are not null. -/
def irc_dcc_sendfile (e : NewDccEnv) (o : OfferEnv) (f : FileEnv) (session : IrcSession)
    (ctx : Nat) (nick : List Nat) (filename : Option (List Nat)) (callback : Bool)
    (dccid : Bool) : Int × IrcSession × List Event × Option Nat :=
  match filename with
  | none => (1, { session with lasterror := Status.ERR_INVAL }, [], none)
  | some name =>
    if dccid = false ∨ callback = false then
      (1, { session with lasterror := Status.ERR_INVAL }, [], none)
    else if session.state ≠ DccState.CONNECTED then
      (1, { session with lasterror := Status.ERR_STATE }, [], none)
    else if f.stat_ok = false then
      (1, { session with lasterror := Status.ERR_OPENFILE }, [], none)
    else if f.is_reg = false ∨ f.st_size = 0 then
      (1, { session with lasterror := Status.ERR_NODCCSEND }, [], none)
    else
      match libirc_new_dcc_session e session 0 0 DccMode.SENDFILE ctx with
      | (Status.OK, s1, ev) =>
        match s1.dcc_sessions with
        | [] => (1, s1, ev, none)
        | dcc :: rest =>
          if f.open_fd = -1 then
            (1, { s1 with lasterror := Status.ERR_OPENFILE, dcc_sessions := rest },
              ev ++ removeEvents { dcc with fd := f.open_fd }, none)
          else
            match o.getsockname with
            | none =>
              (1, { s1 with lasterror := Status.ERR_SOCKET, dcc_sessions := rest },
                ev ++ removeEvents { dcc with fd := f.open_fd }, none)
            | some saddr =>
              let r := send_offer o
                { s1 with dcc_sessions := { dcc with fd := f.open_fd } :: rest } nick
                ([68, 67, 67, 32, 83, 101, 110, 100, 32] ++ strip_path (cstr name)
                  ++ [32, 40] ++ inet_ntoa saddr.sin_addr ++ [41])
                ([68, 67, 67, 32, 83, 69, 78, 68, 32] ++ strip_path (cstr name) ++ [32]
                  ++ decimal (ntohl_bytes saddr.sin_addr) ++ [32]
                  ++ decimal (ntohs_bytes saddr.sin_port) ++ [32] ++ decimal f.st_size)
                callback DccMode.SENDFILE
              (r.1, r.2.1, ev ++ r.2.2.1, r.2.2.2)
      | (err, s1, ev) => (1, { s1 with lasterror := err }, ev, none)

/-- The request text `DCC CHAT chat <ip> <port>`, the two numbers in decimal,
as `irc_dcc_chat` writes it with `sprintf`. -/
def dcc_chat_request (ip port : Nat) : List Nat :=
  [68, 67, 67, 32, 67, 72, 65, 84, 32, 99, 104, 97, 116, 32] ++ decimal ip ++ [32]
    ++ decimal port

/-! ## Timeouts, the sessions kept by a pass, and runs of passes -/

/-- The test of line 116 of dcc.c: the session is in state CONNECTED, INIT or
LISTENING and `now - dcc->timeout > ircsession->dcc_timeout`. -/
def dcc_timed_out (env : Env) (dcc : DccSession) : Prop :=
  (dcc.state = DccState.CONNECTED ∨ dcc.state = DccState.INIT
      ∨ dcc.state = DccState.LISTENING)
    ∧ env.now - dcc.timeout > env.dcc_timeout

instance (env : Env) (dcc : DccSession) : Decidable (dcc_timed_out env dcc) := by
  unfold dcc_timed_out; infer_instance

/-- What an iteration of the first loop of `libirc_dcc_add_descriptors` leaves
in the list for a session: the session after the iteration, or nothing when the
iteration unlinked it or has no defined result. -/
def dcc_kept (env : Env) (dcc : DccSession) : Option DccSession :=
  match dcc_preprocess_one env dcc with
  | some (d, false, _) => some d
  | _ => none

/-- Successive passes of `libirc_dcc_process_descriptors` over one session,
each with its own outside world and descriptor sets: the session after the
passes and the events. -/
def dcc_process_passes :
    List (Env × List Int × List Int) → DccSession → Option (DccSession × List Event)
  | [], d => some (d, [])
  | (env, in_set, out_set) :: ps, d =>
    match dcc_process_one env in_set out_set d with
    | none => none
    | some (d1, e1, _) =>
      match dcc_process_passes ps d1 with
      | none => none
      | some (d2, e2) => some (d2, e1 ++ e2)

/-- The number of bytes a trace delivered to the callback: the sum of the
lengths given with a non-null `data` pointer. -/
def dataDelivered : List Event → Nat
  | [] => 0
  | Event.callback c :: ev => (if c.data.isSome then c.length else 0) + dataDelivered ev
  | _ :: ev => dataDelivered ev

/-- What a step of `libirc_dcc_process_descriptors` keeps of a session: the id,
the mode, the timestamp, the expected file size and the callback are not
written, and for a receiver with an empty inbound buffer the inbound buffer is
empty again after the step and `file_confirm_offset` has grown by no more than
the number of bytes the step gave to the callback. -/
def StepKeeps (d d1 : DccSession) (ev : List Event) : Prop :=
  d1.id = d.id ∧ d1.dccmode = d.dccmode ∧ d1.timeout = d.timeout
    ∧ d1.received_file_size = d.received_file_size ∧ d1.cb = d.cb
    ∧ (d.dccmode = DccMode.RECVFILE → d.incoming_offset = 0 →
        d1.incoming_offset = 0
          ∧ d1.file_confirm_offset ≤ d.file_confirm_offset + dataDelivered ev)

/-! ## A chat session: messages queued and written -/

/-- What a successful `irc_dcc_msg` stores in the session (dcc.c, lines
672-677): the text is copied to `outgoing_buf + outgoing_offset`, followed by
CR and LF, and `outgoing_offset` is raised by the length of the text and 2. -/
def dcc_msg_store (text : List Nat) (d : DccSession) : DccSession :=
  { d with
    outgoing_buf := bufWrite d.outgoing_buf d.outgoing_offset (cstr text ++ [0x0D, 0x0A])
    outgoing_offset := d.outgoing_offset + strlen text + 2 }

/-- A step in the life of the outgoing buffer of a chat session: a call of
`irc_dcc_msg` with a text, or a pass of `libirc_dcc_process_descriptors` with
the socket flagged in `out_set`, in which `write` returns `wr`. -/
inductive ChatStep
  | msg (text : List Nat)
  | write (wr : Int)
  deriving DecidableEq, Repr

/-- Runs the steps in order: the session after them and the events. The run is
defined for calls of `irc_dcc_msg` that succeed (the text fits, line 668) and
for writes that, when bytes are offered, accept a positive number of them;
otherwise it is `none`. -/
def chat_run (cbDestroys : CbCall → Bool) :
    List ChatStep → DccSession → Option (DccSession × List Event)
  | [], d => some (d, [])
  | ChatStep.msg text :: steps, d =>
    if strlen text + 2 ≥ d.outgoing_buf.length - d.outgoing_offset then none
    else chat_run cbDestroys steps (dcc_msg_store text d)
  | ChatStep.write wr :: steps, d =>
    if libirc_findcrlf d.outgoing_buf d.outgoing_offset > 0
        ∧ ¬ (0 < wr ∧ wr ≤ libirc_findcrlf d.outgoing_buf d.outgoing_offset) then none
    else
      match dcc_write_ready cbDestroys wr d with
      | none => none
      | some (d1, e1) =>
        match chat_run cbDestroys steps d1 with
        | none => none
        | some (d2, e2) => some (d2, e1 ++ e2)

/-- The bytes the messages of a run make up: each text followed by CR LF, in
the order of the calls. -/
def chatTexts : List ChatStep → List Nat
  | [] => []
  | ChatStep.msg text :: steps => cstr text ++ [0x0D, 0x0A] ++ chatTexts steps
  | ChatStep.write _ :: steps => chatTexts steps

/-! ## Buffer bounds -/

/-- The number of bytes the write block hands to `write` (dcc.c, lines
428-431): the line found by `libirc_findcrlf` for a chat, all of the bytes
queued otherwise. -/
def dcc_write_offset (dcc : DccSession) : Int :=
  if dcc.dccmode = DccMode.CHAT then libirc_findcrlf dcc.outgoing_buf dcc.outgoing_offset
  else (dcc.outgoing_offset : Int)

/-- The offsets of a session lie within its buffers:
`incoming_offset <= sizeof (incoming_buf) - 1` and
`outgoing_offset <= sizeof (outgoing_buf)`. -/
def InBounds (d : DccSession) : Prop :=
  d.incoming_offset ≤ d.incoming_buf.length - 1 ∧ d.outgoing_offset ≤ d.outgoing_buf.length

instance (d : DccSession) : Decidable (InBounds d) := by
  unfold InBounds; infer_instance

/-- The session `d1` has the buffers and the offsets of `d`. -/
def SameBuffers (d d1 : DccSession) : Prop :=
  d1.incoming_buf = d.incoming_buf ∧ d1.incoming_offset = d.incoming_offset
    ∧ d1.outgoing_buf = d.outgoing_buf ∧ d1.outgoing_offset = d.outgoing_offset

/-- The session `d1` has buffers of the sizes of those of `d`, and its offsets
lie within them. -/
def FitsAfter (d d1 : DccSession) : Prop :=
  InBounds d1 ∧ d1.incoming_buf.length = d.incoming_buf.length
    ∧ d1.outgoing_buf.length = d.outgoing_buf.length

/-! ## Runs of a file receiver, and concrete sessions -/

/-- The bytes a trace puts on the wire: for each `write` that returned `ret`,
the first `ret` bytes offered. -/
def wireBytes : List Event → List Nat
  | [] => []
  | Event.write _ offered ret :: ev => offered.take ret.toNat ++ wireBytes ev
  | _ :: ev => wireBytes ev

/-- The event is a callback with status 0 and a null `data` pointer. -/
def isCompletion : Event → Bool
  | Event.callback c => decide (c.status = Status.OK) && c.data.isNone
  | _ => false

/-- Consecutive passes in which the socket of the session is flagged in
`out_set`; `ws` are the return values of the successive calls of `write`. -/
def dcc_write_steps (cbDestroys : CbCall → Bool) :
    List Int → DccSession → Option (DccSession × List Event)
  | [], d => some (d, [])
  | w :: ws, d =>
    match dcc_write_ready cbDestroys w d with
    | none => none
    | some (d1, e1) =>
      match dcc_write_steps cbDestroys ws d1 with
      | none => none
      | some (d2, e2) => some (d2, e1 ++ e2)

/-- One round of a file receiver: a read that returns `data`, then writes that
return `writes`. -/
structure RecvRound where
  data : List Nat
  writes : List Int
  deriving DecidableEq, Repr

/-- Runs one round: the read block, then the write blocks. -/
def recv_round (cbDestroys : CbCall → Bool) (r : RecvRound) (d : DccSession) :
    Option (DccSession × List Event) :=
  match dcc_read_ready cbDestroys (some r.data) d with
  | none => none
  | some (d1, e1) =>
    match dcc_write_steps cbDestroys r.writes d1 with
    | none => none
    | some (d2, e2) => some (d2, e1 ++ e2)

/-- Runs the rounds in order; gives, for each round, the session after it and
the events of the round. -/
def recv_run (cbDestroys : CbCall → Bool) :
    List RecvRound → DccSession → Option (List (DccSession × List Event))
  | [], _ => some []
  | r :: rs, d =>
    match recv_round cbDestroys r d with
    | none => none
    | some (d1, e1) =>
      match recv_run cbDestroys rs d1 with
      | none => none
      | some out => some ((d1, e1) :: out)

/-- The running sums `acc + n1`, `acc + n1 + n2`, ... of a list of sizes. -/
def runningSums : Nat → List Nat → List Nat
  | _, [] => []
  | acc, n :: ns => (acc + n) :: runningSums (acc + n) ns

/-- The return values of the writes of one ACK: each write accepts at least one
byte and together they accept the four bytes. -/
def AckWrites (ws : List Int) : Prop := (∀ w ∈ ws, 0 < w) ∧ ws.sum = 4

/-- A session with the given id, socket, mode and state, a callback installed,
no open file, and empty buffers of eight bytes. -/
def exSession (id : Nat) (sock : Int) (mode : DccMode) (st : DccState) : DccSession :=
  { id := id, sock := sock, fd := -1, dccmode := mode, state := st, timeout := 0, cb := true,
    received_file_size := 0, file_confirm_offset := 0,
    incoming_buf := List.replicate 8 0, incoming_offset := 0,
    outgoing_buf := List.replicate 8 0, outgoing_offset := 0 }

/-- An outside world in which nothing times out, every socket read returns the
three bytes `h`, `i`, LF, every write accepts one byte, and the callback never
destroys its session. -/
def exEnv : Env :=
  { now := 0, dcc_timeout := 60, fileRead := fun _ => none,
    sockRead := fun _ => some [104, 105, 10], sockWrite := fun _ => 1,
    accept := fun _ => 9, getpeername := fun _ => true, cbDestroys := fun _ => false }

/-- A connected parent session with the given DCC list, no error recorded, the
DCC mutex free and both request handlers set. -/
def exIrc (l : List DccSession) : IrcSession :=
  { state := DccState.CONNECTED, lasterror := Status.OK, local_addr := [127, 0, 0, 1],
    dcc_last_id := 10, dcc_sessions := l, mutex_dcc := 0,
    event_dcc_chat_req := true, event_dcc_send_req := true }

/-- An outside world in which every call of `libirc_new_dcc_session` succeeds,
the socket is 5, the time is 0 and the buffers have eight bytes. -/
def exNewEnv : NewDccEnv :=
  { malloc_ok := true, sock := 5, bind_ok := true, listen_ok := true, fcntl_ok := true,
    now := 0, bufsize := 8 }

/-- The request `DCC SEND f 2130706433 4000 3`: a file `f` of 3 bytes offered
from 127.0.0.1, port 4000. -/
def exSendReq : List Nat :=
  [68, 67, 67, 32, 83, 69, 78, 68, 32, 102, 32, 50, 49, 51, 48, 55, 48, 54, 52, 51, 51, 32,
    52, 48, 48, 48, 32, 51]

/-- The session `libirc_dcc_request` makes of `exSendReq` in the world
`exNewEnv` with the counter at 10, in the given state and with the given
callback and context. -/
def exOffered (st : DccState) (cb : Bool) (ctx : Nat) : DccSession :=
  { id := 10, sock := 5, fd := -1, dccmode := DccMode.RECVFILE, state := st, timeout := 0,
    cb := cb, received_file_size := 3, file_confirm_offset := 0,
    incoming_buf := List.replicate 8 0, incoming_offset := 0,
    outgoing_buf := List.replicate 8 0, outgoing_offset := 0, ctx := ctx,
    remote_addr := { sin_family := AF_INET, sin_port := [15, 160], sin_addr := [127, 0, 0, 1] } }

/-- An outside world in which `getsockname` gives 127.0.0.1, port 4000, and the
two commands of an offer are queued. -/
def exOfferEnv : OfferEnv :=
  { getsockname := some
      { sin_family := AF_INET, sin_port := [15, 160], sin_addr := [127, 0, 0, 1] },
    notice := none, ctcp_request := none }

/-- A regular file of 3 bytes that `open` gives the descriptor 7. -/
def exFileEnv : FileEnv := { stat_ok := true, is_reg := true, st_size := 3, open_fd := 7 }

/-- The session `irc_dcc_sendfile` makes in the worlds `exNewEnv`, `exOfferEnv`
and `exFileEnv` with the counter at 10 and the context 3, on the given socket
and in the given state. -/
def exSender (sock : Int) (st : DccState) : DccSession :=
  { id := 10, sock := sock, fd := 7, dccmode := DccMode.SENDFILE, state := st, timeout := 0,
    cb := true, received_file_size := 0, file_confirm_offset := 0,
    incoming_buf := List.replicate 8 0, incoming_offset := 0,
    outgoing_buf := List.replicate 8 0, outgoing_offset := 0, ctx := 3 }

/-- An outside world as `exEnv` in which the file read gives the bytes 1, 2, 3
and every socket read gives one byte. -/
def exSendEnv : Env :=
  { exEnv with fileRead := fun _ => some [1, 2, 3], sockRead := fun _ => some [1] }

/-- An outside world as `exEnv` in which the file read gives the end of the
file. -/
def exEofEnv : Env := { exEnv with fileRead := fun _ => some [] }

/-! ### Lemmas on the two scanning loops -/

theorem findcrlf_loop_found (buf : List Nat) (length : Int) (k : Nat)
    (hk : IsCrlfAt buf length k) :
    ∀ (fuel offset : Nat), offset ≤ k → k < offset + fuel →
      (∀ j, offset ≤ j → j < k → ¬ IsCrlfAt buf length j) →
      libirc_findcrlf_loop buf length fuel offset = (k : Int) + 2 := by
  intro fuel
  induction fuel with
  | zero => intro offset h1 h2; omega
  | succ f ih =>
    intro offset h1 h2 hmin
    have hlt : (offset : Int) < length - 1 := by
      have := hk.1; omega
    by_cases hko : offset = k
    · subst hko
      simp [libirc_findcrlf_loop, hlt, hk.2.1, hk.2.2]
    · have hnot : ¬ (byteAt buf offset = 0x0D ∧ byteAt buf (offset + 1) = 0x0A) := by
        intro hc
        exact hmin offset (le_refl _) (by omega) ⟨by omega, hc.1, hc.2⟩
      simp only [libirc_findcrlf_loop, hlt, if_true, hnot, if_false]
      exact ih (offset + 1) (by omega) (by omega)
        (fun j hj1 hj2 => hmin j (by omega) hj2)

theorem findcrlf_loop_none (buf : List Nat) (length : Int) :
    ∀ (fuel offset : Nat),
      (∀ j, offset ≤ j → ¬ IsCrlfAt buf length j) →
      libirc_findcrlf_loop buf length fuel offset = 0 := by
  intro fuel
  induction fuel with
  | zero => intro offset _; rfl
  | succ f ih =>
    intro offset hnone
    by_cases hlt : (offset : Int) < length - 1
    · have hnot : ¬ (byteAt buf offset = 0x0D ∧ byteAt buf (offset + 1) = 0x0A) := by
        intro hc
        exact hnone offset (le_refl _) ⟨by omega, hc.1, hc.2⟩
      simp only [libirc_findcrlf_loop, hlt, if_true, hnot, if_false]
      exact ih (offset + 1) (fun j hj => hnone j (by omega))
    · simp [libirc_findcrlf_loop, hlt]

theorem byteAt_set_ne (buf : List Nat) (i j v : Nat) (h : i ≠ j) :
    byteAt (buf.set i v) j = byteAt buf j := by
  simp [byteAt, List.getD_eq_getElem?_getD, List.getElem?_set_ne h]

theorem byteAt_set_eq (buf : List Nat) (i v : Nat) (h : i < buf.length) :
    byteAt (buf.set i v) i = v := by
  simp [byteAt, List.getD_eq_getElem?_getD, h]

theorem byteAt_ne_zero_lt (buf : List Nat) (i : Nat) (h : byteAt buf i ≠ 0) :
    i < buf.length := by
  by_contra hge
  apply h
  simp [byteAt, List.getD_eq_getElem?_getD, List.getElem?_eq_none (Nat.le_of_not_lt hge)]

theorem IsCrOrLf.lt_length {buf : List Nat} {i : Nat} (h : IsCrOrLf buf i) :
    i < buf.length := by
  apply byteAt_ne_zero_lt
  rcases h with h | h <;> rw [h] <;> decide

theorem findcrorlf_loop_found (buf : List Nat) (length : Int) (i : Nat)
    (hi : (i : Int) < length) (hc : IsCrOrLf buf i) :
    ∀ (fuel offset : Nat), offset ≤ i → i < offset + fuel →
      (∀ j, offset ≤ j → j < i → ¬ IsCrOrLf buf j) →
      libirc_findcrorlf_loop buf length fuel offset
        = (buf.set i 0, crorlfResult buf length i) := by
  intro fuel
  induction fuel with
  | zero => intro offset h1 h2; omega
  | succ f ih =>
    intro offset h1 h2 hmin
    have hlt : (offset : Int) < length := by omega
    by_cases hko : offset = i
    · subst hko
      have hc2 : byteAt buf offset = 0x0D ∨ byteAt buf offset = 0x0A := hc
      have hne : byteAt (buf.set offset 0) (offset + 1) = byteAt buf (offset + 1) :=
        byteAt_set_ne buf offset (offset + 1) 0 (by omega)
      simp only [libirc_findcrorlf_loop, hlt, if_true, hc2, hne, crorlfResult, IsCrOrLf]
      split
      · simp only [Prod.mk.injEq, true_and]; push_cast; ring
      · simp
    · have hnot : ¬ (byteAt buf offset = 0x0D ∨ byteAt buf offset = 0x0A) :=
        hmin offset (le_refl _) (by omega)
      simp only [libirc_findcrorlf_loop, hlt, if_true, hnot, if_false]
      exact ih (offset + 1) (by omega) (by omega)
        (fun j hj1 hj2 => hmin j (by omega) hj2)

theorem findcrorlf_loop_none (buf : List Nat) (length : Int) :
    ∀ (fuel offset : Nat),
      (∀ j : Nat, offset ≤ j → (j : Int) < length → ¬ IsCrOrLf buf j) →
      libirc_findcrorlf_loop buf length fuel offset = (buf, 0) := by
  intro fuel
  induction fuel with
  | zero => intro offset _; rfl
  | succ f ih =>
    intro offset hnone
    by_cases hlt : (offset : Int) < length
    · have hnot : ¬ (byteAt buf offset = 0x0D ∨ byteAt buf offset = 0x0A) :=
        hnone offset (le_refl _) hlt
      simp only [libirc_findcrorlf_loop, hlt, if_true, hnot, if_false]
      exact ih (offset + 1) (fun j hj => hnone j (by omega))
    · simp [libirc_findcrorlf_loop, hlt]

/-- The first index below `length` holding a CR or LF, when there is one. -/
theorem exists_first_crorlf (buf : List Nat) (length : Int)
    (h : ∃ j : Nat, (j : Int) < length ∧ IsCrOrLf buf j) :
    ∃ i : Nat, (i : Int) < length ∧ IsCrOrLf buf i ∧ ∀ j < i, ¬ IsCrOrLf buf j := by
  classical
  have h2 : ∃ j : Nat, IsCrOrLf buf j := by
    obtain ⟨j, _, hj⟩ := h
    exact ⟨j, hj⟩
  refine ⟨Nat.find h2, ?_, Nat.find_spec h2, fun j hj => Nat.find_min h2 hj⟩
  obtain ⟨j, hj1, hj2⟩ := h
  have := Nat.find_min' h2 hj2
  omega

theorem findcrorlf_found (buf : List Nat) (length : Int) (i : Nat)
    (hi : (i : Int) < length) (hc : IsCrOrLf buf i) (hmin : ∀ j < i, ¬ IsCrOrLf buf j) :
    libirc_findcrorlf buf length = (buf.set i 0, crorlfResult buf length i) := by
  unfold libirc_findcrorlf
  exact findcrorlf_loop_found buf length i hi hc length.toNat 0 (Nat.zero_le _) (by omega)
    (fun j _ hj => hmin j hj)

theorem findcrorlf_none (buf : List Nat) (length : Int)
    (h : ∀ j : Nat, (j : Int) < length → ¬ IsCrOrLf buf j) :
    libirc_findcrorlf buf length = (buf, 0) := by
  unfold libirc_findcrorlf
  exact findcrorlf_loop_none buf length length.toNat 0 (fun j _ hj => h j hj)

theorem crorlfResult_bounds (buf : List Nat) (length : Int) (i : Nat)
    (hi : (i : Int) < length) :
    (i : Int) < crorlfResult buf length i ∧ crorlfResult buf length i ≤ length := by
  unfold crorlfResult
  split
  · rename_i h
    have := h.1
    push_cast at this
    omega
  · omega

/-! ### Claims on `libirc_findcrlf` and `libirc_findcrorlf` -/

/-- C1 (evaluation of the code): on the two-byte buffer CR LF with length 2,
the first terminator is at index 0 and the next byte is a LF inside the buffer,
yet `libirc_findcrorlf` returns 1 and not 2: the guard of the second byte is
`offset < length - 1`, which leaves out the last byte of the buffer. -/
theorem libirc_findcrorlf_pair_at_end :
    IsCrOrLf [0x0D, 0x0A] 0 ∧ (0 : Int) + 1 < 2 ∧ IsCrOrLf [0x0D, 0x0A] (0 + 1)
      ∧ (libirc_findcrorlf [0x0D, 0x0A] 2).2 = 1
      ∧ (libirc_findcrorlf [0x0D, 0x0A] 2).1 = [0, 0x0A] := by
  decide

/-- C2: `libirc_findcrlf buf n` returns `k + 2` for the smallest `k` with
`k + 1 < n`, `buf[k] = CR` and `buf[k+1] = LF`; it returns 0 exactly when there
is no such `k`; so the result is 0, or lies in `[2, n]` with CR LF as the two
bytes just before it. -/
theorem libirc_findcrlf_spec (buf : List Nat) (n : Int) :
    (∀ k : Nat, IsCrlfAt buf n k → (∀ j < k, ¬ IsCrlfAt buf n j) →
        libirc_findcrlf buf n = (k : Int) + 2)
    ∧ (libirc_findcrlf buf n = 0 ↔ ¬ ∃ k : Nat, IsCrlfAt buf n k)
    ∧ (libirc_findcrlf buf n = 0 ∨
        ∃ r : Nat, libirc_findcrlf buf n = (r : Int) ∧ 2 ≤ r ∧ (r : Int) ≤ n
          ∧ byteAt buf (r - 2) = 0x0D ∧ byteAt buf (r - 1) = 0x0A) := by
  classical
  have hfound : ∀ k : Nat, IsCrlfAt buf n k → (∀ j < k, ¬ IsCrlfAt buf n j) →
      libirc_findcrlf buf n = (k : Int) + 2 := by
    intro k hk hmin
    unfold libirc_findcrlf
    have := hk.1
    exact findcrlf_loop_found buf n k hk n.toNat 0 (Nat.zero_le _) (by omega)
      (fun j _ hj => hmin j hj)
  have hnone : (¬ ∃ k : Nat, IsCrlfAt buf n k) → libirc_findcrlf buf n = 0 := by
    intro h
    unfold libirc_findcrlf
    exact findcrlf_loop_none buf n n.toNat 0 (fun j _ hj => h ⟨j, hj⟩)
  refine ⟨hfound, ⟨?_, hnone⟩, ?_⟩
  · intro h0 hex
    have hk := Nat.find_spec hex
    have := hfound (Nat.find hex) hk (fun j hj => Nat.find_min hex hj)
    omega
  · by_cases hex : ∃ k : Nat, IsCrlfAt buf n k
    · right
      have hk := Nat.find_spec hex
      have hr := hfound (Nat.find hex) hk (fun j hj => Nat.find_min hex hj)
      refine ⟨Nat.find hex + 2, by rw [hr]; push_cast; ring, by omega, ?_, ?_, ?_⟩
      · have := hk.1
        push_cast
        omega
      · simpa using hk.2.1
      · simpa using hk.2.2
    · left
      exact hnone hex

/-- C3: `libirc_findcrorlf` returns 0 exactly when the first `n` bytes hold
neither CR nor LF, and then the buffer is unchanged; otherwise, with `i` the
index of the first CR or LF, the buffer after the call is the buffer before it
with byte `i` set to NUL and nothing else changed, no byte before `i` is a CR or
LF, and the result `r` satisfies `i < r ≤ n`. -/
theorem libirc_findcrorlf_frame (buf : List Nat) (n : Int) :
    ((libirc_findcrorlf buf n).2 = 0 ↔ ∀ j : Nat, (j : Int) < n → ¬ IsCrOrLf buf j)
    ∧ ((libirc_findcrorlf buf n).2 = 0 → (libirc_findcrorlf buf n).1 = buf)
    ∧ ((∃ j : Nat, (j : Int) < n ∧ IsCrOrLf buf j) →
        ∃ i : Nat, (i : Int) < n ∧ IsCrOrLf buf i ∧ (∀ j < i, ¬ IsCrOrLf buf j)
          ∧ (libirc_findcrorlf buf n).1 = buf.set i 0
          ∧ byteAt (libirc_findcrorlf buf n).1 i = 0
          ∧ (∀ j, j ≠ i → byteAt (libirc_findcrorlf buf n).1 j = byteAt buf j)
          ∧ (libirc_findcrorlf buf n).1.length = buf.length
          ∧ (i : Int) < (libirc_findcrorlf buf n).2
          ∧ (libirc_findcrorlf buf n).2 ≤ n) := by
  have hfound : (∃ j : Nat, (j : Int) < n ∧ IsCrOrLf buf j) →
      ∃ i : Nat, (i : Int) < n ∧ IsCrOrLf buf i ∧ (∀ j < i, ¬ IsCrOrLf buf j)
        ∧ libirc_findcrorlf buf n = (buf.set i 0, crorlfResult buf n i) := by
    intro hex
    obtain ⟨i, hi, hc, hmin⟩ := exists_first_crorlf buf n hex
    exact ⟨i, hi, hc, hmin, findcrorlf_found buf n i hi hc hmin⟩
  have hzero : (libirc_findcrorlf buf n).2 = 0 →
      ∀ j : Nat, (j : Int) < n → ¬ IsCrOrLf buf j := by
    intro h0 j hj hc
    obtain ⟨i, hi, _, _, heq⟩ := hfound ⟨j, hj, hc⟩
    have hb := crorlfResult_bounds buf n i hi
    rw [heq] at h0
    simp only at h0
    omega
  refine ⟨⟨hzero, fun h => by rw [findcrorlf_none buf n h]⟩, ?_, ?_⟩
  · intro h0
    rw [findcrorlf_none buf n (hzero h0)]
  · intro hex
    obtain ⟨i, hi, hc, hmin, heq⟩ := hfound hex
    have hb := crorlfResult_bounds buf n i hi
    refine ⟨i, hi, hc, hmin, ?_, ?_, ?_, ?_, ?_, ?_⟩
    · rw [heq]
    · rw [heq]; exact byteAt_set_eq buf i 0 hc.lt_length
    · intro j hj
      rw [heq]; exact byteAt_set_ne buf i j 0 (Ne.symm hj)
    · rw [heq]; simp
    · rw [heq]; exact hb.1
    · rw [heq]; exact hb.2


/-! ### Byte order and buffer lemmas -/

theorem ntohl_htonl (x : Nat) (rest : List Nat) :
    ntohl_bytes (htonl_bytes x ++ rest) = x % U32 := by
  simp only [ntohl_bytes, htonl_bytes, byteAt, U32]
  simp
  omega

theorem htonl_bytes_length (x : Nat) : (htonl_bytes x).length = 4 := rfl

theorem bufWrite_zero (buf bs : List Nat) : bufWrite buf 0 bs = bs ++ buf.drop bs.length := by
  simp [bufWrite]

/-! ### The read block -/

/-- The read block on a RECVFILE session in state CONNECTED with an empty
inbound buffer, when the callback does not destroy the session. -/
theorem dcc_read_ready_recvfile (cbDestroys : CbCall → Bool) (dcc : DccSession) (bs : List Nat)
    (hmode : dcc.dccmode = DccMode.RECVFILE) (hstate : dcc.state = DccState.CONNECTED)
    (hin : dcc.incoming_offset = 0) (hcb : dcc.cb = true) (hpos : 0 < bs.length)
    (hnd : cbDestroys (CbCall.mk dcc.id Status.OK (some bs) bs.length) = false) :
    dcc_read_ready cbDestroys (some bs) dcc
      = some ({ dcc with
            state := DccState.CONFIRM_SIZE
            file_confirm_offset := (dcc.file_confirm_offset + bs.length) % U32
            incoming_buf := bufWrite dcc.incoming_buf 0 bs
            incoming_offset := 0
            outgoing_buf := bufWrite dcc.outgoing_buf 0
              (htonl_bytes ((dcc.file_confirm_offset + bs.length) % U32))
            outgoing_offset := 4 },
          [Event.read dcc.sock (dcc.incoming_buf.length - 1),
            Event.callback (CbCall.mk dcc.id Status.OK (some bs) bs.length)]) := by
  obtain ⟨b, bs', rfl⟩ := List.exists_cons_of_ne_nil (List.ne_nil_of_length_pos hpos)
  simp only [List.length_cons] at hnd
  simp [dcc_read_ready, hmode, hstate, hin, invokeCb, hcb, hnd, bufWrite]

/-! ### Claims on `libirc_dcc_add_descriptors` and `libirc_dcc_process_descriptors` -/

/-- C4 (evaluation of the code): with three sessions in the list, two LISTENING
on sockets 5 and 6 and one CONNECTING on socket 7, none timed out,
`libirc_dcc_add_descriptors` keeps the three sessions and registers the head
only: `in_set` is `[5]` and `out_set` is empty. -/
theorem libirc_dcc_add_descriptors_registers_head_only :
    libirc_dcc_add_descriptors exEnv
        [exSession 1 5 DccMode.CHAT DccState.LISTENING,
         exSession 2 6 DccMode.CHAT DccState.LISTENING,
         exSession 3 7 DccMode.CHAT DccState.CONNECTING]
        { in_set := [], out_set := [], maxfd := 0 }
      = some ([exSession 1 5 DccMode.CHAT DccState.LISTENING,
               exSession 2 6 DccMode.CHAT DccState.LISTENING,
               exSession 3 7 DccMode.CHAT DccState.CONNECTING],
              { in_set := [5], out_set := [], maxfd := 5 }, []) := by
  decide

/-- C5 (evaluation of the code): with two CHAT sessions in state CONNECTED on
sockets 5 and 6, both flagged in `in_set`, one pass of
`libirc_dcc_process_descriptors` reads socket 5 only: the trace has no read of
socket 6 and the second session is unchanged. -/
theorem libirc_dcc_process_descriptors_stops_after_first :
    libirc_dcc_process_descriptors exEnv [5, 6] []
        [exSession 1 5 DccMode.CHAT DccState.CONNECTED,
         exSession 2 6 DccMode.CHAT DccState.CONNECTED]
      = some ([{ exSession 1 5 DccMode.CHAT DccState.CONNECTED with
                  incoming_buf := [104, 105, 0, 0, 0, 0, 0, 0] },
               exSession 2 6 DccMode.CHAT DccState.CONNECTED],
              [Event.read 5 7,
               Event.callback (CbCall.mk 1 Status.OK (some [104, 105]) 2)]) := by
  decide

/-- C6 (evaluation of the code): a CHAT session in state CONNECTED with an
empty inbound buffer reads the two bytes `h`, `i`, which hold no line
terminator; the callback is invoked all the same with status 0, data `hi` and
length 2, and the two bytes stay buffered. -/
theorem dcc_read_ready_chat_without_terminator :
    dcc_read_ready (fun _ => false) (some [104, 105])
        (exSession 1 5 DccMode.CHAT DccState.CONNECTED)
      = some ({ exSession 1 5 DccMode.CHAT DccState.CONNECTED with
                  incoming_buf := [104, 105, 0, 0, 0, 0, 0, 0], incoming_offset := 2 },
              [Event.read 5 7,
               Event.callback (CbCall.mk 1 Status.OK (some [104, 105]) 2)]) := by
  decide

/-- C7: the read step of a receiver. For a RECVFILE session in state CONNECTED
with an empty inbound buffer and a callback that does not destroy the session,
a read of `N > 0` bytes gives exactly these bytes to the callback with status 0
and length `N`, sets the state to CONFIRM_SIZE, adds `N` to
`file_confirm_offset` (in `unsigned int` arithmetic, so exactly `N` more when
the sum is below 2^32), stores the new `file_confirm_offset` in network byte
order in the first four bytes of the outgoing buffer, sets `outgoing_offset` to
4 and `incoming_offset` to 0. -/
theorem recvfile_read_step (cbDestroys : CbCall → Bool) (dcc : DccSession) (bs : List Nat)
    (hmode : dcc.dccmode = DccMode.RECVFILE) (hstate : dcc.state = DccState.CONNECTED)
    (hin : dcc.incoming_offset = 0) (hcb : dcc.cb = true) (hpos : 0 < bs.length)
    (hnd : cbDestroys (CbCall.mk dcc.id Status.OK (some bs) bs.length) = false) :
    ∃ d : DccSession,
      dcc_read_ready cbDestroys (some bs) dcc
        = some (d, [Event.read dcc.sock (dcc.incoming_buf.length - 1),
            Event.callback (CbCall.mk dcc.id Status.OK (some bs) bs.length)])
      ∧ d.state = DccState.CONFIRM_SIZE
      ∧ d.file_confirm_offset = (dcc.file_confirm_offset + bs.length) % U32
      ∧ (dcc.file_confirm_offset + bs.length < U32 →
          d.file_confirm_offset = dcc.file_confirm_offset + bs.length)
      ∧ d.outgoing_buf.take 4 = htonl_bytes d.file_confirm_offset
      ∧ ntohl_bytes d.outgoing_buf = d.file_confirm_offset
      ∧ d.outgoing_offset = 4
      ∧ d.incoming_offset = 0 := by
  refine ⟨_, dcc_read_ready_recvfile cbDestroys dcc bs hmode hstate hin hcb hpos hnd,
    rfl, rfl, ?_, ?_, ?_, rfl, rfl⟩
  · intro h
    exact Nat.mod_eq_of_lt h
  · simp [bufWrite_zero, htonl_bytes_length]
  · simp only [bufWrite_zero]
    rw [ntohl_htonl]
    exact Nat.mod_mod _ _

/-- Witness for C7: a receiver with empty buffers reads the three bytes 1, 2, 3. -/
theorem recvfile_read_step_witness :
    (exSession 1 5 DccMode.RECVFILE DccState.CONNECTED).dccmode = DccMode.RECVFILE
    ∧ (exSession 1 5 DccMode.RECVFILE DccState.CONNECTED).state = DccState.CONNECTED
    ∧ (exSession 1 5 DccMode.RECVFILE DccState.CONNECTED).incoming_offset = 0
    ∧ (exSession 1 5 DccMode.RECVFILE DccState.CONNECTED).cb = true
    ∧ 0 < [1, 2, 3].length
    ∧ ∃ d : DccSession,
      dcc_read_ready (fun _ => false) (some [1, 2, 3])
          (exSession 1 5 DccMode.RECVFILE DccState.CONNECTED)
        = some (d, [Event.read 5 (8 - 1),
            Event.callback (CbCall.mk 1 Status.OK (some [1, 2, 3]) 3)])
      ∧ d.state = DccState.CONFIRM_SIZE
      ∧ d.file_confirm_offset = (0 + 3) % U32
      ∧ (0 + 3 < U32 → d.file_confirm_offset = 0 + 3)
      ∧ d.outgoing_buf.take 4 = htonl_bytes d.file_confirm_offset
      ∧ ntohl_bytes d.outgoing_buf = d.file_confirm_offset
      ∧ d.outgoing_offset = 4
      ∧ d.incoming_offset = 0 :=
  ⟨rfl, rfl, rfl, rfl, by decide,
    recvfile_read_step (fun _ => false) (exSession 1 5 DccMode.RECVFILE DccState.CONNECTED)
      [1, 2, 3] rfl rfl rfl rfl (by decide) rfl⟩

/-- The error exit of a block, for a session with a callback installed: the
callback gets the error, the session is marked REMOVED with its socket closed,
whether or not the callback destroyed the session itself. -/
theorem dccFail_eq (cbDestroys : CbCall → Bool) (dcc : DccSession) (err : Status)
    (hcb : dcc.cb = true) :
    dccFail cbDestroys dcc err
      = some ({ dcc with sock := -1, state := DccState.REMOVED },
          Event.callback (CbCall.mk dcc.id err none 0)
            :: (if dcc.sock ≥ 0 then [Event.close dcc.sock] else [])) := by
  by_cases hd : cbDestroys (CbCall.mk dcc.id err none 0) = true
  · simp [dccFail, invokeCb, hcb, hd, DccSession.destroy]
  · simp [dccFail, invokeCb, hcb, hd, DccSession.destroy]

/-- The read block on a SENDFILE session in state CONFIRM_SIZE when the read
completes the four bytes of the ACK. -/
theorem dcc_read_ready_sendfile_ack (cbDestroys : CbCall → Bool) (dcc : DccSession)
    (bs : List Nat) (hmode : dcc.dccmode = DccMode.SENDFILE)
    (hstate : dcc.state = DccState.CONFIRM_SIZE) (hpos : 0 < bs.length)
    (h4 : dcc.incoming_offset + bs.length = 4) :
    dcc_read_ready cbDestroys (some bs) dcc
      = if dcc.file_confirm_offset
            = ntohl_bytes (bufWrite dcc.incoming_buf dcc.incoming_offset bs) then
          some ({ dcc with
              incoming_buf := bufWrite dcc.incoming_buf dcc.incoming_offset bs
              incoming_offset := 0
              state := DccState.CONNECTED },
            [Event.read dcc.sock ((dcc.incoming_buf.length - 1) - dcc.incoming_offset)])
        else
          (dccFail cbDestroys { dcc with
              incoming_buf := bufWrite dcc.incoming_buf dcc.incoming_offset bs
              incoming_offset := 4 } Status.ERR_WRITE).map
            (fun r => (r.1,
              [Event.read dcc.sock ((dcc.incoming_buf.length - 1) - dcc.incoming_offset)]
                ++ r.2)) := by
  obtain ⟨b, bs', rfl⟩ := List.exists_cons_of_ne_nil (List.ne_nil_of_length_pos hpos)
  simp only [List.length_cons] at h4
  simp only [dcc_read_ready, hmode, hstate, List.length_cons, h4]
  simp

/-- C8: the ACK check of a sender. For a SENDFILE session in state CONFIRM_SIZE
with a callback installed, when a read brings `incoming_offset` to exactly 4
the first four bytes of the inbound buffer are decoded as a big-endian 32-bit
number; if it equals `file_confirm_offset` the state becomes CONNECTED and
`incoming_offset` becomes 0 and no callback is invoked (the trace is the read
alone); otherwise the callback is invoked with status `ERR_WRITE` and the
session is marked REMOVED. -/
theorem sendfile_ack_check (cbDestroys : CbCall → Bool) (dcc : DccSession) (bs : List Nat)
    (hmode : dcc.dccmode = DccMode.SENDFILE) (hstate : dcc.state = DccState.CONFIRM_SIZE)
    (hcb : dcc.cb = true) (hpos : 0 < bs.length)
    (h4 : dcc.incoming_offset + bs.length = 4) :
    (ntohl_bytes (bufWrite dcc.incoming_buf dcc.incoming_offset bs) = dcc.file_confirm_offset →
      dcc_read_ready cbDestroys (some bs) dcc
        = some ({ dcc with
              incoming_buf := bufWrite dcc.incoming_buf dcc.incoming_offset bs
              incoming_offset := 0
              state := DccState.CONNECTED },
            [Event.read dcc.sock ((dcc.incoming_buf.length - 1) - dcc.incoming_offset)]))
    ∧ (ntohl_bytes (bufWrite dcc.incoming_buf dcc.incoming_offset bs)
          ≠ dcc.file_confirm_offset →
      dcc_read_ready cbDestroys (some bs) dcc
        = some ({ dcc with
              incoming_buf := bufWrite dcc.incoming_buf dcc.incoming_offset bs
              incoming_offset := 4
              sock := -1
              state := DccState.REMOVED },
            Event.read dcc.sock ((dcc.incoming_buf.length - 1) - dcc.incoming_offset)
              :: Event.callback (CbCall.mk dcc.id Status.ERR_WRITE none 0)
              :: (if dcc.sock ≥ 0 then [Event.close dcc.sock] else []))) := by
  have h := dcc_read_ready_sendfile_ack cbDestroys dcc bs hmode hstate hpos h4
  constructor
  · intro heq
    rw [h, if_pos heq.symm]
  · intro hne
    rw [h, if_neg (fun hc => hne hc.symm), dccFail_eq _ _ _ (by exact hcb)]
    rfl

/-- Witness for C8: a sender that has sent 7 bytes holds the first three bytes
of the ACK and reads the fourth, 7. -/
theorem sendfile_ack_check_witness :
    ({ exSession 1 5 DccMode.SENDFILE DccState.CONFIRM_SIZE with
        file_confirm_offset := 7, incoming_offset := 3 } : DccSession).dccmode
      = DccMode.SENDFILE
    ∧ ({ exSession 1 5 DccMode.SENDFILE DccState.CONFIRM_SIZE with
        file_confirm_offset := 7, incoming_offset := 3 } : DccSession).state
      = DccState.CONFIRM_SIZE
    ∧ ({ exSession 1 5 DccMode.SENDFILE DccState.CONFIRM_SIZE with
        file_confirm_offset := 7, incoming_offset := 3 } : DccSession).cb = true
    ∧ 0 < [7].length
    ∧ 3 + [7].length = 4
    ∧ ntohl_bytes (bufWrite (List.replicate 8 0) 3 [7]) = 7
    ∧ dcc_read_ready (fun _ => false) (some [7])
        { exSession 1 5 DccMode.SENDFILE DccState.CONFIRM_SIZE with
          file_confirm_offset := 7, incoming_offset := 3 }
      = some ({ exSession 1 5 DccMode.SENDFILE DccState.CONFIRM_SIZE with
            file_confirm_offset := 7
            incoming_buf := bufWrite (List.replicate 8 0) 3 [7]
            incoming_offset := 0
            state := DccState.CONNECTED },
          [Event.read 5 ((8 - 1) - 3)]) :=
  ⟨rfl, rfl, rfl, by decide, rfl, by decide,
    (sendfile_ack_check (fun _ => false)
      { exSession 1 5 DccMode.SENDFILE DccState.CONFIRM_SIZE with
        file_confirm_offset := 7, incoming_offset := 3 }
      [7] rfl rfl rfl (by decide) rfl).1 (by decide)⟩

/-- C9 (evaluation of the code): a SENDFILE session in state CONNECTED offers
the three bytes 1, 2, 3 (`outgoing_offset = 3`) and the write accepts one byte.
The session moves to CONFIRM_SIZE with the two unsent bytes at the front of the
outgoing buffer and `outgoing_offset = 2`, yet `file_confirm_offset` goes from
0 to 3, the number of bytes offered, and not to 1, the number written. -/
theorem dcc_write_ready_short_write_sendfile :
    dcc_write_ready (fun _ => false) 1
        { exSession 1 5 DccMode.SENDFILE DccState.CONNECTED with
          outgoing_buf := [1, 2, 3, 0, 0, 0, 0, 0], outgoing_offset := 3 }
      = some ({ exSession 1 5 DccMode.SENDFILE DccState.CONNECTED with
            state := DccState.CONFIRM_SIZE
            file_confirm_offset := 3
            outgoing_buf := [2, 3, 3, 0, 0, 0, 0, 0]
            outgoing_offset := 2 },
          [Event.write 5 [1, 2, 3] 1,
           Event.callback (CbCall.mk 1 Status.OK none 3)]) := by
  decide


/-! ### A receiver's run: reads, each followed by the writes of its ACK -/

theorem memmove_front_length (buf : List Nat) (k n : Nat) :
    (memmove_front buf k n).length = buf.length := by
  simp [memmove_front, bufWrite]

theorem memmove_front_take (buf : List Nat) (k n : Nat) (h : k + n ≤ buf.length) :
    (memmove_front buf k n).take n = (buf.drop k).take n := by
  have hl : ((buf.drop k).take n).length = n := by simp; omega
  simp only [memmove_front, bufWrite_zero]
  rw [List.take_append_of_le_length (by omega)]
  rw [List.take_of_length_le (by omega)]

/-- The write block on a RECVFILE session in state CONFIRM_SIZE whose callback
never destroys the session, for a write that accepts `w` of the pending bytes. -/
theorem dcc_write_ready_recv_ack (cbDestroys : CbCall → Bool) (d : DccSession) (w : Int)
    (hmode : d.dccmode = DccMode.RECVFILE) (hstate : d.state = DccState.CONFIRM_SIZE)
    (hcb : d.cb = true) (hw : 0 < w) (hwk : w ≤ d.outgoing_offset)
    (hnd : ∀ c, cbDestroys c = false) :
    dcc_write_ready cbDestroys w d
      = if d.outgoing_offset - w.toNat = 0 then
          if d.received_file_size = d.file_confirm_offset then
            some ({ d with outgoing_offset := 0, sock := -1, state := DccState.REMOVED },
              [Event.write d.sock (d.outgoing_buf.take d.outgoing_offset) w,
                Event.callback (CbCall.mk d.id Status.OK none 0)]
                ++ (if d.sock ≥ 0 then [Event.close d.sock] else []))
          else
            some ({ d with outgoing_offset := 0, state := DccState.CONNECTED },
              [Event.write d.sock (d.outgoing_buf.take d.outgoing_offset) w])
        else
          some ({ d with
              outgoing_buf := memmove_front d.outgoing_buf w.toNat (d.outgoing_offset - w.toNat)
              outgoing_offset := d.outgoing_offset - w.toNat },
            [Event.write d.sock (d.outgoing_buf.take d.outgoing_offset) w]) := by
  have hpos : (0 : Int) < (d.outgoing_offset : Int) := by omega
  have h1 : ¬ w < 0 := by omega
  have h2 : ¬ w = 0 := by omega
  by_cases hz : d.outgoing_offset - w.toNat = 0
  · by_cases hs : d.received_file_size = d.file_confirm_offset
    · simp [dcc_write_ready, hmode, hstate, hpos, h1, h2, hz, hs, invokeCb, hcb, hnd,
        DccSession.destroy]
    · simp [dcc_write_ready, hmode, hstate, hpos, h1, h2, hz, hs]
  · have hz2 : d.outgoing_offset - w.toNat > 0 := by omega
    simp [dcc_write_ready, hmode, hstate, hpos, h1, h2, hz, hz2]


theorem list_int_sum_nonneg (ws : List Int) (h : ∀ w ∈ ws, 0 < w) : 0 ≤ ws.sum := by
  induction ws with
  | nil => simp
  | cons w ws ih =>
    have h1 := h w (List.mem_cons_self _ _)
    have h2 := ih (fun x hx => h x (List.mem_cons_of_mem _ hx))
    simp only [List.sum_cons]
    omega

/-- Writes that together accept all the pending bytes of an ACK: the bytes on
the wire are the pending bytes, and the session ends in REMOVED, with one
completion callback, when the file is complete, and in CONNECTED otherwise. -/
theorem dcc_write_steps_ack (cbDestroys : CbCall → Bool) (hnd : ∀ c, cbDestroys c = false) :
    ∀ (ws : List Int) (d : DccSession),
      d.dccmode = DccMode.RECVFILE → d.state = DccState.CONFIRM_SIZE → d.cb = true →
      (∀ w ∈ ws, 0 < w) → ws.sum = (d.outgoing_offset : Int) → 0 < d.outgoing_offset →
      d.outgoing_offset ≤ d.outgoing_buf.length →
      ∃ (d2 : DccSession) (ev : List Event),
        dcc_write_steps cbDestroys ws d = some (d2, ev)
        ∧ wireBytes ev = d.outgoing_buf.take d.outgoing_offset
        ∧ d2.dccmode = DccMode.RECVFILE ∧ d2.cb = true ∧ d2.id = d.id
        ∧ d2.received_file_size = d.received_file_size
        ∧ d2.file_confirm_offset = d.file_confirm_offset
        ∧ d2.incoming_offset = d.incoming_offset
        ∧ d2.state = (if d.received_file_size = d.file_confirm_offset then DccState.REMOVED
            else DccState.CONNECTED)
        ∧ ev.countP isCompletion
            = (if d.received_file_size = d.file_confirm_offset then 1 else 0) := by
  intro ws
  induction ws with
  | nil =>
    intro d _ _ _ _ hsum hpos _
    simp at hsum
    omega
  | cons w ws ih =>
    intro d hmode hstate hcb hws hsum hpos hlen
    have hw : 0 < w := hws w (List.mem_cons_self _ _)
    have hws2 : ∀ x ∈ ws, 0 < x := fun x hx => hws x (List.mem_cons_of_mem _ hx)
    have hnn := list_int_sum_nonneg ws hws2
    simp only [List.sum_cons] at hsum
    have hwk : w ≤ d.outgoing_offset := by omega
    have hstep := dcc_write_ready_recv_ack cbDestroys d w hmode hstate hcb hw hwk hnd
    have hwn : (w.toNat : Int) = w := Int.toNat_of_nonneg (le_of_lt hw)
    by_cases hz : d.outgoing_offset - w.toNat = 0
    · -- the write completes the ACK: no write is left
      have hws0 : ws = [] := by
        cases ws with
        | nil => rfl
        | cons x xs =>
          exfalso
          have hx : 0 < x := hws2 x (List.mem_cons_self _ _)
          have hxs := list_int_sum_nonneg xs (fun y hy => hws2 y (List.mem_cons_of_mem _ hy))
          simp only [List.sum_cons] at hsum
          omega
      subst hws0
      have hweq : w.toNat = d.outgoing_offset := by
        simp at hsum
        omega
      rw [if_pos hz] at hstep
      by_cases hs : d.received_file_size = d.file_confirm_offset
      · rw [if_pos hs] at hstep
        refine ⟨{ d with outgoing_offset := 0, sock := -1, state := DccState.REMOVED }, _,
          by simp only [dcc_write_steps, hstep]; rfl, ?_, hmode, hcb, rfl, rfl, rfl, rfl, ?_, ?_⟩
        · simp only [List.append_nil]
          split <;> simp [wireBytes, hweq, List.take_take]
        · rw [if_pos hs]
        · rw [if_pos hs]
          simp only [List.append_nil]
          split <;> simp [isCompletion, List.countP_cons]
      · rw [if_neg hs] at hstep
        refine ⟨{ d with outgoing_offset := 0, state := DccState.CONNECTED }, _,
          by simp only [dcc_write_steps, hstep]; rfl, ?_, hmode, hcb, rfl, rfl, rfl, rfl, ?_, ?_⟩
        · simp [wireBytes, hweq, List.take_take]
        · rw [if_neg hs]
        · rw [if_neg hs]
          simp [isCompletion, List.countP_cons]
    · rw [if_neg hz] at hstep
      have hlt : w.toNat < d.outgoing_offset := by omega
      obtain ⟨d2, ev, hrun, hwire, hm2, hcb2, hid2, hrs2, hfco2, hin2, hst2, hcnt2⟩ :=
        ih { d with
            outgoing_buf := memmove_front d.outgoing_buf w.toNat (d.outgoing_offset - w.toNat)
            outgoing_offset := d.outgoing_offset - w.toNat }
          hmode hstate hcb hws2 (by dsimp only; omega) (by dsimp only; omega)
          (by dsimp only; rw [memmove_front_length]; omega)
      dsimp only at hrun hwire hid2 hrs2 hfco2 hin2 hst2 hcnt2
      refine ⟨d2, Event.write d.sock (d.outgoing_buf.take d.outgoing_offset) w :: ev,
        by simp only [dcc_write_steps, hstep, hrun, List.singleton_append], ?_, hm2, hcb2, hid2,
        hrs2, hfco2, hin2, hst2, ?_⟩
      · simp only [wireBytes, hwire]
        rw [memmove_front_take _ _ _ (by omega), List.take_take]
        have hmin : min w.toNat d.outgoing_offset = w.toNat := by omega
        rw [hmin]
        have hsplit : List.take d.outgoing_offset d.outgoing_buf
            = List.take w.toNat d.outgoing_buf
              ++ List.take (d.outgoing_offset - w.toNat) (List.drop w.toNat d.outgoing_buf) := by
          have : d.outgoing_offset = w.toNat + (d.outgoing_offset - w.toNat) := by omega
          conv_lhs => rw [this]
          rw [List.take_add]
        rw [hsplit]
      · simp only [List.countP_cons, isCompletion, hcnt2]
        simp


theorem wireBytes_append (e1 e2 : List Event) :
    wireBytes (e1 ++ e2) = wireBytes e1 ++ wireBytes e2 := by
  induction e1 with
  | nil => rfl
  | cons e es ih =>
    cases e <;> simp [wireBytes, ih]

theorem runningSums_gt (ns : List Nat) (hpos : ∀ n ∈ ns, 0 < n) :
    ∀ acc, ∀ x ∈ runningSums acc ns, acc < x := by
  induction ns with
  | nil => intro acc x hx; simp [runningSums] at hx
  | cons n ns ih =>
    intro acc x hx
    have hn := hpos n (List.mem_cons_self _ _)
    simp only [runningSums, List.mem_cons] at hx
    rcases hx with hx | hx
    · omega
    · have := ih (fun m hm => hpos m (List.mem_cons_of_mem _ hm)) (acc + n) x hx
      omega

theorem runningSums_pairwise (ns : List Nat) (hpos : ∀ n ∈ ns, 0 < n) :
    ∀ acc, (runningSums acc ns).Pairwise (fun a b => a < b) := by
  induction ns with
  | nil => intro acc; simp [runningSums]
  | cons n ns ih =>
    intro acc
    have hpos2 : ∀ m ∈ ns, 0 < m := fun m hm => hpos m (List.mem_cons_of_mem _ hm)
    simp only [runningSums, List.pairwise_cons]
    exact ⟨fun x hx => runningSums_gt ns hpos2 (acc + n) x hx, ih hpos2 (acc + n)⟩

theorem runningSums_getLast (ns : List Nat) (hne : ns ≠ []) :
    ∀ acc, (runningSums acc ns).getLast? = some (acc + ns.sum) := by
  induction ns with
  | nil => exact absurd rfl hne
  | cons n ns ih =>
    intro acc
    cases ns with
    | nil => simp [runningSums]
    | cons m ms =>
      have := ih (by simp) (acc + n)
      simp only [runningSums, List.sum_cons] at this ⊢
      rw [List.getLast?_cons_cons, this]
      congr 1
      omega

theorem list_nat_sum_pos (ns : List Nat) (hne : ns ≠ []) (hpos : ∀ n ∈ ns, 0 < n) :
    0 < ns.sum := by
  cases ns with
  | nil => exact absurd rfl hne
  | cons n ns =>
    have := hpos n (List.mem_cons_self _ _)
    simp only [List.sum_cons]
    omega

/-- A run of a receiver from `file_confirm_offset = acc`: the ACKs on the wire
are the running sums, every round but the last ends in CONNECTED, the last one
in REMOVED with the only completion callback. -/
theorem recv_run_spec (cbDestroys : CbCall → Bool) (hnd : ∀ c, cbDestroys c = false)
    (S : Nat) (hS : S < U32) :
    ∀ (rounds : List RecvRound) (d : DccSession),
      d.dccmode = DccMode.RECVFILE → d.state = DccState.CONNECTED → d.cb = true →
      d.incoming_offset = 0 → d.received_file_size = S →
      (∀ r ∈ rounds, 0 < r.data.length) → (∀ r ∈ rounds, AckWrites r.writes) →
      d.file_confirm_offset + (rounds.map (fun r => r.data.length)).sum = S →
      ∃ out : List (DccSession × List Event),
        recv_run cbDestroys rounds d = some out
        ∧ out.map (fun p => wireBytes p.2)
            = (runningSums d.file_confirm_offset (rounds.map (fun r => r.data.length))).map
                htonl_bytes
        ∧ out.map (fun p => p.1.state)
            = (if rounds = [] then []
                else List.replicate (rounds.length - 1) DccState.CONNECTED
                  ++ [DccState.REMOVED])
        ∧ (out.map (fun p => p.2.countP isCompletion)).sum
            = (if rounds = [] then 0 else 1) := by
  intro rounds
  induction rounds with
  | nil =>
    intro d _ _ _ _ _ _ _ _
    exact ⟨[], rfl, by simp [runningSums], by simp, by simp⟩
  | cons r rs ih =>
    intro d hmode hstate hcb hin hsize hdata hack hsum
    have hn : 0 < r.data.length := hdata r (List.mem_cons_self _ _)
    have hdata2 : ∀ x ∈ rs, 0 < x.data.length := fun x hx => hdata x (List.mem_cons_of_mem _ hx)
    have hack2 : ∀ x ∈ rs, AckWrites x.writes := fun x hx => hack x (List.mem_cons_of_mem _ hx)
    simp only [List.map_cons, List.sum_cons] at hsum
    have hmod : (d.file_confirm_offset + r.data.length) % U32
        = d.file_confirm_offset + r.data.length := Nat.mod_eq_of_lt (by omega)
    have hread := dcc_read_ready_recvfile cbDestroys d r.data hmode hstate hin hcb hn (hnd _)
    rw [hmod] at hread
    obtain ⟨hwpos, hwsum⟩ := hack r (List.mem_cons_self _ _)
    obtain ⟨d2, ev2, hw, hwire, hm2, hcb2, _, hrs2, hfco2, hin2, hst2, hcnt2⟩ :=
      dcc_write_steps_ack cbDestroys hnd r.writes
        { d with
            state := DccState.CONFIRM_SIZE
            file_confirm_offset := d.file_confirm_offset + r.data.length
            incoming_buf := bufWrite d.incoming_buf 0 r.data
            incoming_offset := 0
            outgoing_buf := bufWrite d.outgoing_buf 0
              (htonl_bytes (d.file_confirm_offset + r.data.length))
            outgoing_offset := 4 }
        hmode rfl hcb hwpos (by dsimp only; simpa using hwsum) (by dsimp only; omega)
        (by dsimp only; simp [bufWrite_zero, htonl_bytes_length])
    dsimp only at hw hwire hrs2 hfco2 hin2 hst2 hcnt2
    have hround : recv_round cbDestroys r d
        = some (d2, [Event.read d.sock (d.incoming_buf.length - 1),
            Event.callback (CbCall.mk d.id Status.OK (some r.data) r.data.length)] ++ ev2) := by
      simp only [recv_round, hread, hw]
    have hwire2 : wireBytes ([Event.read d.sock (d.incoming_buf.length - 1),
            Event.callback (CbCall.mk d.id Status.OK (some r.data) r.data.length)] ++ ev2)
        = htonl_bytes (d.file_confirm_offset + r.data.length) := by
      rw [wireBytes_append, hwire]
      simp [wireBytes, bufWrite_zero, htonl_bytes_length]
    have hcnt : List.countP isCompletion ([Event.read d.sock (d.incoming_buf.length - 1),
            Event.callback (CbCall.mk d.id Status.OK (some r.data) r.data.length)] ++ ev2)
        = List.countP isCompletion ev2 := by
      simp [List.countP_append, List.countP_cons, isCompletion]
    by_cases hrs : rs = []
    · subst hrs
      simp only [List.map_nil, List.sum_nil, Nat.add_zero] at hsum
      have heq : d.received_file_size = d.file_confirm_offset + r.data.length := by omega
      rw [if_pos heq] at hst2 hcnt2
      refine ⟨[(d2, [Event.read d.sock (d.incoming_buf.length - 1),
            Event.callback (CbCall.mk d.id Status.OK (some r.data) r.data.length)] ++ ev2)],
        by simp only [recv_run, hround], ?_, ?_, ?_⟩
      · simp only [List.map_cons, List.map_nil, runningSums, hwire2]
      · simp [hst2]
      · simp only [List.map_cons, List.map_nil, List.sum_cons, List.sum_nil, hcnt, hcnt2,
          if_neg (List.cons_ne_nil r []), Nat.add_zero]
    · have hrest : 0 < (rs.map (fun r => r.data.length)).sum :=
        list_nat_sum_pos _ (by simpa using hrs)
          (by
            intro n hn
            obtain ⟨x, hx, rfl⟩ := List.mem_map.1 hn
            exact hdata2 x hx)
      have hne : ¬ d.received_file_size = d.file_confirm_offset + r.data.length := by omega
      rw [if_neg hne] at hst2 hcnt2
      obtain ⟨out, hout, howire, hostate, hocnt⟩ :=
        ih d2 hm2 hst2 hcb2 hin2 (by rw [hrs2]; exact hsize) hdata2 hack2
          (by rw [hfco2]; omega)
      rw [hfco2] at howire
      rw [if_neg hrs] at hostate hocnt
      refine ⟨(d2, [Event.read d.sock (d.incoming_buf.length - 1),
            Event.callback (CbCall.mk d.id Status.OK (some r.data) r.data.length)] ++ ev2) :: out,
        by simp only [recv_run, hround, hout], ?_, ?_, ?_⟩
      · simp only [List.map_cons, runningSums, hwire2, howire]
      · have hlen : (r :: rs).length - 1 = (rs.length - 1) + 1 := by
          have : 0 < rs.length := List.length_pos.2 hrs
          simp only [List.length_cons]
          omega
        simp only [List.map_cons, hst2, hostate, if_neg (List.cons_ne_nil r rs), hlen,
          List.replicate_succ, List.cons_append]
      · simp only [List.map_cons, List.sum_cons, hcnt, hcnt2, hocnt,
          if_neg (List.cons_ne_nil r rs)]


/-- C10: the ACK stream of a receiver. A RECVFILE session in state CONNECTED
with expected size `S`, `0 < S < 2^32`, and `file_confirm_offset = 0`, whose
callback never destroys it, goes through rounds made of a read of a positive
number of bytes followed by writes that together send the four bytes of the
ACK, the sizes of the reads summing to `S`. Then the run goes through; the
bytes written in each round are the network-order encoding of the running sum
of the sizes read; these sums are strictly increasing and the last one is `S`;
after every round but the last the session is in CONNECTED, and after the last
one it is REMOVED; and in the whole run exactly one callback has status 0 and
null data. -/
theorem recvfile_ack_stream (cbDestroys : CbCall → Bool) (dcc : DccSession)
    (rounds : List RecvRound) (S : Nat)
    (hmode : dcc.dccmode = DccMode.RECVFILE) (hstate : dcc.state = DccState.CONNECTED)
    (hcb : dcc.cb = true) (hin : dcc.incoming_offset = 0)
    (hfco : dcc.file_confirm_offset = 0) (hsize : dcc.received_file_size = S)
    (hSpos : 0 < S) (hS : S < U32)
    (hdata : ∀ r ∈ rounds, 0 < r.data.length) (hack : ∀ r ∈ rounds, AckWrites r.writes)
    (hsum : (rounds.map (fun r => r.data.length)).sum = S)
    (hnd : ∀ c, cbDestroys c = false) :
    ∃ out : List (DccSession × List Event),
      recv_run cbDestroys rounds dcc = some out
      ∧ out.map (fun p => wireBytes p.2)
          = (runningSums 0 (rounds.map (fun r => r.data.length))).map htonl_bytes
      ∧ (runningSums 0 (rounds.map (fun r => r.data.length))).Pairwise (fun a b => a < b)
      ∧ (runningSums 0 (rounds.map (fun r => r.data.length))).getLast? = some S
      ∧ out.map (fun p => p.1.state)
          = List.replicate (rounds.length - 1) DccState.CONNECTED ++ [DccState.REMOVED]
      ∧ (out.map (fun p => p.2.countP isCompletion)).sum = 1 := by
  have hne : rounds ≠ [] := by
    intro h
    subst h
    simp at hsum
    omega
  have hlens : ∀ n ∈ rounds.map (fun r => r.data.length), 0 < n := by
    intro n hn
    obtain ⟨x, hx, rfl⟩ := List.mem_map.1 hn
    exact hdata x hx
  obtain ⟨out, hout, hwire, hst, hcnt⟩ :=
    recv_run_spec cbDestroys hnd S hS rounds dcc hmode hstate hcb hin hsize hdata hack
      (by rw [hfco]; omega)
  rw [hfco] at hwire
  rw [if_neg hne] at hst hcnt
  refine ⟨out, hout, hwire, runningSums_pairwise _ hlens 0, ?_, hst, hcnt⟩
  rw [runningSums_getLast _ (by simpa using hne) 0, hsum, Nat.zero_add]

/-- Witness for C10: a file of 7 bytes received as 3 bytes, acknowledged by one
write of 4 bytes, then 4 bytes, acknowledged by writes of 1 and 3 bytes. -/
theorem recvfile_ack_stream_witness :
    (0 < 7 ∧ 7 < U32)
    ∧ (∀ r ∈ [RecvRound.mk [1, 2, 3] [4], RecvRound.mk [4, 5, 6, 7] [1, 3]],
        0 < r.data.length)
    ∧ (∀ r ∈ [RecvRound.mk [1, 2, 3] [4], RecvRound.mk [4, 5, 6, 7] [1, 3]],
        AckWrites r.writes)
    ∧ ∃ out : List (DccSession × List Event),
      recv_run (fun _ => false)
          [RecvRound.mk [1, 2, 3] [4], RecvRound.mk [4, 5, 6, 7] [1, 3]]
          { exSession 1 5 DccMode.RECVFILE DccState.CONNECTED with received_file_size := 7 }
        = some out
      ∧ out.map (fun p => wireBytes p.2)
          = (runningSums 0
              ([RecvRound.mk [1, 2, 3] [4], RecvRound.mk [4, 5, 6, 7] [1, 3]].map
                (fun r => r.data.length))).map htonl_bytes
      ∧ (runningSums 0
            ([RecvRound.mk [1, 2, 3] [4], RecvRound.mk [4, 5, 6, 7] [1, 3]].map
              (fun r => r.data.length))).Pairwise (fun a b => a < b)
      ∧ (runningSums 0
            ([RecvRound.mk [1, 2, 3] [4], RecvRound.mk [4, 5, 6, 7] [1, 3]].map
              (fun r => r.data.length))).getLast? = some 7
      ∧ out.map (fun p => p.1.state)
          = List.replicate
              ([RecvRound.mk [1, 2, 3] [4], RecvRound.mk [4, 5, 6, 7] [1, 3]].length - 1)
              DccState.CONNECTED ++ [DccState.REMOVED]
      ∧ (out.map (fun p => p.2.countP isCompletion)).sum = 1 :=
  ⟨⟨by decide, by decide⟩, by decide, by simp [AckWrites],
    recvfile_ack_stream (fun _ => false)
      { exSession 1 5 DccMode.RECVFILE DccState.CONNECTED with received_file_size := 7 }
      [RecvRound.mk [1, 2, 3] [4], RecvRound.mk [4, 5, 6, 7] [1, 3]] 7
      rfl rfl rfl rfl rfl rfl (by decide) (by decide) (by decide) (by simp [AckWrites])
      (by decide) (fun _ => rfl)⟩


/-! ### Further facts on the list and on the blocks -/

/-- With ids that are unique in the list, `libirc_dcc_destroy_nolock` called
with the id of the session at position `i` marks that very session: this is
how the blocks above apply it to the session at hand. -/
theorem libirc_dcc_destroy_nolock_unique :
    ∀ (l : List DccSession) (i : Nat) (hi : i < l.length),
      (l.map (fun s => s.id)).Nodup →
      libirc_dcc_destroy_nolock l (l.get ⟨i, hi⟩).id
        = (l.set i (l.get ⟨i, hi⟩).destroy.1, (l.get ⟨i, hi⟩).destroy.2) := by
  intro l
  induction l with
  | nil => intro i hi; simp at hi
  | cons s rest ih =>
    intro i hi hnd
    simp only [List.map_cons, List.nodup_cons] at hnd
    cases i with
    | zero => simp [libirc_dcc_destroy_nolock]
    | succ j =>
      have hj : j < rest.length := by simpa using hi
      have hne : s.id ≠ (rest.get ⟨j, hj⟩).id := by
        intro h
        apply hnd.1
        rw [h]
        exact List.mem_map.2 ⟨_, List.get_mem rest j hj, rfl⟩
      have := ih j hj hnd.2
      simp only [List.get_cons_succ, libirc_dcc_destroy_nolock, hne, if_false, this, List.set_cons_succ]

/-- The read block on a CHAT session in state CONNECTED: whatever
`libirc_findcrorlf` returns, the callback is invoked with status 0 and the C
string at the start of the inbound buffer. -/
theorem dcc_read_ready_chat (cbDestroys : CbCall → Bool) (dcc : DccSession) (bs : List Nat)
    (hmode : dcc.dccmode = DccMode.CHAT) (hstate : dcc.state = DccState.CONNECTED)
    (hcb : dcc.cb = true) (hpos : 0 < bs.length) (hnd : ∀ c, cbDestroys c = false) :
    dcc_read_ready cbDestroys (some bs) dcc
      = some ({ dcc with
            incoming_buf :=
              if dcc.incoming_offset + bs.length
                  - (libirc_findcrorlf (bufWrite dcc.incoming_buf dcc.incoming_offset bs)
                      ((dcc.incoming_offset + bs.length : Nat) : Int)).2.toNat > 0 then
                memmove_front
                  (libirc_findcrorlf (bufWrite dcc.incoming_buf dcc.incoming_offset bs)
                    ((dcc.incoming_offset + bs.length : Nat) : Int)).1
                  (libirc_findcrorlf (bufWrite dcc.incoming_buf dcc.incoming_offset bs)
                    ((dcc.incoming_offset + bs.length : Nat) : Int)).2.toNat
                  (dcc.incoming_offset + bs.length
                    - (libirc_findcrorlf (bufWrite dcc.incoming_buf dcc.incoming_offset bs)
                        ((dcc.incoming_offset + bs.length : Nat) : Int)).2.toNat)
              else
                (libirc_findcrorlf (bufWrite dcc.incoming_buf dcc.incoming_offset bs)
                  ((dcc.incoming_offset + bs.length : Nat) : Int)).1
            incoming_offset := dcc.incoming_offset + bs.length
              - (libirc_findcrorlf (bufWrite dcc.incoming_buf dcc.incoming_offset bs)
                  ((dcc.incoming_offset + bs.length : Nat) : Int)).2.toNat },
          [Event.read dcc.sock ((dcc.incoming_buf.length - 1) - dcc.incoming_offset),
            Event.callback (CbCall.mk dcc.id Status.OK
              (some (cstr (libirc_findcrorlf (bufWrite dcc.incoming_buf dcc.incoming_offset bs)
                ((dcc.incoming_offset + bs.length : Nat) : Int)).1))
              (strlen (libirc_findcrorlf (bufWrite dcc.incoming_buf dcc.incoming_offset bs)
                ((dcc.incoming_offset + bs.length : Nat) : Int)).1))]) := by
  obtain ⟨b, bs', rfl⟩ := List.exists_cons_of_ne_nil (List.ne_nil_of_length_pos hpos)
  simp [dcc_read_ready, hmode, hstate, invokeCb, hcb, hnd]

/-- The write block on a SENDFILE session in state CONNECTED, for a write that
accepts `w` bytes, `0 < w`: `file_confirm_offset` grows by the number of bytes
offered, `outgoing_offset`, whatever `w` is. -/
theorem dcc_write_ready_sendfile (cbDestroys : CbCall → Bool) (d : DccSession) (w : Int)
    (hmode : d.dccmode = DccMode.SENDFILE) (hstate : d.state = DccState.CONNECTED)
    (hcb : d.cb = true) (hw : 0 < w) (hpos : 0 < d.outgoing_offset)
    (hnd : ∀ c, cbDestroys c = false) :
    dcc_write_ready cbDestroys w d
      = some ({ d with
            state := DccState.CONFIRM_SIZE
            file_confirm_offset := (d.file_confirm_offset + d.outgoing_offset) % U32
            outgoing_buf :=
              if d.outgoing_offset - w.toNat > 0 then
                memmove_front d.outgoing_buf w.toNat (d.outgoing_offset - w.toNat)
              else d.outgoing_buf
            outgoing_offset := d.outgoing_offset - w.toNat },
          [Event.write d.sock (d.outgoing_buf.take d.outgoing_offset) w,
            Event.callback (CbCall.mk d.id Status.OK none d.outgoing_offset)]) := by
  have hposI : (0 : Int) < (d.outgoing_offset : Int) := by omega
  have h1 : ¬ w < 0 := by omega
  have h2 : ¬ w = 0 := by omega
  simp [dcc_write_ready, hmode, hstate, hposI, h1, h2, invokeCb, hcb, hnd]


/-- After the first loop of `libirc_dcc_add_descriptors` the variable `dcc_next`
is null, whatever the list was, when it was null or the list was not empty. -/
theorem dcc_preprocess_next (env : Env) :
    ∀ (l nx0 l1 : List DccSession) (ev : List Event) (nx : List DccSession),
      dcc_preprocess env l nx0 = some (l1, ev, nx) → (l = [] → nx = nx0) ∧ (l ≠ [] → nx = []) := by
  intro l
  induction l with
  | nil =>
    intro nx0 l1 ev nx h
    simp only [dcc_preprocess, Option.some.injEq, Prod.mk.injEq] at h
    exact ⟨fun _ => h.2.2.symm, fun hne => absurd rfl hne⟩
  | cons dcc rest ih =>
    intro nx0 l1 ev nx h
    refine ⟨fun hnil => absurd hnil (List.cons_ne_nil _ _), fun _ => ?_⟩
    simp only [dcc_preprocess] at h
    split at h
    · exact absurd h (by simp)
    · split at h
      · exact absurd h (by simp)
      · split at h
        · exact absurd h (by simp)
        · rename_i l2 ev2 nx2 hrec
          simp only [Option.some.injEq, Prod.mk.injEq] at h
          have := ih rest l2 ev2 nx2 hrec
          rw [← h.2.2]
          by_cases hr : rest = []
          · rw [this.1 hr, hr]
          · exact this.2 hr

/-- The descriptor sets after `libirc_dcc_add_descriptors`: the sets given,
with the registration of the head of the list after the first loop and of no
other session. -/
theorem libirc_dcc_add_descriptors_sets (env : Env) (l l1 : List DccSession) (s s1 : FdSets)
    (ev : List Event) (h : libirc_dcc_add_descriptors env l s = some (l1, s1, ev)) :
    s1 = (match l1 with
      | [] => s
      | dcc :: _ => dcc_register dcc s) := by
  simp only [libirc_dcc_add_descriptors] at h
  split at h
  · exact absurd h (by simp)
  · rename_i l2 ev2 nx hpre
    have hnx : nx = [] := by
      have := dcc_preprocess_next env l [] l2 ev2 nx hpre
      by_cases hl : l = []
      · exact this.1 hl
      · exact this.2 hl
    subst hnx
    split at h
    · exact absurd h (by simp)
    · rename_i s2 hreg
      simp only [Option.some.injEq, Prod.mk.injEq] at h
      obtain ⟨h1, h2, _⟩ := h
      subst h1 h2
      cases l2 with
      | nil => simpa [dcc_register_loop] using hreg.symm
      | cons d ds => simpa [dcc_register_loop] using hreg.symm



/-! ### The public DCC calls -/

theorem find_dcc_none (l : List DccSession) (dccid : Nat) (h : ∀ d ∈ l, d.id ≠ dccid) :
    libirc_find_dcc_session l dccid = none := by
  simp only [libirc_find_dcc_session, List.find?_eq_none]
  intro d hd
  simpa using h d hd

/-- The session `libirc_find_dcc_session` finds is the first one with the id. -/
theorem find_dcc_first :
    ∀ (l : List DccSession) (dccid i : Nat) (hi : i < l.length),
      (l.get ⟨i, hi⟩).id = dccid → (∀ d ∈ l.take i, d.id ≠ dccid) →
      libirc_find_dcc_session l dccid = some (l.get ⟨i, hi⟩) := by
  intro l
  induction l with
  | nil => intro dccid i hi; simp at hi
  | cons s rest ih =>
    intro dccid i hi hid hfirst
    cases i with
    | zero =>
      have hid : s.id = dccid := hid
      simp [libirc_find_dcc_session, List.find?_cons, hid]
    | succ j =>
      have hj : j < rest.length := by simpa using hi
      have hs : s.id ≠ dccid := hfirst s (by simp)
      have hrest := ih dccid j hj (by simpa using hid)
        (fun d hd => hfirst d (by simp [List.take_succ_cons, hd]))
      simp only [libirc_find_dcc_session] at hrest ⊢
      simp [List.find?_cons, hs, hrest]

/-- A write through the pointer found changes the found session only. -/
theorem modify_dcc_first (f : DccSession → DccSession) :
    ∀ (l : List DccSession) (dccid i : Nat) (hi : i < l.length),
      (l.get ⟨i, hi⟩).id = dccid → (∀ d ∈ l.take i, d.id ≠ dccid) →
      modify_dcc l dccid f = l.set i (f (l.get ⟨i, hi⟩)) := by
  intro l
  induction l with
  | nil => intro dccid i hi; simp at hi
  | cons s rest ih =>
    intro dccid i hi hid hfirst
    cases i with
    | zero =>
      have hid : s.id = dccid := hid
      simp [modify_dcc, hid]
    | succ j =>
      have hj : j < rest.length := by simpa using hi
      have hs : s.id ≠ dccid := hfirst s (by simp)
      have hrest := ih dccid j hj (by simpa using hid)
        (fun d hd => hfirst d (by simp [List.take_succ_cons, hd]))
      simp [modify_dcc, hs, hrest]

theorem modify_dcc_none (f : DccSession → DccSession) :
    ∀ (l : List DccSession) (dccid : Nat), (∀ d ∈ l, d.id ≠ dccid) →
      modify_dcc l dccid f = l := by
  intro l
  induction l with
  | nil => intro _ _; rfl
  | cons s rest ih =>
    intro dccid h
    have hs : s.id ≠ dccid := h s (by simp)
    simp [modify_dcc, hs, ih dccid (fun d hd => h d (by simp [hd]))]

/-- The function `libirc_dcc_destroy_nolock` as a write through the pointer
found. -/
theorem destroy_nolock_first :
    ∀ (l : List DccSession) (dccid i : Nat) (hi : i < l.length),
      (l.get ⟨i, hi⟩).id = dccid → (∀ d ∈ l.take i, d.id ≠ dccid) →
      libirc_dcc_destroy_nolock l dccid
        = (l.set i (l.get ⟨i, hi⟩).destroy.1, (l.get ⟨i, hi⟩).destroy.2) := by
  intro l
  induction l with
  | nil => intro dccid i hi; simp at hi
  | cons s rest ih =>
    intro dccid i hi hid hfirst
    cases i with
    | zero =>
      have hid : s.id = dccid := hid
      simp [libirc_dcc_destroy_nolock, hid]
    | succ j =>
      have hj : j < rest.length := by simpa using hi
      have hs : s.id ≠ dccid := hfirst s (by simp)
      have hrest := ih dccid j hj (by simpa using hid)
        (fun d hd => hfirst d (by simp [List.take_succ_cons, hd]))
      simp [libirc_dcc_destroy_nolock, hs, hrest]

theorem lock_unlock (session : IrcSession) : UNLOCK_DCC_MUTEX (LOCK_DCC_MUTEX session) = session := by
  cases session
  simp [UNLOCK_DCC_MUTEX, LOCK_DCC_MUTEX]

/-- C15: destruction is a tombstone. When the first session with the id `dccid`
is at position `i` of the list, `irc_dcc_destroy`, and `irc_dcc_decline` if
that session is in state INIT, return 0 and leave the parent session as it was
but for the session at position `i`, which has `sock = -1` and
`state = REMOVED` and its other fields unchanged; when no session has the id,
`irc_dcc_destroy` returns 1 and changes nothing. -/
theorem dcc_destroy_tombstone (session : IrcSession) (dccid : Nat) :
    (∀ (i : Nat) (hi : i < session.dcc_sessions.length),
      (session.dcc_sessions.get ⟨i, hi⟩).id = dccid →
      (∀ d ∈ session.dcc_sessions.take i, d.id ≠ dccid) →
        irc_dcc_destroy session dccid
          = (0, { session with
                  dcc_sessions := session.dcc_sessions.set i
                    { session.dcc_sessions.get ⟨i, hi⟩ with
                      sock := -1, state := DccState.REMOVED } },
              if (session.dcc_sessions.get ⟨i, hi⟩).sock ≥ 0 then
                [Event.close (session.dcc_sessions.get ⟨i, hi⟩).sock]
              else [])
        ∧ ((session.dcc_sessions.get ⟨i, hi⟩).state = DccState.INIT →
            irc_dcc_decline session dccid = irc_dcc_destroy session dccid))
    ∧ ((∀ d ∈ session.dcc_sessions, d.id ≠ dccid) →
        irc_dcc_destroy session dccid = (1, session, [])) := by
  constructor
  · intro i hi hid hfirst
    have hfind := find_dcc_first session.dcc_sessions dccid i hi hid hfirst
    have hmod := modify_dcc_first (fun d => d.destroy.1) session.dcc_sessions dccid i hi hid hfirst
    have hdes := destroy_nolock_first session.dcc_sessions dccid i hi hid hfirst
    have h1 : irc_dcc_destroy session dccid
          = (0, { session with
                  dcc_sessions := session.dcc_sessions.set i
                    { session.dcc_sessions.get ⟨i, hi⟩ with
                      sock := -1, state := DccState.REMOVED } },
              if (session.dcc_sessions.get ⟨i, hi⟩).sock ≥ 0 then
                [Event.close (session.dcc_sessions.get ⟨i, hi⟩).sock]
              else []) := by
      simp only [irc_dcc_destroy, libirc_find_dcc_session_lock, LOCK_DCC_MUTEX, if_true, hfind,
        hmod]
      simp [UNLOCK_DCC_MUTEX, DccSession.destroy]
    refine ⟨h1, ?_⟩
    intro hst
    rw [h1]
    simp only [irc_dcc_decline, libirc_find_dcc_session_lock, LOCK_DCC_MUTEX, if_true, hfind,
      hdes, hst]
    simp [UNLOCK_DCC_MUTEX, DccSession.destroy]
  · intro hnone
    have hfind := find_dcc_none session.dcc_sessions dccid hnone
    simp [irc_dcc_destroy, libirc_find_dcc_session_lock, LOCK_DCC_MUTEX, UNLOCK_DCC_MUTEX,
      hfind]


theorem modify_dcc_comp (f g : DccSession → DccSession) (hf : ∀ d, (f d).id = d.id) :
    ∀ (l : List DccSession) (dccid : Nat),
      modify_dcc (modify_dcc l dccid f) dccid g = modify_dcc l dccid (fun d => g (f d)) := by
  intro l
  induction l with
  | nil => intro _; rfl
  | cons s rest ih =>
    intro dccid
    by_cases hs : s.id = dccid
    · simp [modify_dcc, hs, hf]
    · simp [modify_dcc, hs, ih]

/-- C16: `irc_dcc_accept`. When the first session with the id `dccid` is at
position `i`: if it is in state INIT and the connect is initiated (it succeeds
or is in progress), the call returns 0 and changes the DCC list at position `i`
only, where the callback and the context are the ones given and the state is
CONNECTING, the other fields (id, mode, remote address, ...) being unchanged,
and `lasterror` is unchanged; if it is not in state INIT, the call returns 1,
sets `lasterror` to `ERR_STATE` and leaves the DCC list unchanged. -/
theorem irc_dcc_accept_spec (session : IrcSession) (dccid ctx : Nat) (callback : Bool)
    (conn : ConnectResult) (i : Nat) (hi : i < session.dcc_sessions.length)
    (hid : (session.dcc_sessions.get ⟨i, hi⟩).id = dccid)
    (hfirst : ∀ d ∈ session.dcc_sessions.take i, d.id ≠ dccid) :
    ((session.dcc_sessions.get ⟨i, hi⟩).state = DccState.INIT → conn ≠ ConnectResult.failed →
      (irc_dcc_accept session dccid ctx callback conn).1 = 0
      ∧ (irc_dcc_accept session dccid ctx callback conn).2.1.dcc_sessions
          = session.dcc_sessions.set i
              { session.dcc_sessions.get ⟨i, hi⟩ with
                cb := callback, ctx := ctx, state := DccState.CONNECTING }
      ∧ (irc_dcc_accept session dccid ctx callback conn).2.1.lasterror = session.lasterror)
    ∧ ((session.dcc_sessions.get ⟨i, hi⟩).state ≠ DccState.INIT →
      (irc_dcc_accept session dccid ctx callback conn).1 = 1
      ∧ (irc_dcc_accept session dccid ctx callback conn).2.1.lasterror = Status.ERR_STATE
      ∧ (irc_dcc_accept session dccid ctx callback conn).2.1.dcc_sessions
          = session.dcc_sessions) := by
  have hfind := find_dcc_first session.dcc_sessions dccid i hi hid hfirst
  constructor
  · intro hst hconn
    have hmod := modify_dcc_first
      (fun d => { d with cb := callback, ctx := ctx, state := DccState.CONNECTING })
      session.dcc_sessions dccid i hi hid hfirst
    have hcomp := modify_dcc_comp (fun d => { d with cb := callback, ctx := ctx })
      (fun d => { d with state := DccState.CONNECTING }) (fun _ => rfl)
      session.dcc_sessions dccid
    simp only [irc_dcc_accept, libirc_find_dcc_session_lock, LOCK_DCC_MUTEX, if_true, hfind,
      hst, ne_eq, not_true_eq_false, if_false, hconn, hcomp]
    refine ⟨trivial, ?_, trivial⟩
    exact hmod
  · intro hst
    simp only [irc_dcc_accept, libirc_find_dcc_session_lock, LOCK_DCC_MUTEX, if_true, hfind,
      ne_eq, hst, not_false_eq_true]
    simp [UNLOCK_DCC_MUTEX]

/-- Witness for C16: a CHAT session in state INIT is accepted with a connect in
progress. -/
theorem irc_dcc_accept_spec_witness :
    ((exIrc [exSession 1 5 DccMode.CHAT DccState.INIT]).dcc_sessions.get ⟨0, by decide⟩).id = 1
    ∧ (∀ d ∈ (exIrc [exSession 1 5 DccMode.CHAT DccState.INIT]).dcc_sessions.take 0, d.id ≠ 1)
    ∧ ((exIrc [exSession 1 5 DccMode.CHAT DccState.INIT]).dcc_sessions.get ⟨0, by decide⟩).state
        = DccState.INIT
    ∧ ConnectResult.in_progress ≠ ConnectResult.failed
    ∧ (irc_dcc_accept (exIrc [exSession 1 5 DccMode.CHAT DccState.INIT]) 1 3 true
        ConnectResult.in_progress).1 = 0
    ∧ (irc_dcc_accept (exIrc [exSession 1 5 DccMode.CHAT DccState.INIT]) 1 3 true
        ConnectResult.in_progress).2.1.dcc_sessions
        = [{ exSession 1 5 DccMode.CHAT DccState.INIT with
              cb := true, ctx := 3, state := DccState.CONNECTING }] :=
  ⟨rfl, by simp, rfl, by decide,
    ((irc_dcc_accept_spec (exIrc [exSession 1 5 DccMode.CHAT DccState.INIT]) 1 3 true
      ConnectResult.in_progress 0 (by decide) rfl (by simp)).1 rfl (by decide)).1,
    ((irc_dcc_accept_spec (exIrc [exSession 1 5 DccMode.CHAT DccState.INIT]) 1 3 true
      ConnectResult.in_progress 0 (by decide) rfl (by simp)).1 rfl (by decide)).2.1⟩

/-- C17 (evaluation of the code): a CHAT session in state INIT is accepted and
the connect fails at once with an error other than in-progress or would-block;
`irc_dcc_accept` destroys the session and returns 0. -/
theorem irc_dcc_accept_returns_zero_on_connect_failure :
    irc_dcc_accept (exIrc [exSession 1 5 DccMode.CHAT DccState.INIT]) 1 3 true
        ConnectResult.failed
      = (0, exIrc [{ exSession 1 5 DccMode.CHAT DccState.INIT with
                      cb := true, ctx := 3, sock := -1, state := DccState.REMOVED }],
          [Event.connect 5, Event.close 5]) := by
  decide

/-- C18 (evaluation of the code): with an id that is not in the DCC list, and
no error recorded in `lasterror`, each of `irc_dcc_destroy`, `irc_dcc_msg`,
`irc_dcc_accept` and `irc_dcc_decline` returns 1 and leaves the parent session
as it was: `lasterror` is still `OK`. -/
theorem dcc_calls_unknown_id_leave_lasterror :
    irc_dcc_destroy (exIrc [exSession 1 5 DccMode.CHAT DccState.CONNECTED]) 7
      = (1, exIrc [exSession 1 5 DccMode.CHAT DccState.CONNECTED], [])
    ∧ irc_dcc_msg (exIrc [exSession 1 5 DccMode.CHAT DccState.CONNECTED]) 7 [104, 105]
      = (1, exIrc [exSession 1 5 DccMode.CHAT DccState.CONNECTED], [])
    ∧ irc_dcc_accept (exIrc [exSession 1 5 DccMode.CHAT DccState.CONNECTED]) 7 3 true
        ConnectResult.done
      = (1, exIrc [exSession 1 5 DccMode.CHAT DccState.CONNECTED], [])
    ∧ irc_dcc_decline (exIrc [exSession 1 5 DccMode.CHAT DccState.CONNECTED]) 7
      = (1, exIrc [exSession 1 5 DccMode.CHAT DccState.CONNECTED], [])
    ∧ (exIrc [exSession 1 5 DccMode.CHAT DccState.CONNECTED]).lasterror = Status.OK := by
  decide


/-! ### The first loop of `libirc_dcc_add_descriptors` -/

/-- The list after the first loop, when the loop has a result, holds, in order,
what the iterations kept. -/
theorem dcc_preprocess_kept (env : Env) :
    ∀ (l nx0 l1 : List DccSession) (ev : List Event) (nx : List DccSession),
      dcc_preprocess env l nx0 = some (l1, ev, nx) → l1 = l.filterMap (dcc_kept env) := by
  intro l
  induction l with
  | nil =>
    intro nx0 l1 ev nx h
    simp only [dcc_preprocess, Option.some.injEq, Prod.mk.injEq] at h
    simp [h.1.symm]
  | cons dcc rest ih =>
    intro nx0 l1 ev nx h
    simp only [dcc_preprocess] at h
    split at h
    · exact absurd h (by simp)
    · rename_i d gone ev1 hone
      cases gone
      · simp only [Bool.false_eq_true, if_false] at h
        split at h
        · exact absurd h (by simp)
        · rename_i l2 ev2 nx2 hrec
          simp only [Option.some.injEq, Prod.mk.injEq] at h
          have hl2 := ih rest l2 ev2 nx2 hrec
          rw [← h.1, hl2]
          simp [List.filterMap_cons, dcc_kept, hone]
      · simp at h

/-- The events of `libirc_remove_dcc_session` hold no callback. -/
theorem removeEvents_no_callback (d : DccSession) (c : CbCall) :
    Event.callback c ∉ removeEvents d := by
  unfold removeEvents
  split_ifs <;> simp

/-- The events of a callback invocation: every callback in them carries the
status given. -/
theorem invokeCb_status (f : CbCall → Bool) (d d1 : DccSession) (st : Status)
    (data : Option (List Nat)) (len : Nat) (ev : List Event)
    (h : invokeCb f d st data len = some (d1, ev)) (c : CbCall)
    (hc : Event.callback c ∈ ev) : c = CbCall.mk d.id st data len := by
  unfold invokeCb at h
  by_cases hcb : d.cb = true
  · rw [if_pos hcb] at h
    by_cases hf : f (CbCall.mk d.id st data len) = true
    · rw [if_pos hf] at h
      simp only [Option.some.injEq, Prod.mk.injEq] at h
      rw [← h.2] at hc
      simp only [List.mem_cons, Event.callback.injEq] at hc
      rcases hc with hc | hc
      · exact hc
      · unfold DccSession.destroy at hc
        split_ifs at hc <;> simp at hc
    · rw [if_neg hf] at h
      simp only [Option.some.injEq, Prod.mk.injEq] at h
      rw [← h.2] at hc
      simpa using hc
  · rw [if_neg hcb] at h
    exact absurd h (by simp)

/-- The events of marking a session hold no callback. -/
theorem destroy_no_callback (d : DccSession) (c : CbCall) :
    Event.callback c ∉ d.destroy.2 := by
  unfold DccSession.destroy
  split_ifs <;> simp

/-- The timeout block on a session that is not timed out does nothing. -/
theorem dcc_timeout_check_fresh (env : Env) (dcc : DccSession)
    (ht : ¬ dcc_timed_out env dcc) :
    dcc_timeout_check env dcc = some (dcc, false, []) := by
  unfold dcc_timed_out at ht
  simp only [dcc_timeout_check, if_neg ht]

/-- The timeout block on a timed-out session that is told: the callback comes
first, then the session is unlinked. -/
theorem dcc_timeout_check_told (env : Env) (dcc : DccSession)
    (ht : dcc_timed_out env dcc) (hs : dcc.state ≠ DccState.INIT) (hcb : dcc.cb = true) :
    ∃ d1 rest, dcc_timeout_check env dcc
        = some (d1, true, Event.callback (CbCall.mk dcc.id Status.ERR_TIMEOUT none 0) :: rest)
      ∧ (d1 = dcc ∨ d1 = dcc.destroy.1) ∧ ∀ c, Event.callback c ∉ rest := by
  unfold dcc_timed_out at ht
  have hc : dcc.state ≠ DccState.INIT ∧ dcc.cb = true := ⟨hs, hcb⟩
  cases hd : env.cbDestroys (CbCall.mk dcc.id Status.ERR_TIMEOUT none 0)
  · refine ⟨dcc, removeEvents dcc, ?_, Or.inl rfl, fun c => removeEvents_no_callback dcc c⟩
    simp only [dcc_timeout_check, if_pos ht, if_pos hc, invokeCb, hcb, hd]
    simp [hs]
  · refine ⟨dcc.destroy.1, dcc.destroy.2 ++ removeEvents dcc.destroy.1, ?_, Or.inr rfl, ?_⟩
    · simp only [dcc_timeout_check, if_pos ht, if_pos hc, invokeCb, hcb, hd]
      simp [hs]
    · intro c hc
      rcases List.mem_append.1 hc with h | h
      · exact destroy_no_callback dcc c h
      · exact removeEvents_no_callback _ c h

/-- The timeout block on a timed-out session that is not told. -/
theorem dcc_timeout_check_silent (env : Env) (dcc : DccSession)
    (ht : dcc_timed_out env dcc) (hc : ¬ (dcc.state ≠ DccState.INIT ∧ dcc.cb = true)) :
    dcc_timeout_check env dcc = some (dcc, true, removeEvents dcc) := by
  unfold dcc_timed_out at ht
  simp only [dcc_timeout_check, if_pos ht, if_neg hc]
  simp

/-- The data block never reports a timeout. -/
theorem dcc_send_pump_no_timeout (env : Env) (gone1 : Bool) (d1 d2 : DccSession)
    (e2 : List Event) (h : dcc_send_pump env gone1 d1 = some (d2, e2)) (c : CbCall)
    (hc : Event.callback c ∈ e2) : c.status ≠ Status.ERR_TIMEOUT := by
  unfold dcc_send_pump at h
  cases gone1
  · simp only [Bool.false_eq_true, if_false] at h
    by_cases hp : d1.state = DccState.CONNECTED ∧ d1.dccmode = DccMode.SENDFILE ∧ d1.fd ≥ 0
        ∧ d1.outgoing_offset = 0
    · rw [if_pos hp] at h
      have key : ∀ r : Option (List Nat),
          (match invokeCb env.cbDestroys d1
              (if r = none then Status.ERR_READ else Status.OK) none 0 with
            | none => none
            | some (d, ev) =>
              some (d.destroy.1,
                [Event.fileRead d1.fd d1.outgoing_buf.length] ++ ev ++ d.destroy.2))
            = some (d2, e2) → c.status ≠ Status.ERR_TIMEOUT := by
        intro r h
        cases hi : invokeCb env.cbDestroys d1
              (if r = none then Status.ERR_READ else Status.OK) none 0 with
        | none => rw [hi] at h; exact absurd h (by simp)
        | some p =>
          obtain ⟨d, ev⟩ := p
          rw [hi] at h
          have hst : ∀ c, Event.callback c ∈ ev → c.status ≠ Status.ERR_TIMEOUT := by
            intro c hc
            rw [invokeCb_status _ _ _ _ _ _ _ hi c hc]
            split_ifs <;> simp
          have hmem : Event.callback c ∈ ev := by
            simp only [Option.some.injEq, Prod.mk.injEq] at h
            rw [← h.2] at hc
            simp only [List.mem_append, List.mem_singleton] at hc
            rcases hc with (hc | hc) | hc
            · exact absurd hc (by simp)
            · exact hc
            · exact absurd hc (destroy_no_callback d c)
          exact hst c hmem
      rcases hfr : env.fileRead d1.fd with _ | ⟨_ | ⟨b, bs⟩⟩
      · rw [hfr] at h
        exact key none h
      · rw [hfr] at h
        exact key (some []) h
      · rw [hfr] at h
        simp only [Option.some.injEq, Prod.mk.injEq] at h
        rw [← h.2] at hc
        simp at hc
    · rw [if_neg hp] at h
      simp only [Option.some.injEq, Prod.mk.injEq] at h
      rw [← h.2] at hc
      simp at hc
  · simp at h

/-- An installed callback can be invoked. -/
theorem invokeCb_total (f : CbCall → Bool) (d : DccSession) (st : Status)
    (data : Option (List Nat)) (len : Nat) (hcb : d.cb = true) :
    ∃ d1 ev, invokeCb f d st data len = some (d1, ev) := by
  unfold invokeCb
  rw [if_pos hcb]
  by_cases hf : f (CbCall.mk d.id st data len) = true
  · exact ⟨_, _, if_pos hf⟩
  · exact ⟨_, _, if_neg hf⟩

/-- The data block on a session that the timeout block left in the list ends,
unless it calls a callback that is not installed. -/
theorem dcc_send_pump_total (env : Env) (d1 : DccSession)
    (h : d1.cb = true ∨ d1.state ≠ DccState.CONNECTED ∨ d1.dccmode ≠ DccMode.SENDFILE) :
    ∃ d2 e2, dcc_send_pump env false d1 = some (d2, e2) := by
  unfold dcc_send_pump
  simp only [Bool.false_eq_true, if_false]
  by_cases hp : d1.state = DccState.CONNECTED ∧ d1.dccmode = DccMode.SENDFILE ∧ d1.fd ≥ 0
      ∧ d1.outgoing_offset = 0
  · rw [if_pos hp]
    have hcb : d1.cb = true := by
      rcases h with h | h | h
      · exact h
      · exact absurd hp.1 h
      · exact absurd hp.2.1 h
    have key : ∀ r : Option (List Nat), ∃ d2 e2,
        (match invokeCb env.cbDestroys d1
            (if r = none then Status.ERR_READ else Status.OK) none 0 with
          | none => none
          | some (d, ev) =>
            some (d.destroy.1,
              [Event.fileRead d1.fd d1.outgoing_buf.length] ++ ev ++ d.destroy.2))
          = some (d2, e2) := by
      intro r
      obtain ⟨d, ev, hi⟩ := invokeCb_total env.cbDestroys d1
        (if r = none then Status.ERR_READ else Status.OK) none 0 hcb
      rw [hi]
      exact ⟨_, _, rfl⟩
    rcases hfr : env.fileRead d1.fd with _ | ⟨_ | ⟨b, bs⟩⟩
    · exact key none
    · exact key (some [])
    · exact ⟨_, _, rfl⟩
  · rw [if_neg hp]
    exact ⟨_, _, rfl⟩

/-- An iteration of the first loop, from the results of its blocks. -/
theorem dcc_preprocess_one_blocks (env : Env) (dcc d1 d2 : DccSession) (g1 : Bool)
    (e1 e2 : List Event) (h1 : dcc_timeout_check env dcc = some (d1, g1, e1))
    (h2 : dcc_send_pump env g1 d1 = some (d2, e2)) :
    ∃ g tail, dcc_preprocess_one env dcc = some (d2, g, e1 ++ e2 ++ tail)
      ∧ (g1 = true → g = true) ∧ (d2.state = DccState.REMOVED → g = true)
      ∧ (g1 = false → d2.state ≠ DccState.REMOVED → g = false)
      ∧ (d2.state ≠ DccState.REMOVED → tail = [])
      ∧ (d2.state = DccState.REMOVED → tail = removeEvents d2)
      ∧ ∀ c, Event.callback c ∉ tail := by
  unfold dcc_preprocess_one
  simp only [h1, h2]
  by_cases hr : d2.state = DccState.REMOVED
  · rw [if_pos hr]
    exact ⟨true, removeEvents d2, rfl, fun _ => rfl, fun _ => rfl, fun _ h => absurd hr h,
      fun h => absurd hr h, fun _ => rfl, fun c => removeEvents_no_callback d2 c⟩
  · rw [if_neg hr]
    refine ⟨g1, [], by simp, fun h => h, fun h => absurd h hr, fun h _ => h, fun _ => rfl,
      fun h => absurd h hr, fun c => by simp⟩

/-- After the timeout block has unlinked a session, the rest of the iteration
uses the freed session: it has no defined result. -/
theorem dcc_preprocess_one_timed_out (env : Env) (dcc : DccSession)
    (ht : dcc_timed_out env dcc) : dcc_preprocess_one env dcc = none := by
  unfold dcc_preprocess_one
  by_cases hc : dcc.state ≠ DccState.INIT ∧ dcc.cb = true
  · obtain ⟨d1, rest, h, -⟩ := dcc_timeout_check_told env dcc ht hc.1 hc.2
    rw [h]
    simp [dcc_send_pump]
  · rw [dcc_timeout_check_silent env dcc ht hc]
    simp [dcc_send_pump]

/-- C13: the timeout block of the first loop of `libirc_dcc_add_descriptors`
(dcc.c, lines 115-133). A session is timed out iff its state is LISTENING,
INIT or CONNECTED and `now - timeout > dcc_timeout`. The block returns, and it
unlinks the session with `libirc_remove_dcc_session` iff the session is timed
out. A callback with status `ERR_TIMEOUT` is invoked iff the session is timed
out, not in state INIT and has a callback installed; it is then the first
event, before the events of the removal, and the only callback of the block,
and what is removed is the session given or that session as marked by the
callback. A timed-out session in state INIT or without a callback is removed
with no callback, and a session that is not timed out is left as it is, with no
event. A session in state CONNECTING, CONFIRM_SIZE or REMOVED is not timed out,
its iteration of the loop returns, and no event of the iteration is a callback
with status `ERR_TIMEOUT`. -/
theorem dcc_timeout_rule (env : Env) (dcc : DccSession) :
    (dcc_timed_out env dcc ↔
      (dcc.state = DccState.LISTENING ∨ dcc.state = DccState.INIT
          ∨ dcc.state = DccState.CONNECTED) ∧ env.now - dcc.timeout > env.dcc_timeout)
    ∧ ((∃ d1 e1, dcc_timeout_check env dcc = some (d1, true, e1)) ↔ dcc_timed_out env dcc)
    ∧ (∃ d1 g e1, dcc_timeout_check env dcc = some (d1, g, e1)
        ∧ (g = true ↔ dcc_timed_out env dcc)
        ∧ (d1 = dcc ∨ d1 = dcc.destroy.1)
        ∧ ((∃ c, Event.callback c ∈ e1 ∧ c.status = Status.ERR_TIMEOUT) ↔
            dcc_timed_out env dcc ∧ dcc.state ≠ DccState.INIT ∧ dcc.cb = true)
        ∧ (dcc_timed_out env dcc → dcc.state ≠ DccState.INIT → dcc.cb = true →
            ∃ rest, e1 = Event.callback (CbCall.mk dcc.id Status.ERR_TIMEOUT none 0) :: rest
              ∧ ∀ c, Event.callback c ∉ rest)
        ∧ (dcc_timed_out env dcc → ¬ (dcc.state ≠ DccState.INIT ∧ dcc.cb = true) →
            d1 = dcc ∧ e1 = removeEvents dcc)
        ∧ (¬ dcc_timed_out env dcc → d1 = dcc ∧ e1 = []))
    ∧ ((dcc.state = DccState.CONNECTING ∨ dcc.state = DccState.CONFIRM_SIZE
          ∨ dcc.state = DccState.REMOVED) →
        ¬ dcc_timed_out env dcc
        ∧ (∃ d g ev, dcc_preprocess_one env dcc = some (d, g, ev))
        ∧ ∀ d g ev, dcc_preprocess_one env dcc = some (d, g, ev) →
            ∀ c, Event.callback c ∈ ev → c.status ≠ Status.ERR_TIMEOUT) := by
  have hdef : dcc_timed_out env dcc ↔
      (dcc.state = DccState.LISTENING ∨ dcc.state = DccState.INIT
          ∨ dcc.state = DccState.CONNECTED) ∧ env.now - dcc.timeout > env.dcc_timeout := by
    unfold dcc_timed_out
    tauto
  refine ⟨hdef, ?_, ?_, ?_⟩
  · constructor
    · rintro ⟨d1, e1, h⟩
      by_contra hn
      rw [dcc_timeout_check_fresh env dcc hn] at h
      simp at h
    · intro ht
      by_cases hc : dcc.state ≠ DccState.INIT ∧ dcc.cb = true
      · obtain ⟨d1, rest, h, -⟩ := dcc_timeout_check_told env dcc ht hc.1 hc.2
        exact ⟨_, _, h⟩
      · exact ⟨_, _, dcc_timeout_check_silent env dcc ht hc⟩
  · by_cases ht : dcc_timed_out env dcc
    · by_cases hc : dcc.state ≠ DccState.INIT ∧ dcc.cb = true
      · obtain ⟨d1, rest, h1, hd1, hrest⟩ := dcc_timeout_check_told env dcc ht hc.1 hc.2
        refine ⟨d1, true, _, h1, ⟨fun _ => ht, fun _ => rfl⟩, hd1, ?_, ?_, ?_, ?_⟩
        · constructor
          · intro _
            exact ⟨ht, hc.1, hc.2⟩
          · intro _
            exact ⟨CbCall.mk dcc.id Status.ERR_TIMEOUT none 0, by simp, rfl⟩
        · intro _ _ _
          exact ⟨rest, rfl, hrest⟩
        · intro _ h3
          exact absurd hc h3
        · intro h3
          exact absurd ht h3
      · have h1 := dcc_timeout_check_silent env dcc ht hc
        refine ⟨dcc, true, _, h1, ⟨fun _ => ht, fun _ => rfl⟩, Or.inl rfl, ?_, ?_, ?_, ?_⟩
        · constructor
          · rintro ⟨c, hmem, -⟩
            exact absurd hmem (removeEvents_no_callback dcc c)
          · rintro ⟨-, h3, h4⟩
            exact absurd ⟨h3, h4⟩ hc
        · intro _ h3 h4
          exact absurd ⟨h3, h4⟩ hc
        · intro _ _
          exact ⟨rfl, rfl⟩
        · intro h3
          exact absurd ht h3
    · have h1 := dcc_timeout_check_fresh env dcc ht
      refine ⟨dcc, false, [], h1, ⟨fun h => absurd h (by simp), fun h => absurd h ht⟩,
        Or.inl rfl, ?_, ?_, ?_, ?_⟩
      · constructor
        · rintro ⟨c, hmem, -⟩
          simp at hmem
        · rintro ⟨h3, -⟩
          exact absurd h3 ht
      · intro h3
        exact absurd h3 ht
      · intro h3
        exact absurd h3 ht
      · intro _
        exact ⟨rfl, rfl⟩
  · intro hst
    have ht : ¬ dcc_timed_out env dcc := by
      intro ht
      unfold dcc_timed_out at ht
      rcases hst with h | h | h <;> rw [h] at ht <;> simp at ht
    have hnc : dcc.state ≠ DccState.CONNECTED := by
      rcases hst with h | h | h <;> rw [h] <;> decide
    have h1 := dcc_timeout_check_fresh env dcc ht
    obtain ⟨d2, e2, h2⟩ := dcc_send_pump_total env dcc (Or.inr (Or.inl hnc))
    obtain ⟨g, tail, h, -, -, -, -, -, htail⟩ :=
      dcc_preprocess_one_blocks env dcc dcc d2 false _ e2 h1 h2
    refine ⟨ht, ⟨_, _, _, h⟩, ?_⟩
    intro d g0 ev hev c hc
    rw [h] at hev
    simp only [Option.some.injEq, Prod.mk.injEq] at hev
    rw [← hev.2.2] at hc
    rcases List.mem_append.1 hc with hc | hc
    · rcases List.mem_append.1 hc with hc | hc
      · simp at hc
      · exact dcc_send_pump_no_timeout env false dcc d2 e2 h2 c hc
    · exact absurd hc (htail c)

/-- A listening chat session created at time 0 and looked at at time 100, with
a timeout of 60 seconds: it is timed out, its callback is told `ERR_TIMEOUT`
and then its socket is closed and it is unlinked. -/
theorem dcc_timeout_rule_witness :
    dcc_timed_out ({ exEnv with now := 100 } : Env)
        (exSession 1 5 DccMode.CHAT DccState.LISTENING)
    ∧ dcc_timeout_check ({ exEnv with now := 100 } : Env)
          (exSession 1 5 DccMode.CHAT DccState.LISTENING)
        = some (exSession 1 5 DccMode.CHAT DccState.LISTENING, true,
            [Event.callback (CbCall.mk 1 Status.ERR_TIMEOUT none 0), Event.close 5])
    ∧ ((∃ d1 e1, dcc_timeout_check ({ exEnv with now := 100 } : Env)
          (exSession 1 5 DccMode.CHAT DccState.LISTENING) = some (d1, true, e1)) ↔
        dcc_timed_out ({ exEnv with now := 100 } : Env)
          (exSession 1 5 DccMode.CHAT DccState.LISTENING)) :=
  ⟨by decide, by decide,
    (dcc_timeout_rule ({ exEnv with now := 100 } : Env)
      (exSession 1 5 DccMode.CHAT DccState.LISTENING)).2.1⟩

/-- The data block on a connected sender whose read gave no data, the session
still being in the list: the callback is told and the session is marked. -/
theorem dcc_send_pump_end (env : Env) (dcc : DccSession)
    (hst : dcc.state = DccState.CONNECTED) (hmode : dcc.dccmode = DccMode.SENDFILE)
    (hfd : dcc.fd ≥ 0) (hoff : dcc.outgoing_offset = 0) (hcb : dcc.cb = true)
    (r : Option (List Nat)) (hfr : env.fileRead dcc.fd = r) (hr : r = none ∨ r = some []) :
    dcc_send_pump env false dcc
      = some ({ dcc with sock := -1, state := DccState.REMOVED },
          [Event.fileRead dcc.fd dcc.outgoing_buf.length,
            Event.callback (CbCall.mk dcc.id
              (if r = none then Status.ERR_READ else Status.OK) none 0)] ++ dcc.destroy.2) := by
  have hp : dcc.state = DccState.CONNECTED ∧ dcc.dccmode = DccMode.SENDFILE ∧ dcc.fd ≥ 0
      ∧ dcc.outgoing_offset = 0 := ⟨hst, hmode, hfd, hoff⟩
  unfold dcc_send_pump
  rw [if_pos hp, hfr]
  rcases hr with rfl | rfl
  · by_cases hd : env.cbDestroys (CbCall.mk dcc.id Status.ERR_READ none 0) = true
    · by_cases hs : dcc.sock ≥ 0 <;> simp [invokeCb, hcb, hd, DccSession.destroy, hs]
    · by_cases hs : dcc.sock ≥ 0 <;> simp [invokeCb, hcb, hd, DccSession.destroy, hs]
  · by_cases hd : env.cbDestroys (CbCall.mk dcc.id Status.OK none 0) = true
    · by_cases hs : dcc.sock ≥ 0 <;> simp [invokeCb, hcb, hd, DccSession.destroy, hs]
    · by_cases hs : dcc.sock ≥ 0 <;> simp [invokeCb, hcb, hd, DccSession.destroy, hs]

/-- C12: the data block of `libirc_dcc_add_descriptors` on a session in state
CONNECTED and mode SENDFILE with an open file, `outgoing_offset = 0` and a
callback installed, which is not timed out. A read of `len > 0` bytes sets
`outgoing_offset = len`, invokes no callback and keeps the session. A read
returning 0 invokes the callback with status 0, null data and length 0; a
failed read invokes it with `ERR_READ`; in both cases the session is marked
(`sock = -1`, state REMOVED) and unlinked by the clean-up of the same iteration,
which keeps nothing of it for the list. The list after the loop, when the loop
has a result, holds what the iterations kept. -/
theorem dcc_send_pump_spec (env : Env) (dcc : DccSession)
    (hst : dcc.state = DccState.CONNECTED) (hmode : dcc.dccmode = DccMode.SENDFILE)
    (hfd : dcc.fd ≥ 0) (hoff : dcc.outgoing_offset = 0) (hcb : dcc.cb = true)
    (ht : ¬ dcc_timed_out env dcc) :
    (∀ b bs, env.fileRead dcc.fd = some (b :: bs) →
        dcc_preprocess_one env dcc
          = some ({ dcc with
                outgoing_buf := bufWrite dcc.outgoing_buf 0 (b :: bs)
                outgoing_offset := (b :: bs).length },
              false, [Event.fileRead dcc.fd dcc.outgoing_buf.length])
        ∧ dcc_kept env dcc = some { dcc with
                outgoing_buf := bufWrite dcc.outgoing_buf 0 (b :: bs)
                outgoing_offset := (b :: bs).length })
    ∧ (env.fileRead dcc.fd = some [] →
        dcc_preprocess_one env dcc
          = some ({ dcc with sock := -1, state := DccState.REMOVED }, true,
              [Event.fileRead dcc.fd dcc.outgoing_buf.length,
                Event.callback (CbCall.mk dcc.id Status.OK none 0)]
              ++ dcc.destroy.2 ++ [Event.close dcc.fd])
        ∧ dcc_kept env dcc = none)
    ∧ (env.fileRead dcc.fd = none →
        dcc_preprocess_one env dcc
          = some ({ dcc with sock := -1, state := DccState.REMOVED }, true,
              [Event.fileRead dcc.fd dcc.outgoing_buf.length,
                Event.callback (CbCall.mk dcc.id Status.ERR_READ none 0)]
              ++ dcc.destroy.2 ++ [Event.close dcc.fd])
        ∧ dcc_kept env dcc = none)
    ∧ (∀ (l nx0 l1 : List DccSession) (evs : List Event) (nx : List DccSession),
        dcc_preprocess env l nx0 = some (l1, evs, nx) → l1 = l.filterMap (dcc_kept env)) := by
  have h1 := dcc_timeout_check_fresh env dcc ht
  have hp : dcc.state = DccState.CONNECTED ∧ dcc.dccmode = DccMode.SENDFILE ∧ dcc.fd ≥ 0
      ∧ dcc.outgoing_offset = 0 := ⟨hst, hmode, hfd, hoff⟩
  refine ⟨?_, ?_, ?_, dcc_preprocess_kept env⟩
  · intro b bs hfr
    have h : dcc_preprocess_one env dcc
          = some ({ dcc with
                outgoing_buf := bufWrite dcc.outgoing_buf 0 (b :: bs)
                outgoing_offset := (b :: bs).length },
              false, [Event.fileRead dcc.fd dcc.outgoing_buf.length]) := by
      unfold dcc_preprocess_one
      simp only [h1, dcc_send_pump, if_pos hp, hfr]
      simp [hst]
    exact ⟨h, by simp only [dcc_kept, h]⟩
  · intro hfr
    have h2 := dcc_send_pump_end env dcc hst hmode hfd hoff hcb (some []) hfr (Or.inr rfl)
    have h : dcc_preprocess_one env dcc
          = some ({ dcc with sock := -1, state := DccState.REMOVED }, true,
              [Event.fileRead dcc.fd dcc.outgoing_buf.length,
                Event.callback (CbCall.mk dcc.id Status.OK none 0)]
              ++ dcc.destroy.2 ++ [Event.close dcc.fd]) := by
      unfold dcc_preprocess_one
      simp only [h1, h2]
      simp [removeEvents, hfd]
    exact ⟨h, by simp only [dcc_kept, h]⟩
  · intro hfr
    have h2 := dcc_send_pump_end env dcc hst hmode hfd hoff hcb none hfr (Or.inl rfl)
    have h : dcc_preprocess_one env dcc
          = some ({ dcc with sock := -1, state := DccState.REMOVED }, true,
              [Event.fileRead dcc.fd dcc.outgoing_buf.length,
                Event.callback (CbCall.mk dcc.id Status.ERR_READ none 0)]
              ++ dcc.destroy.2 ++ [Event.close dcc.fd]) := by
      unfold dcc_preprocess_one
      simp only [h1, h2]
      simp [removeEvents, hfd]
    exact ⟨h, by simp only [dcc_kept, h]⟩

/-- A connected sender with an open file whose read fails is told `ERR_READ`
and is not kept in the list. -/
theorem dcc_send_pump_spec_witness :
    ({ exSession 1 5 DccMode.SENDFILE DccState.CONNECTED with fd := 7 } : DccSession).state
        = DccState.CONNECTED
    ∧ ({ exSession 1 5 DccMode.SENDFILE DccState.CONNECTED with fd := 7 } : DccSession).dccmode
        = DccMode.SENDFILE
    ∧ ({ exSession 1 5 DccMode.SENDFILE DccState.CONNECTED with fd := 7 } : DccSession).fd ≥ 0
    ∧ ¬ dcc_timed_out exEnv { exSession 1 5 DccMode.SENDFILE DccState.CONNECTED with fd := 7 }
    ∧ exEnv.fileRead 7 = none
    ∧ dcc_preprocess_one exEnv { exSession 1 5 DccMode.SENDFILE DccState.CONNECTED with fd := 7 }
        = some ({ exSession 1 5 DccMode.SENDFILE DccState.CONNECTED with
              fd := 7, sock := -1, state := DccState.REMOVED }, true,
            [Event.fileRead 7 8, Event.callback (CbCall.mk 1 Status.ERR_READ none 0)]
            ++ ({ exSession 1 5 DccMode.SENDFILE DccState.CONNECTED with
                  fd := 7 } : DccSession).destroy.2 ++ [Event.close 7]) :=
  ⟨rfl, rfl, by decide, by decide, rfl,
    ((dcc_send_pump_spec exEnv
      { exSession 1 5 DccMode.SENDFILE DccState.CONNECTED with fd := 7 }
      rfl rfl (by decide) rfl rfl (by decide)).2.2.1 rfl).1⟩


/-! ### What the passes of `libirc_dcc_process_descriptors` keep -/

/-- The bytes delivered by two traces in a row. -/
theorem dataDelivered_append (a b : List Event) :
    dataDelivered (a ++ b) = dataDelivered a + dataDelivered b := by
  induction a with
  | nil => simp [dataDelivered]
  | cons e a ih =>
    cases e <;> simp [dataDelivered, ih, Nat.add_assoc]

/-- No step keeps everything. -/
theorem StepKeeps.refl (d : DccSession) : StepKeeps d d [] := by
  unfold StepKeeps
  exact ⟨rfl, rfl, rfl, rfl, rfl, fun _ h => ⟨h, Nat.le_add_right _ _⟩⟩

/-- Two steps in a row. -/
theorem StepKeeps.trans (d d1 d2 : DccSession) (e1 e2 : List Event)
    (h1 : StepKeeps d d1 e1) (h2 : StepKeeps d1 d2 e2) : StepKeeps d d2 (e1 ++ e2) := by
  unfold StepKeeps at *
  obtain ⟨a1, a2, a3, a4, a5, a6⟩ := h1
  obtain ⟨b1, b2, b3, b4, b5, b6⟩ := h2
  refine ⟨b1.trans a1, b2.trans a2, b3.trans a3, b4.trans a4, b5.trans a5, ?_⟩
  intro hm hi
  obtain ⟨c1, c2⟩ := a6 hm hi
  obtain ⟨c3, c4⟩ := b6 (a2.trans hm) c1
  refine ⟨c3, ?_⟩
  rw [dataDelivered_append]
  omega

/-- Events put in front of a step that deliver nothing. -/
theorem StepKeeps.events (d d1 : DccSession) (e e1 : List Event)
    (h : StepKeeps d d1 e) (he : dataDelivered e ≤ dataDelivered e1) : StepKeeps d d1 e1 := by
  unfold StepKeeps at *
  obtain ⟨a1, a2, a3, a4, a5, a6⟩ := h
  refine ⟨a1, a2, a3, a4, a5, ?_⟩
  intro hm hi
  obtain ⟨c1, c2⟩ := a6 hm hi
  exact ⟨c1, by omega⟩

/-- Marking a session keeps what a step keeps. -/
theorem StepKeeps.destroy (d : DccSession) : StepKeeps d d.destroy.1 d.destroy.2 := by
  unfold StepKeeps DccSession.destroy
  exact ⟨rfl, rfl, rfl, rfl, rfl, fun _ h => ⟨h, Nat.le_add_right _ _⟩⟩

/-- Invoking the callback keeps what a step keeps. -/
theorem invokeCb_keeps (f : CbCall → Bool) (d d1 : DccSession) (st : Status)
    (data : Option (List Nat)) (len : Nat) (ev : List Event)
    (h : invokeCb f d st data len = some (d1, ev)) :
    StepKeeps d d1 ev ∧ (d1 = d ∨ d1 = d.destroy.1) := by
  unfold invokeCb at h
  by_cases hcb : d.cb = true
  · rw [if_pos hcb] at h
    by_cases hf : f (CbCall.mk d.id st data len) = true
    · rw [if_pos hf] at h
      simp only [Option.some.injEq, Prod.mk.injEq] at h
      obtain ⟨rfl, rfl⟩ := h
      refine ⟨?_, Or.inr rfl⟩
      unfold StepKeeps DccSession.destroy
      exact ⟨rfl, rfl, rfl, rfl, rfl, fun _ h => ⟨h, Nat.le_add_right _ _⟩⟩
    · rw [if_neg hf] at h
      simp only [Option.some.injEq, Prod.mk.injEq] at h
      obtain ⟨rfl, rfl⟩ := h
      refine ⟨?_, Or.inl rfl⟩
      unfold StepKeeps
      exact ⟨rfl, rfl, rfl, rfl, rfl, fun _ h => ⟨h, Nat.le_add_right _ _⟩⟩
  · rw [if_neg hcb] at h
    exact absurd h (by simp)

/-- The error exit of a block keeps what a step keeps. -/
theorem dccFail_keeps (f : CbCall → Bool) (d d1 : DccSession) (err : Status)
    (ev : List Event) (h : dccFail f d err = some (d1, ev)) : StepKeeps d d1 ev := by
  unfold dccFail at h
  cases hi : invokeCb f d err none 0 with
  | none => rw [hi] at h; exact absurd h (by simp)
  | some p =>
    obtain ⟨d0, e0⟩ := p
    rw [hi] at h
    simp only [Option.some.injEq, Prod.mk.injEq] at h
    obtain ⟨rfl, rfl⟩ := h
    exact StepKeeps.trans d d0 _ e0 _ (invokeCb_keeps f d d0 err none 0 e0 hi).1
      (StepKeeps.destroy d0)

/-- The events of a callback invocation deliver the bytes given, if any. -/
theorem invokeCb_delivered (f : CbCall → Bool) (d d1 : DccSession) (st : Status)
    (data : Option (List Nat)) (len : Nat) (ev : List Event)
    (h : invokeCb f d st data len = some (d1, ev)) :
    dataDelivered ev = if data.isSome then len else 0 := by
  unfold invokeCb at h
  by_cases hcb : d.cb = true
  · rw [if_pos hcb] at h
    by_cases hf : f (CbCall.mk d.id st data len) = true
    · rw [if_pos hf] at h
      simp only [Option.some.injEq, Prod.mk.injEq] at h
      obtain ⟨-, rfl⟩ := h
      unfold DccSession.destroy
      by_cases hs : d.sock ≥ 0 <;> simp [dataDelivered, hs]
    · rw [if_neg hf] at h
      simp only [Option.some.injEq, Prod.mk.injEq] at h
      obtain ⟨-, rfl⟩ := h
      simp [dataDelivered]
  · rw [if_neg hcb] at h
    exact absurd h (by simp)

/-- A step that keeps the five fields, on a session that is not a receiver. -/
theorem StepKeeps.of_fields (d d1 : DccSession) (ev : List Event)
    (h1 : d1.id = d.id) (h2 : d1.dccmode = d.dccmode) (h3 : d1.timeout = d.timeout)
    (h4 : d1.received_file_size = d.received_file_size) (h5 : d1.cb = d.cb)
    (hm : d.dccmode ≠ DccMode.RECVFILE) : StepKeeps d d1 ev :=
  ⟨h1, h2, h3, h4, h5, fun h => absurd h hm⟩

/-- The read block keeps what a step keeps. -/
theorem dcc_read_ready_keeps (f : CbCall → Bool) (rd : Option (List Nat))
    (d d1 : DccSession) (ev : List Event) (h : dcc_read_ready f rd d = some (d1, ev)) :
    StepKeeps d d1 ev := by
  unfold dcc_read_ready at h
  rcases rd with _ | ⟨_ | ⟨b, bs⟩⟩
  · simp only [Option.map_eq_some'] at h
    obtain ⟨⟨d0, e0⟩, hf, heq⟩ := h
    simp only [Prod.mk.injEq] at heq
    obtain ⟨rfl, rfl⟩ := heq
    exact StepKeeps.events _ _ _ _ (dccFail_keeps f d d0 _ e0 hf)
      (by rw [dataDelivered_append]; omega)
  · simp only [Option.map_eq_some'] at h
    obtain ⟨⟨d0, e0⟩, hf, heq⟩ := h
    simp only [Prod.mk.injEq] at heq
    obtain ⟨rfl, rfl⟩ := heq
    have h0 : StepKeeps d (if d.fd ≥ 0 then { d with fd := -1 } else d) [] := by
      split_ifs
      · exact ⟨rfl, rfl, rfl, rfl, rfl, fun _ h => ⟨h, Nat.le_add_right _ _⟩⟩
      · exact StepKeeps.refl d
    have h1 := StepKeeps.trans _ _ _ _ _ h0 (dccFail_keeps f _ d0 _ e0 hf)
    exact StepKeeps.events _ _ _ _ h1
      (by simp only [List.nil_append, dataDelivered_append]; omega)
  · dsimp only at h
    generalize hscan : (if d.dccmode ≠ DccMode.CHAT then
        (bufWrite d.incoming_buf d.incoming_offset (b :: bs),
          ((d.incoming_offset + (b :: bs).length : Nat) : Int))
      else libirc_findcrorlf (bufWrite d.incoming_buf d.incoming_offset (b :: bs))
        ((d.incoming_offset + (b :: bs).length : Nat) : Int)) = scan at h
    generalize hev0 : [Event.read d.sock (d.incoming_buf.length - 1 - d.incoming_offset)]
      = ev0 at h
    have hev0d : dataDelivered ev0 = 0 := by rw [← hev0]; rfl
    by_cases hc : d.state = DccState.CONFIRM_SIZE
    · rw [if_pos hc] at h
      by_cases hs : d.dccmode = DccMode.SENDFILE
      · have hnr : d.dccmode ≠ DccMode.RECVFILE := by rw [hs]; decide
        rw [if_neg (not_not.2 hs)] at h
        split_ifs at h
        · simp only [Option.some.injEq, Prod.mk.injEq] at h
          obtain ⟨rfl, rfl⟩ := h
          exact StepKeeps.of_fields _ _ _ rfl rfl rfl rfl rfl hnr
        · simp only [Option.map_eq_some'] at h
          obtain ⟨⟨d0, e0⟩, hf, heq⟩ := h
          simp only [Prod.mk.injEq] at heq
          obtain ⟨rfl, rfl⟩ := heq
          obtain ⟨a1, a2, a3, a4, a5, -⟩ := dccFail_keeps f _ d0 _ e0 hf
          exact StepKeeps.of_fields _ _ _ a1 a2 a3 a4 a5 hnr
        · simp only [Option.some.injEq, Prod.mk.injEq] at h
          obtain ⟨rfl, rfl⟩ := h
          exact StepKeeps.of_fields _ _ _ rfl rfl rfl rfl rfl hnr
      · rw [if_pos hs] at h
        exact absurd h (by simp)
    · rw [if_neg hc] at h
      by_cases hchat : d.dccmode = DccMode.CHAT
      · have hnr : d.dccmode ≠ DccMode.RECVFILE := by rw [hchat]; decide
        rw [if_neg (not_not.2 hchat)] at h
        split at h
        · exact absurd h (by simp)
        · rename_i d0 e0 hi
          simp only [Option.some.injEq, Prod.mk.injEq] at h
          obtain ⟨rfl, rfl⟩ := h
          obtain ⟨a1, a2, a3, a4, a5, -⟩ := (invokeCb_keeps f _ d0 _ _ _ e0 hi).1
          exact StepKeeps.of_fields _ _ _ a1 a2 a3 a4 a5 hnr
      · rw [if_pos hchat] at h
        by_cases hm : d.dccmode = DccMode.RECVFILE
        · rw [if_neg (not_not.2 hm)] at h
          rw [if_pos hchat] at hscan
          subst hscan
          dsimp only at h
          simp only [Int.toNat_ofNat, Int.toNat_natCast] at h
          split at h
          · exact absurd h (by simp)
          · rename_i d2 e2 hcalled
            simp only [Option.some.injEq, Prod.mk.injEq] at h
            obtain ⟨rfl, rfl⟩ := h
            split at hcalled
            · exact absurd hcalled (by simp)
            · rename_i d0 e0 hi
              obtain ⟨⟨a1, a2, a3, a4, a5, -⟩, hd0⟩ := invokeCb_keeps f _ d0 _ _ _ e0 hi
              have hdel := invokeCb_delivered f _ d0 _ _ _ e0 hi
              have hio : d0.incoming_offset = d.incoming_offset + (b :: bs).length := by
                rcases hd0 with rfl | rfl <;> rfl
              have hfc : d0.file_confirm_offset = d.file_confirm_offset := by
                rcases hd0 with rfl | rfl <;> rfl
              simp only [Option.isSome_some, if_true] at hdel
              split_ifs at hcalled <;>
                simp only [Option.some.injEq, Prod.mk.injEq] at hcalled <;>
                obtain ⟨rfl, rfl⟩ := hcalled
              · refine ⟨a1, a2, a3, a4, a5, fun _ _ => ⟨?_, ?_⟩⟩
                · show d0.incoming_offset - _ = 0
                  rw [hio]
                  simp
                · show (d0.file_confirm_offset + _) % U32 ≤ _
                  rw [dataDelivered_append, hev0d, hdel, hfc]
                  exact le_trans (Nat.mod_le _ _) (by omega)
              · refine ⟨a1, a2, a3, a4, a5, fun _ _ => ⟨?_, ?_⟩⟩
                · show d0.incoming_offset - _ = 0
                  rw [hio]
                  simp
                · show d0.file_confirm_offset ≤ _
                  rw [dataDelivered_append, hev0d, hdel, hfc]
                  omega
        · rw [if_pos hm] at h
          exact absurd h (by simp)

/-- A step that writes none of the five fields, nor the inbound offset, nor
`file_confirm_offset`. -/
theorem StepKeeps.of_same (d d1 : DccSession) (ev : List Event)
    (h1 : d1.id = d.id) (h2 : d1.dccmode = d.dccmode) (h3 : d1.timeout = d.timeout)
    (h4 : d1.received_file_size = d.received_file_size) (h5 : d1.cb = d.cb)
    (h6 : d1.incoming_offset = d.incoming_offset)
    (h7 : d1.file_confirm_offset = d.file_confirm_offset) : StepKeeps d d1 ev :=
  ⟨h1, h2, h3, h4, h5, fun _ h => ⟨h6.trans h, by omega⟩⟩

/-- The write block keeps what a step keeps. -/
theorem dcc_write_ready_keeps (f : CbCall → Bool) (wr : Int)
    (d d1 : DccSession) (ev : List Event) (h : dcc_write_ready f wr d = some (d1, ev)) :
    StepKeeps d d1 ev := by
  unfold dcc_write_ready at h
  dsimp only at h
  generalize hoffI : (if d.dccmode = DccMode.CHAT then
      libirc_findcrlf d.outgoing_buf (d.outgoing_offset : Int)
    else (d.outgoing_offset : Int)) = offsetI at h
  by_cases hpos : offsetI > 0
  · rw [if_pos hpos] at h
    by_cases hw : wr < 0
    · rw [if_pos hw] at h
      simp only [Option.map_eq_some'] at h
      obtain ⟨⟨d0, e0⟩, hf, heq⟩ := h
      simp only [Prod.mk.injEq] at heq
      obtain ⟨rfl, rfl⟩ := heq
      exact StepKeeps.events _ _ _ _ (dccFail_keeps f d d0 _ e0 hf)
        (by rw [dataDelivered_append]; omega)
    · rw [if_neg hw] at h
      by_cases hw0 : wr = 0
      · rw [if_pos hw0] at h
        simp only [Option.map_eq_some'] at h
        obtain ⟨⟨d0, e0⟩, hf, heq⟩ := h
        simp only [Prod.mk.injEq] at heq
        obtain ⟨rfl, rfl⟩ := heq
        exact StepKeeps.events _ _ _ _ (dccFail_keeps f d d0 _ e0 hf)
          (by rw [dataDelivered_append]; omega)
      · rw [if_neg hw0] at h
        by_cases hsend : d.state = DccState.CONNECTED ∧ d.dccmode = DccMode.SENDFILE
        · rw [if_pos hsend] at h
          have hnr : d.dccmode ≠ DccMode.RECVFILE := by rw [hsend.2]; decide
          split at h
          · exact absurd h (by simp)
          · rename_i d0 e1 hi
            obtain ⟨⟨a1, a2, a3, a4, a5, -⟩, -⟩ := invokeCb_keeps f _ d0 _ _ _ e1 hi
            have hm0 : d0.dccmode = d.dccmode := a2
            rw [if_neg (by rw [hm0]; exact fun hx => hnr hx.2.1)] at h
            simp only [Option.some.injEq, Prod.mk.injEq] at h
            obtain ⟨rfl, rfl⟩ := h
            exact StepKeeps.of_fields _ _ _ a1 a2 a3 a4 a5 hnr
        · rw [if_neg hsend] at h
          dsimp only at h
          split_ifs at h
          all_goals first
            | (simp only [Option.some.injEq, Prod.mk.injEq] at h
               obtain ⟨rfl, rfl⟩ := h
               exact StepKeeps.of_same _ _ _ rfl rfl rfl rfl rfl rfl rfl)
            | (split at h
               · exact absurd h (by simp)
               · rename_i d3 e3 hi
                 simp only [Option.some.injEq, Prod.mk.injEq] at h
                 obtain ⟨rfl, rfl⟩ := h
                 obtain ⟨-, hd3⟩ := invokeCb_keeps f _ d3 _ _ _ e3 hi
                 rcases hd3 with rfl | rfl <;>
                   exact StepKeeps.of_same _ _ _ rfl rfl rfl rfl rfl rfl rfl)
  · rw [if_neg hpos] at h
    simp only [Option.some.injEq, Prod.mk.injEq] at h
    obtain ⟨rfl, rfl⟩ := h
    exact StepKeeps.refl d

/-- The accept block keeps what a step keeps. -/
theorem dcc_accept_ready_keeps (env : Env) (d d1 : DccSession) (ev : List Event)
    (h : dcc_accept_ready env d = some (d1, ev)) : StepKeeps d d1 ev := by
  unfold dcc_accept_ready at h
  dsimp only at h
  split at h
  · exact absurd h (by simp)
  · rename_i d0 e0 hcalled
    have h0 : (d0.id = d.id ∧ d0.dccmode = d.dccmode ∧ d0.timeout = d.timeout
        ∧ d0.received_file_size = d.received_file_size ∧ d0.cb = d.cb
        ∧ d0.incoming_offset = d.incoming_offset
        ∧ d0.file_confirm_offset = d.file_confirm_offset) := by
      split_ifs at hcalled
      all_goals first
        | (obtain ⟨-, hd0⟩ := invokeCb_keeps _ _ d0 _ _ _ e0 hcalled
           rcases hd0 with rfl | rfl <;> exact ⟨rfl, rfl, rfl, rfl, rfl, rfl, rfl⟩)
        | (simp only [Option.some.injEq, Prod.mk.injEq] at hcalled
           obtain ⟨rfl, rfl⟩ := hcalled
           exact ⟨rfl, rfl, rfl, rfl, rfl, rfl, rfl⟩)
    obtain ⟨a1, a2, a3, a4, a5, a6, a7⟩ := h0
    split_ifs at h <;>
      simp only [Option.some.injEq, Prod.mk.injEq] at h <;>
      obtain ⟨rfl, rfl⟩ := h
    all_goals exact StepKeeps.of_same _ _ _ a1 a2 a3 a4 a5 a6 a7

/-- The connect block keeps what a step keeps. -/
theorem dcc_connect_ready_keeps (env : Env) (d d1 : DccSession) (ev : List Event)
    (h : dcc_connect_ready env d = some (d1, ev)) : StepKeeps d d1 ev := by
  unfold dcc_connect_ready at h
  dsimp only at h
  split at h
  · exact absurd h (by simp)
  · rename_i d0 e0 hcalled
    have h0 : (d0.id = d.id ∧ d0.dccmode = d.dccmode ∧ d0.timeout = d.timeout
        ∧ d0.received_file_size = d.received_file_size ∧ d0.cb = d.cb
        ∧ d0.incoming_offset = d.incoming_offset
        ∧ d0.file_confirm_offset = d.file_confirm_offset) := by
      split_ifs at hcalled
      all_goals first
        | (obtain ⟨-, hd0⟩ := invokeCb_keeps _ _ d0 _ _ _ e0 hcalled
           rcases hd0 with rfl | rfl <;> exact ⟨rfl, rfl, rfl, rfl, rfl, rfl, rfl⟩)
        | (simp only [Option.some.injEq, Prod.mk.injEq] at hcalled
           obtain ⟨rfl, rfl⟩ := hcalled
           exact ⟨rfl, rfl, rfl, rfl, rfl, rfl, rfl⟩)
    obtain ⟨a1, a2, a3, a4, a5, a6, a7⟩ := h0
    split_ifs at h <;>
      simp only [Option.some.injEq, Prod.mk.injEq] at h <;>
      obtain ⟨rfl, rfl⟩ := h
    all_goals exact StepKeeps.of_same _ _ _ a1 a2 a3 a4 a5 a6 a7

/-- A block that runs only when its condition holds keeps what a step keeps. -/
theorem guarded_keeps (c : Prop) [Decidable c] (blk : Option (DccSession × List Event))
    (d d1 : DccSession) (ev : List Event)
    (hb : blk = some (d1, ev) → StepKeeps d d1 ev)
    (h : (if c then blk else some (d, [])) = some (d1, ev)) : StepKeeps d d1 ev := by
  by_cases hc : c
  · rw [if_pos hc] at h
    exact hb h
  · rw [if_neg hc] at h
    simp only [Option.some.injEq, Prod.mk.injEq] at h
    obtain ⟨rfl, rfl⟩ := h
    exact StepKeeps.refl d

/-- One iteration of the loop of `libirc_dcc_process_descriptors` keeps what a
step keeps. -/
theorem dcc_process_one_keeps (env : Env) (in_set out_set : List Int)
    (d d1 : DccSession) (ev : List Event) (b : Bool)
    (h : dcc_process_one env in_set out_set d = some (d1, ev, b)) : StepKeeps d d1 ev := by
  unfold dcc_process_one at h
  dsimp only at h
  split at h
  · exact absurd h (by simp)
  · rename_i x1 e1 h1
    have k1 : StepKeeps d x1 e1 :=
      guarded_keeps _ _ d x1 e1 (dcc_accept_ready_keeps env d x1 e1) h1
    split at h
    · exact absurd h (by simp)
    · rename_i x2 e2 h2
      have k2 : StepKeeps x1 x2 e2 :=
        guarded_keeps _ _ x1 x2 e2 (dcc_connect_ready_keeps env x1 x2 e2) h2
      have k12 := StepKeeps.trans _ _ _ _ _ k1 k2
      by_cases hst : x2.state = DccState.CONNECTED ∨ x2.state = DccState.CONFIRM_SIZE
      · rw [if_pos hst] at h
        split at h
        · exact absurd h (by simp)
        · rename_i x3 e3 h3
          have k3 : StepKeeps x2 x3 e3 :=
            guarded_keeps _ _ x2 x3 e3 (dcc_read_ready_keeps _ _ x2 x3 e3) h3
          have k123 := StepKeeps.trans _ _ _ _ _ k12 k3
          by_cases hr : x3.state = DccState.REMOVED
          · rw [if_pos hr] at h
            simp only [Option.some.injEq, Prod.mk.injEq] at h
            obtain ⟨rfl, rfl, -⟩ := h
            exact k123
          · rw [if_neg hr] at h
            split at h
            · exact absurd h (by simp)
            · rename_i x4 e4 h4
              have k4 : StepKeeps x3 x4 e4 :=
                guarded_keeps _ _ x3 x4 e4 (dcc_write_ready_keeps _ _ x3 x4 e4) h4
              simp only [Option.some.injEq, Prod.mk.injEq] at h
              obtain ⟨rfl, rfl, -⟩ := h
              exact StepKeeps.trans _ _ _ _ _ k123 k4
      · rw [if_neg hst] at h
        simp only [Option.some.injEq, Prod.mk.injEq] at h
        obtain ⟨rfl, rfl, -⟩ := h
        exact k12

/-- Any number of passes keep what a step keeps. -/
theorem dcc_process_passes_keeps :
    ∀ (ps : List (Env × List Int × List Int)) (d d1 : DccSession) (ev : List Event),
      dcc_process_passes ps d = some (d1, ev) → StepKeeps d d1 ev := by
  intro ps
  induction ps with
  | nil =>
    intro d d1 ev h
    simp only [dcc_process_passes, Option.some.injEq, Prod.mk.injEq] at h
    obtain ⟨rfl, rfl⟩ := h
    exact StepKeeps.refl d
  | cons p ps ih =>
    intro d d1 ev h
    obtain ⟨env, in_set, out_set⟩ := p
    simp only [dcc_process_passes] at h
    split at h
    · exact absurd h (by simp)
    · rename_i x1 e1 b1 h1
      split at h
      · exact absurd h (by simp)
      · rename_i x2 e2 h2
        simp only [Option.some.injEq, Prod.mk.injEq] at h
        obtain ⟨rfl, rfl⟩ := h
        exact StepKeeps.trans _ _ _ _ _ (dcc_process_one_keeps env in_set out_set d x1 e1 b1 h1)
          (ih x1 x2 e2 h2)

/-! ### The timestamp of a session -/

/-- The timeout block unlinks a session iff the session is timed out. -/
theorem dcc_timeout_check_unlinks (env : Env) (dcc : DccSession) :
    (∃ d1 e1, dcc_timeout_check env dcc = some (d1, true, e1)) ↔ dcc_timed_out env dcc := by
  constructor
  · rintro ⟨d1, e1, h⟩
    by_contra hn
    rw [dcc_timeout_check_fresh env dcc hn] at h
    simp at h
  · intro ht
    by_cases hc : dcc.state ≠ DccState.INIT ∧ dcc.cb = true
    · obtain ⟨d1, rest, h, -⟩ := dcc_timeout_check_told env dcc ht hc.1 hc.2
      exact ⟨_, _, h⟩
    · exact ⟨_, _, dcc_timeout_check_silent env dcc ht hc⟩

/-- A session made by `libirc_new_dcc_session` is the head of the list and
carries the time of its creation. -/
theorem libirc_new_dcc_session_timeout (e : NewDccEnv) (session s1 : IrcSession)
    (ip port : Nat) (mode : DccMode) (ctx : Nat) (ev : List Event)
    (h : libirc_new_dcc_session e session ip port mode ctx = (Status.OK, s1, ev)) :
    ∃ dcc, s1.dcc_sessions = dcc :: session.dcc_sessions ∧ dcc.timeout = e.now := by
  unfold libirc_new_dcc_session at h
  dsimp only at h
  split_ifs at h <;> simp only [Prod.mk.injEq] at h
  all_goals first
    | (obtain ⟨hst, -⟩ := h
       exact absurd hst (by decide))
    | (obtain ⟨-, rfl, -⟩ := h
       exact ⟨_, rfl, rfl⟩)

/-- C14 (as the code has it): a read that succeeds at time 50 on a connected
chat session created at time 0 does not keep the session from being timed out
at time 100, which is within `dcc_timeout = 60` of the read: the pass of
`libirc_dcc_process_descriptors` leaves the timestamp at 0, and the timeout
block of the next `libirc_dcc_add_descriptors` reports `ERR_TIMEOUT` and
unlinks the session. -/
theorem dcc_timeout_ignores_activity :
    dcc_process_one ({ exEnv with now := 50 } : Env) [5] []
        (exSession 1 5 DccMode.CHAT DccState.CONNECTED)
      = some ({ exSession 1 5 DccMode.CHAT DccState.CONNECTED with
            incoming_buf := [104, 105, 0, 0, 0, 0, 0, 0] },
          [Event.read 5 7, Event.callback (CbCall.mk 1 Status.OK (some [104, 105]) 2)], true)
    ∧ (100 : Int) ≤ 50 + exEnv.dcc_timeout
    ∧ dcc_timeout_check ({ exEnv with now := 100 } : Env)
        { exSession 1 5 DccMode.CHAT DccState.CONNECTED with
            incoming_buf := [104, 105, 0, 0, 0, 0, 0, 0] }
      = some ({ exSession 1 5 DccMode.CHAT DccState.CONNECTED with
            incoming_buf := [104, 105, 0, 0, 0, 0, 0, 0] }, true,
          [Event.callback (CbCall.mk 1 Status.ERR_TIMEOUT none 0), Event.close 5]) := by
  decide

/-- C14 (amended): the timeout measures the age of a session. The timestamp is
set by `libirc_new_dcc_session` to the time of creation, no pass of
`libirc_dcc_process_descriptors` writes it, and after any passes the session is
unlinked by the timeout block of `libirc_dcc_add_descriptors` iff its state is
CONNECTED, INIT or LISTENING and `now` exceeds the time of creation by more
than `dcc_timeout`. -/
theorem dcc_timeout_measures_age (ps : List (Env × List Int × List Int))
    (d d1 : DccSession) (ev : List Event)
    (hrun : dcc_process_passes ps d = some (d1, ev)) (env : Env) :
    d1.timeout = d.timeout
    ∧ ((∃ x e, dcc_timeout_check env d1 = some (x, true, e)) ↔
        (d1.state = DccState.CONNECTED ∨ d1.state = DccState.INIT
            ∨ d1.state = DccState.LISTENING) ∧ env.now - d.timeout > env.dcc_timeout)
    ∧ (∀ (e : NewDccEnv) (session s1 : IrcSession) (ip port : Nat) (mode : DccMode)
        (ctx : Nat) (evn : List Event),
        libirc_new_dcc_session e session ip port mode ctx = (Status.OK, s1, evn) →
        ∃ dcc, s1.dcc_sessions = dcc :: session.dcc_sessions ∧ dcc.timeout = e.now) := by
  have ht : d1.timeout = d.timeout := (dcc_process_passes_keeps ps d d1 ev hrun).2.2.1
  refine ⟨ht, ?_, libirc_new_dcc_session_timeout⟩
  rw [dcc_timeout_check_unlinks, ← ht]
  rfl

/-- A pass at time 50 in which a read succeeds leaves the timestamp 0 of the
session as it was. -/
theorem dcc_timeout_measures_age_witness :
    dcc_process_passes [(({ exEnv with now := 50 } : Env), [5], [])]
        (exSession 1 5 DccMode.CHAT DccState.CONNECTED)
      = some ({ exSession 1 5 DccMode.CHAT DccState.CONNECTED with
            incoming_buf := [104, 105, 0, 0, 0, 0, 0, 0] },
          [Event.read 5 7, Event.callback (CbCall.mk 1 Status.OK (some [104, 105]) 2)])
    ∧ ({ exSession 1 5 DccMode.CHAT DccState.CONNECTED with
            incoming_buf := [104, 105, 0, 0, 0, 0, 0, 0] } : DccSession).timeout
        = (exSession 1 5 DccMode.CHAT DccState.CONNECTED).timeout :=
  ⟨by decide,
    (dcc_timeout_measures_age [(({ exEnv with now := 50 } : Env), [5], [])]
      (exSession 1 5 DccMode.CHAT DccState.CONNECTED)
      { exSession 1 5 DccMode.CHAT DccState.CONNECTED with
          incoming_buf := [104, 105, 0, 0, 0, 0, 0, 0] }
      [Event.read 5 7, Event.callback (CbCall.mk 1 Status.OK (some [104, 105]) 2)]
      (by decide) exEnv).1⟩

/-! ### A receiver from the offer on -/

/-- A session made by `libirc_new_dcc_session` is the head of the list, with
the id of the counter, the mode given and empty counters. -/
theorem libirc_new_dcc_session_head (e : NewDccEnv) (session s1 : IrcSession)
    (ip port : Nat) (mode : DccMode) (ctx : Nat) (ev : List Event)
    (h : libirc_new_dcc_session e session ip port mode ctx = (Status.OK, s1, ev)) :
    ∃ dcc, s1.dcc_sessions = dcc :: session.dcc_sessions ∧ dcc.id = session.dcc_last_id
      ∧ dcc.dccmode = mode ∧ dcc.file_confirm_offset = 0 ∧ dcc.incoming_offset = 0
      ∧ dcc.received_file_size = 0 ∧ ev = [] := by
  unfold libirc_new_dcc_session at h
  dsimp only at h
  split_ifs at h <;> simp only [Prod.mk.injEq] at h
  all_goals first
    | (obtain ⟨hst, -⟩ := h
       exact absurd hst (by decide))
    | (obtain ⟨-, rfl, rfl⟩ := h
       exact ⟨_, rfl, rfl, rfl, rfl, rfl, rfl, rfl⟩)

/-- The events of `libirc_new_dcc_session` are at most the closing of its
socket. -/
theorem libirc_new_dcc_session_events (e : NewDccEnv) (session : IrcSession)
    (ip port : Nat) (mode : DccMode) (ctx : Nat) (x : Event)
    (h : x ∈ (libirc_new_dcc_session e session ip port mode ctx).2.2) :
    x = Event.close e.sock := by
  unfold libirc_new_dcc_session at h
  dsimp only at h
  split_ifs at h <;> simp at h <;> exact h

/-- The session behind a `send_req` event of `libirc_dcc_request`. -/
theorem libirc_dcc_request_send (e : NewDccEnv) (session s1 : IrcSession)
    (nick req addr fn : List Nat) (size id : Nat) (ev1 : List Event)
    (hreq : libirc_dcc_request e session nick req = (s1, ev1))
    (hoffer : Event.send_req nick addr fn size id ∈ ev1) :
    ∃ d0, s1.dcc_sessions = d0 :: session.dcc_sessions ∧ d0.id = id
      ∧ d0.dccmode = DccMode.RECVFILE ∧ d0.received_file_size = size
      ∧ d0.file_confirm_offset = 0 ∧ d0.incoming_offset = 0 := by
  unfold libirc_dcc_request at hreq
  split at hreq
  · rename_i ip port _
    exfalso
    have hev := libirc_new_dcc_session_events e session ip port DccMode.CHAT 0
    generalize libirc_new_dcc_session e session ip port DccMode.CHAT 0 = r at hreq hev
    obtain ⟨st, s0, ev⟩ := r
    dsimp only at hev
    have hno : Event.send_req nick addr fn size id ∉ ev := fun hx => by
      have := hev _ hx
      simp at this
    split_ifs at hreq
    · split at hreq
      · rename_i s0 ev0 hr
        simp only [Prod.mk.injEq] at hr
        obtain ⟨-, rfl, rfl⟩ := hr
        split at hreq <;> simp only [Prod.mk.injEq] at hreq <;> obtain ⟨-, rfl⟩ := hreq
        · rcases List.mem_append.1 hoffer with hx | hx
          · exact hno hx
          · simp at hx
        · exact hno hoffer
      · rename_i err s0 ev0 _ hr
        simp only [Prod.mk.injEq] at hr
        obtain ⟨-, -, rfl⟩ := hr
        simp only [Prod.mk.injEq] at hreq
        obtain ⟨-, rfl⟩ := hreq
        exact hno hoffer
    · simp only [Prod.mk.injEq] at hreq
      obtain ⟨-, rfl⟩ := hreq
      simp at hoffer
  · split at hreq
    · rename_i fn1 ip port size1 _
      have hev := libirc_new_dcc_session_events e session ip port DccMode.RECVFILE 0
      generalize hr : libirc_new_dcc_session e session ip port DccMode.RECVFILE 0 = r
        at hreq hev
      obtain ⟨st, s0, ev⟩ := r
      dsimp only at hev
      have hno : Event.send_req nick addr fn size id ∉ ev := fun hx => by
        have := hev _ hx
        simp at this
      split_ifs at hreq
      · split at hreq
        · rename_i s0 ev0 hr0
          simp only [Prod.mk.injEq] at hr0
          obtain ⟨rfl, rfl, rfl⟩ := hr0
          obtain ⟨dcc, hl, hid, hmode, hfco, hio, -, -⟩ :=
            libirc_new_dcc_session_head e session s0 ip port DccMode.RECVFILE 0 ev hr
          rw [hl] at hreq
          simp only [Prod.mk.injEq] at hreq
          obtain ⟨rfl, rfl⟩ := hreq
          rcases List.mem_append.1 hoffer with hx | hx
          · exact absurd hx hno
          · simp only [List.mem_singleton, Event.send_req.injEq] at hx
            obtain ⟨-, -, -, rfl, rfl⟩ := hx
            exact ⟨{ dcc with received_file_size := size }, by simp only [modify_head],
              rfl, hmode, rfl, hfco, hio⟩
        · rename_i err s0 ev0 _ hr0
          simp only [Prod.mk.injEq] at hr0
          obtain ⟨-, -, rfl⟩ := hr0
          simp only [Prod.mk.injEq] at hreq
          obtain ⟨-, rfl⟩ := hreq
          exact absurd hoffer hno
      · simp only [Prod.mk.injEq] at hreq
        obtain ⟨-, rfl⟩ := hreq
        simp at hoffer
    · simp only [Prod.mk.injEq] at hreq
      obtain ⟨-, rfl⟩ := hreq
      simp at hoffer

/-- The call `irc_dcc_accept` for the id of the head of the list writes only
the callback, the context, the socket and the state of the head. -/
theorem irc_dcc_accept_head (s1 s2 : IrcSession) (d0 : DccSession) (rest : List DccSession)
    (ctx : Nat) (callback : Bool) (conn : ConnectResult) (r : Int) (ev2 : List Event)
    (hl : s1.dcc_sessions = d0 :: rest)
    (hacc : irc_dcc_accept s1 d0.id ctx callback conn = (r, s2, ev2)) :
    ∃ d, s2.dcc_sessions = d :: rest ∧ d.id = d0.id ∧ d.dccmode = d0.dccmode
      ∧ d.received_file_size = d0.received_file_size
      ∧ d.file_confirm_offset = d0.file_confirm_offset
      ∧ d.incoming_offset = d0.incoming_offset := by
  have hfind : libirc_find_dcc_session (d0 :: rest) d0.id = some d0 := by
    simp [libirc_find_dcc_session]
  unfold irc_dcc_accept libirc_find_dcc_session_lock at hacc
  simp only [if_true, LOCK_DCC_MUTEX, hl, hfind] at hacc
  split_ifs at hacc <;> simp only [Prod.mk.injEq] at hacc <;> obtain ⟨-, rfl, -⟩ := hacc
  · exact ⟨d0, rfl, rfl, rfl, rfl, rfl, rfl⟩
  · refine ⟨({ d0 with cb := callback, ctx := ctx } : DccSession).destroy.1, ?_, ?_⟩
    · simp only [UNLOCK_DCC_MUTEX, modify_dcc, if_true, libirc_dcc_destroy_nolock]
    · exact ⟨rfl, rfl, rfl, rfl, rfl⟩
  · refine ⟨{ d0 with cb := callback, ctx := ctx, state := DccState.CONNECTING }, ?_, ?_⟩
    · simp only [modify_dcc, if_true]
    · exact ⟨rfl, rfl, rfl, rfl, rfl⟩

/-- C11 (as the code has it): a file of 3 bytes is offered, the offer is
accepted, the connection is made, and the peer sends 5 bytes, which one read
takes: the receiver is in a state with `file_confirm_offset = 5` above
`received_file_size = 3`. No step compares the two before the ACK is written. -/
theorem recvfile_offset_exceeds_size :
    libirc_dcc_request exNewEnv (exIrc []) [110] exSendReq
      = ({ exIrc [exOffered DccState.INIT false 0] with dcc_last_id := 11 },
          [Event.send_req [110] [127, 0, 0, 1] [102] 3 10])
    ∧ irc_dcc_accept { exIrc [exOffered DccState.INIT false 0] with dcc_last_id := 11 }
        10 3 true ConnectResult.in_progress
      = (0, { exIrc [exOffered DccState.CONNECTING true 3] with
                dcc_last_id := 11, mutex_dcc := 1 },
          [Event.connect 5])
    ∧ dcc_process_passes
        [(exEnv, [], [5]),
          (({ exEnv with sockRead := fun _ => some [1, 2, 3, 4, 5] } : Env), [5], [])]
        (exOffered DccState.CONNECTING true 3)
      = some ({ exOffered DccState.CONFIRM_SIZE true 3 with
              file_confirm_offset := 5
              incoming_buf := [1, 2, 3, 4, 5, 0, 0, 0]
              outgoing_buf := [0, 0, 0, 5, 0, 0, 0, 0]
              outgoing_offset := 4 },
          [Event.getpeername 5, Event.read 5 7,
            Event.callback (CbCall.mk 10 Status.OK (some [1, 2, 3, 4, 5]) 5)])
    ∧ ¬ (({ exOffered DccState.CONFIRM_SIZE true 3 with
              file_confirm_offset := 5
              incoming_buf := [1, 2, 3, 4, 5, 0, 0, 0]
              outgoing_buf := [0, 0, 0, 5, 0, 0, 0, 0]
              outgoing_offset := 4 } : DccSession).file_confirm_offset
          ≤ ({ exOffered DccState.CONFIRM_SIZE true 3 with
              file_confirm_offset := 5
              incoming_buf := [1, 2, 3, 4, 5, 0, 0, 0]
              outgoing_buf := [0, 0, 0, 5, 0, 0, 0, 0]
              outgoing_offset := 4 } : DccSession).received_file_size) := by
  decide

/-- C11 (amended): for the session that `libirc_dcc_request` made of a
`DCC SEND` offer (the one whose id the handler `dcc_send_req` was given), after
`irc_dcc_accept` and any passes of `libirc_dcc_process_descriptors`, the mode
is RECVFILE, `received_file_size` is the size of the offer, and
`file_confirm_offset` is at most the number of bytes given to the callback so
far; it is at most `received_file_size` as long as the peer has sent, and the
callback has been given, no more than that. -/
theorem recvfile_offset_bounded_by_delivered (e : NewDccEnv) (session s1 s2 : IrcSession)
    (nick req addr fn : List Nat) (size id : Nat) (ev1 ev2 : List Event) (ctx : Nat)
    (callback : Bool) (conn : ConnectResult) (r : Int)
    (hreq : libirc_dcc_request e session nick req = (s1, ev1))
    (hoffer : Event.send_req nick addr fn size id ∈ ev1)
    (hacc : irc_dcc_accept s1 id ctx callback conn = (r, s2, ev2)) :
    ∃ d0, s2.dcc_sessions = d0 :: session.dcc_sessions ∧ d0.id = id
      ∧ d0.dccmode = DccMode.RECVFILE ∧ d0.received_file_size = size
      ∧ d0.file_confirm_offset = 0
      ∧ ∀ (ps : List (Env × List Int × List Int)) (d : DccSession) (ev : List Event),
          dcc_process_passes ps d0 = some (d, ev) →
            d.dccmode = DccMode.RECVFILE ∧ d.received_file_size = size
              ∧ d.file_confirm_offset ≤ dataDelivered ev
              ∧ (dataDelivered ev ≤ size → d.file_confirm_offset ≤ d.received_file_size) := by
  obtain ⟨d, hl, hid, hmode, hsize, hfco, hio⟩ :=
    libirc_dcc_request_send e session s1 nick req addr fn size id ev1 hreq hoffer
  rw [← hid] at hacc
  obtain ⟨d0, hl2, hid2, hmode2, hsize2, hfco2, hio2⟩ :=
    irc_dcc_accept_head s1 s2 d session.dcc_sessions ctx callback conn r ev2 hl hacc
  refine ⟨d0, hl2, hid2.trans hid, hmode2.trans hmode, hsize2.trans hsize,
    hfco2.trans hfco, ?_⟩
  intro ps dd ev hrun
  obtain ⟨-, k2, -, k4, -, k6⟩ := dcc_process_passes_keeps ps d0 dd ev hrun
  obtain ⟨-, hle⟩ := k6 (hmode2.trans hmode) (hio2.trans hio)
  have hb : dd.file_confirm_offset ≤ dataDelivered ev := by
    rw [hfco2.trans hfco] at hle
    omega
  have hs : dd.received_file_size = size := k4.trans (hsize2.trans hsize)
  exact ⟨k2.trans (hmode2.trans hmode), hs, hb, fun h => by omega⟩

/-- The offer of a file of 3 bytes, accepted: after the connection and a read
of 5 bytes the offset is 5, the number of bytes given to the callback. -/
theorem recvfile_offset_bounded_by_delivered_witness :
    libirc_dcc_request exNewEnv (exIrc []) [110] exSendReq
      = ({ exIrc [exOffered DccState.INIT false 0] with dcc_last_id := 11 },
          [Event.send_req [110] [127, 0, 0, 1] [102] 3 10])
    ∧ Event.send_req [110] [127, 0, 0, 1] [102] 3 10
        ∈ [Event.send_req [110] [127, 0, 0, 1] [102] 3 10]
    ∧ irc_dcc_accept { exIrc [exOffered DccState.INIT false 0] with dcc_last_id := 11 }
        10 3 true ConnectResult.in_progress
      = (0, { exIrc [exOffered DccState.CONNECTING true 3] with
                dcc_last_id := 11, mutex_dcc := 1 },
          [Event.connect 5])
    ∧ ∃ d0, ({ exIrc [exOffered DccState.CONNECTING true 3] with
                dcc_last_id := 11, mutex_dcc := 1 } : IrcSession).dcc_sessions
          = d0 :: (exIrc []).dcc_sessions ∧ d0.id = 10
      ∧ d0.dccmode = DccMode.RECVFILE ∧ d0.received_file_size = 3
      ∧ d0.file_confirm_offset = 0
      ∧ ∀ (ps : List (Env × List Int × List Int)) (d : DccSession) (ev : List Event),
          dcc_process_passes ps d0 = some (d, ev) →
            d.dccmode = DccMode.RECVFILE ∧ d.received_file_size = 3
              ∧ d.file_confirm_offset ≤ dataDelivered ev
              ∧ (dataDelivered ev ≤ 3 → d.file_confirm_offset ≤ d.received_file_size) :=
  ⟨by decide, by decide, by decide,
    recvfile_offset_bounded_by_delivered exNewEnv (exIrc [])
      { exIrc [exOffered DccState.INIT false 0] with dcc_last_id := 11 }
      { exIrc [exOffered DccState.CONNECTING true 3] with dcc_last_id := 11, mutex_dcc := 1 }
      [110] exSendReq [127, 0, 0, 1] [102] 3 10
      [Event.send_req [110] [127, 0, 0, 1] [102] 3 10] [Event.connect 5] 3 true
      ConnectResult.in_progress 0 (by decide) (by decide) (by decide)⟩

/-! ### Decimal numbers: `sprintf` and `sscanf` -/

/-- The value of a string of digits read after `acc`. -/
theorem scanDigits_append (ds rest : List Nat) (acc : Nat)
    (hds : ∀ c ∈ ds, isDigit c = true) :
    scanDigits (ds ++ rest) acc
      = scanDigits rest (ds.foldl (fun a c => a * 10 + (c - 48)) acc) := by
  induction ds generalizing acc with
  | nil => rfl
  | cons c cs ih =>
    have hc : isDigit c = true := hds c (List.mem_cons_self _ _)
    simp only [List.cons_append, scanDigits, hc, if_true, List.foldl_cons]
    exact ih _ (fun x hx => hds x (List.mem_cons_of_mem _ hx))

/-- Reading digits stops at the end and at a character that is no digit. -/
theorem scanDigits_stop (rest : List Nat) (acc : Nat)
    (h : ∀ c cs, rest = c :: cs → isDigit c = false) : scanDigits rest acc = (acc, rest) := by
  cases rest with
  | nil => rfl
  | cons c cs => simp [scanDigits, h c cs rfl]

/-- The characters `sprintf` writes for a number are digits. -/
theorem decimalAux_digits (fuel n : Nat) : ∀ c ∈ decimalAux fuel n, 48 ≤ c ∧ c ≤ 57 := by
  induction fuel generalizing n with
  | zero => intro c hc; simp [decimalAux] at hc
  | succ fuel ih =>
    intro c hc
    unfold decimalAux at hc
    split_ifs at hc with h
    · simp only [List.mem_singleton] at hc
      omega
    · rcases List.mem_append.1 hc with hc | hc
      · exact ih _ c hc
      · simp only [List.mem_singleton] at hc
        omega

/-- The digits `sprintf` writes for `n` have the value `n`. -/
theorem decimalAux_value (fuel : Nat) : ∀ (n acc : Nat), n < fuel →
    (decimalAux fuel n).foldl (fun a c => a * 10 + (c - 48)) acc
      = acc * 10 ^ (decimalAux fuel n).length + n := by
  induction fuel with
  | zero => intro n acc h; omega
  | succ fuel ih =>
    intro n acc h
    unfold decimalAux
    split_ifs with h10
    · simp
    · have hlt : n / 10 < fuel := by omega
      rw [List.foldl_append, ih (n / 10) acc hlt]
      simp only [List.foldl_cons, List.foldl_nil, List.length_append, List.length_singleton,
        Nat.add_sub_cancel_left, pow_succ]
      have := Nat.div_add_mod n 10
      nlinarith [this]

/-- The number `sprintf` writes starts with a digit. -/
theorem decimal_cons (n : Nat) : ∃ c cs, decimal n = c :: cs ∧ 48 ≤ c ∧ c ≤ 57 := by
  have hne : decimal n ≠ [] := by
    unfold decimal decimalAux
    split_ifs <;> simp
  cases h : decimal n with
  | nil => exact absurd h hne
  | cons c cs =>
    have := decimalAux_digits (n + 1) n c (by
      have : c ∈ decimal n := by rw [h]; exact List.mem_cons_self _ _
      exact this)
    exact ⟨c, cs, rfl, this⟩

/-- Reading back with `scanDigits` what `sprintf` wrote. -/
theorem scanDigits_decimal (n : Nat) (rest : List Nat)
    (h : ∀ c cs, rest = c :: cs → isDigit c = false) :
    scanDigits (decimal n ++ rest) 0 = (n, rest) := by
  unfold decimal
  rw [scanDigits_append _ _ _ (fun c hc => by
    have := decimalAux_digits (n + 1) n c hc
    simp [isDigit, this.1, this.2])]
  rw [decimalAux_value (n + 1) n 0 (Nat.lt_succ_self n), scanDigits_stop _ _ h]
  simp

/-- Reading back with `%lu` or `%hu` what `sprintf` wrote. -/
theorem scanUnsigned_decimal (w n : Nat) (rest : List Nat) (hn : n < ULONG)
    (h : ∀ c cs, rest = c :: cs → isDigit c = false) :
    scanUnsigned w (decimal n ++ rest) = some (n % 2 ^ w, rest) := by
  obtain ⟨c, cs, hc, h48, h57⟩ := decimal_cons n
  have hsd := scanDigits_decimal n rest h
  rw [hc] at hsd ⊢
  have hmin : min n (ULONG - 1) = n := by
    unfold ULONG at *
    omega
  simp only [List.cons_append] at hsd
  unfold scanUnsigned
  interval_cases c <;>
    simp [skipSpace, isSpace, isDigit, hsd, hmin]

/-- White space is not skipped into a number. -/
theorem skipSpace_decimal (n : Nat) (rest : List Nat) :
    skipSpace (decimal n ++ rest) = decimal n ++ rest := by
  obtain ⟨c, cs, hc, h48, h57⟩ := decimal_cons n
  rw [hc]
  have hsp : isSpace c = false := by
    simp only [isSpace, Bool.or_eq_false_iff, beq_eq_false_iff_ne, Bool.and_eq_false_iff,
      decide_eq_false_iff_not]
    omega
  simp [skipSpace, hsp]

/-- A text without a NUL byte is the C string it starts. -/
theorem cstr_of_nonzero (l : List Nat) (h : ∀ c ∈ l, c ≠ 0) : cstr l = l := by
  unfold cstr
  rw [List.takeWhile_eq_self_iff]
  intro c hc
  simpa using h c hc

/-- The text of a chat request holds no NUL byte. -/
theorem dcc_chat_request_cstr (ip port : Nat) :
    cstr (dcc_chat_request ip port) = dcc_chat_request ip port := by
  apply cstr_of_nonzero
  intro c hc
  unfold dcc_chat_request at hc
  simp only [List.mem_append, List.mem_cons, List.mem_singleton, List.not_mem_nil,
    or_false] at hc
  rcases hc with ((hc | hc) | hc) | hc
  · omega
  · have := decimalAux_digits _ _ c hc
    omega
  · omega
  · have := decimalAux_digits _ _ c hc
    omega

/-- What `sscanf` with the format `DCC CHAT chat %lu %hu` reads from a chat
request. -/
theorem sscanf_dcc_chat (ip port : Nat) (hip : ip < ULONG) (hport : port < 65536) :
    sscanf fmt_dcc_chat (dcc_chat_request ip port) = [ScanVal.num ip, ScanVal.num port] := by
  have h1 : scanUnsigned 64 (decimal ip ++ (32 :: (decimal port ++ [])))
      = some (ip % 2 ^ 64, 32 :: (decimal port ++ [])) :=
    scanUnsigned_decimal 64 ip _ hip (fun c cs h => by
      simp only [List.cons.injEq] at h
      rw [← h.1]
      rfl)
  have h2 : scanUnsigned 16 (decimal port ++ []) = some (port % 2 ^ 16, []) :=
    scanUnsigned_decimal 16 port [] (by unfold ULONG; omega) (fun c cs h => by simp at h)
  have e1 : ip % 2 ^ 64 = ip := Nat.mod_eq_of_lt (by unfold ULONG at hip; omega)
  have e2 : port % 2 ^ 16 = port := Nat.mod_eq_of_lt (by omega)
  rw [e1] at h1
  rw [e2] at h2
  have h3 := skipSpace_decimal ip (32 :: (decimal port ++ []))
  have h4 := skipSpace_decimal port []
  simp only [List.append_nil] at h1 h2 h3 h4
  simp [fmt_dcc_chat, dcc_chat_request, lits, sscanf, skipSpace, isSpace, h1, h2, h3, h4]

/-! ### DCC requests and the address they carry -/

/-- The bytes `htons` leaves, read back. -/
theorem ntohs_htons (p : Nat) (rest : List Nat) :
    ntohs_bytes (htons_bytes p ++ rest) = p % 65536 := by
  simp only [ntohs_bytes, htons_bytes, byteAt]
  simp
  omega

/-- C19 (amended): for every nonzero 32-bit `ip` and every 16-bit `port`, with
the handler `dcc_chat_req` installed and `malloc`, `socket` and `fcntl`
succeeding, `libirc_dcc_request` on the text `DCC CHAT chat <ip> <port>` puts
exactly one new session at the head of the list, with mode CHAT, state INIT and
the remote address `ip` and `port` in network byte order, and invokes
`dcc_chat_req` once, with the id of that session. -/
theorem libirc_dcc_request_chat (e : NewDccEnv) (session : IrcSession) (nick : List Nat)
    (ip port : Nat) (hip0 : ip ≠ 0) (hip : ip < U32) (hport : port < 65536)
    (hh : session.event_dcc_chat_req = true) (hm : e.malloc_ok = true) (hs : 0 ≤ e.sock)
    (hf : e.fcntl_ok = true) :
    libirc_dcc_request e session nick (dcc_chat_request ip port)
      = ({ session with
            dcc_last_id := (session.dcc_last_id + 1) % U32
            dcc_sessions :=
              { id := session.dcc_last_id, sock := e.sock, fd := -1, dccmode := DccMode.CHAT,
                state := DccState.INIT, timeout := e.now, cb := false,
                received_file_size := 0, file_confirm_offset := 0,
                incoming_buf := List.replicate e.bufsize 0, incoming_offset := 0,
                outgoing_buf := List.replicate e.bufsize 0, outgoing_offset := 0,
                ctx := 0,
                remote_addr :=
                  { sin_family := AF_INET, sin_port := htons_bytes port,
                    sin_addr := htonl_bytes ip } } :: session.dcc_sessions },
          [Event.chat_req nick (htonl_bytes ip) session.dcc_last_id])
    ∧ ntohl_bytes (htonl_bytes ip) = ip ∧ ntohs_bytes (htons_bytes port) = port := by
  refine ⟨?_, ?_, ?_⟩
  · have hsock : ¬ e.sock < 0 := by omega
    have hmod : ip % U32 = ip := Nat.mod_eq_of_lt hip
    unfold libirc_dcc_request
    rw [dcc_chat_request_cstr, sscanf_dcc_chat ip port (by unfold ULONG; unfold U32 at hip; omega)
      hport]
    simp [hh, libirc_new_dcc_session, hm, hsock, hip0, hf, hmod]
  · have := ntohl_htonl ip []
    rw [List.append_nil] at this
    rw [this]
    exact Nat.mod_eq_of_lt hip
  · have := ntohs_htons port []
    rw [List.append_nil] at this
    rw [this]
    exact Nat.mod_eq_of_lt hport

/-- The request `DCC CHAT chat 2130706433 40000`: a chat offered from 127.0.0.1,
port 40000. -/
theorem libirc_dcc_request_chat_witness :
    (2130706433 : Nat) ≠ 0 ∧ 2130706433 < U32 ∧ (40000 : Nat) < 65536
    ∧ (exIrc []).event_dcc_chat_req = true ∧ exNewEnv.malloc_ok = true ∧ 0 ≤ exNewEnv.sock
    ∧ exNewEnv.fcntl_ok = true
    ∧ ntohl_bytes (htonl_bytes 2130706433) = 2130706433
    ∧ ntohs_bytes (htons_bytes 40000) = 40000 :=
  ⟨by decide, by decide, by decide, rfl, rfl, by decide, rfl,
    (libirc_dcc_request_chat exNewEnv (exIrc []) [110] 2130706433 40000 (by decide)
      (by decide) (by decide) rfl rfl (by decide) rfl).2⟩

/-- C19 (as the code has it): the request `DCC CHAT chat 0 4000` does not make
a session in state INIT with the remote address of the request: with `ip = 0`,
`libirc_new_dcc_session` binds and listens, and the new session is in state
LISTENING with an all-zero remote address (port 0, not 4000). -/
theorem dcc_chat_request_ip_zero_listens :
    libirc_dcc_request exNewEnv (exIrc []) [110] (dcc_chat_request 0 4000)
      = ({ exIrc [{ exSession 10 5 DccMode.CHAT DccState.LISTENING with cb := false }] with
            dcc_last_id := 11 },
          [Event.chat_req [110] [0, 0, 0, 0] 10])
    ∧ ({ exSession 10 5 DccMode.CHAT DccState.LISTENING with
          cb := false } : DccSession).state ≠ DccState.INIT
    ∧ ntohs_bytes ({ exSession 10 5 DccMode.CHAT DccState.LISTENING with
          cb := false } : DccSession).remote_addr.sin_port ≠ 4000 := by
  decide

/-- The number four bytes in network byte order denote, with shifts. -/
theorem ntohl_bytes_shift (a b c d : Nat) (hb : b < 256) (hc : c < 256) (hd : d < 256) :
    ntohl_bytes [a, b, c, d] = (a <<< 24) ||| (b <<< 16) ||| (c <<< 8) ||| d := by
  have h1 : 2 ^ 24 * a + b * 65536 = 2 ^ 24 * a ||| b * 65536 :=
    Nat.mul_add_lt_is_or (by omega) a
  have h2 : 2 ^ 16 * (a * 256 + b) + c * 256 = 2 ^ 16 * (a * 256 + b) ||| c * 256 :=
    Nat.mul_add_lt_is_or (by omega) _
  have h3 : 2 ^ 8 * (a * 65536 + b * 256 + c) + d = 2 ^ 8 * (a * 65536 + b * 256 + c) ||| d :=
    Nat.mul_add_lt_is_or (by omega) _
  have e1 : a <<< 24 = 2 ^ 24 * a := by rw [Nat.shiftLeft_eq, Nat.mul_comm]
  have e2 : b <<< 16 = b * 65536 := by rw [Nat.shiftLeft_eq]
  have e3 : c <<< 8 = c * 256 := by rw [Nat.shiftLeft_eq]
  rw [e1, e2, e3, ← h1]
  have e4 : 2 ^ 24 * a + b * 65536 = 2 ^ 16 * (a * 256 + b) := by omega
  rw [e4, ← h2]
  have e5 : 2 ^ 16 * (a * 256 + b) + c * 256 = 2 ^ 8 * (a * 65536 + b * 256 + c) := by omega
  rw [e5, ← h3]
  simp only [ntohl_bytes, byteAt]
  simp
  omega

/-- The bytes `htonl` leaves for the number four bytes denote are these bytes. -/
theorem htonl_ntohl (a b c d : Nat) (ha : a < 256) (hb : b < 256) (hc : c < 256)
    (hd : d < 256) : htonl_bytes (ntohl_bytes [a, b, c, d] % U32) = [a, b, c, d] := by
  simp only [ntohl_bytes, htonl_bytes, byteAt, U32]
  simp
  refine ⟨?_, ?_, ?_, ?_⟩ <;> omega

/-- The result of `libirc_new_dcc_session` when its system calls succeed. -/
theorem libirc_new_dcc_session_ok (e : NewDccEnv) (session : IrcSession) (ip port : Nat)
    (mode : DccMode) (ctx : Nat) (hm : e.malloc_ok = true) (hs : 0 ≤ e.sock)
    (hbind : e.bind_ok = true) (hlisten : e.listen_ok = true) (hf : e.fcntl_ok = true) :
    libirc_new_dcc_session e session ip port mode ctx
      = (Status.OK,
          { session with
            dcc_last_id := (session.dcc_last_id + 1) % U32
            dcc_sessions :=
              { id := session.dcc_last_id, sock := e.sock, fd := -1, dccmode := mode,
                state := if ip = 0 then DccState.LISTENING else DccState.INIT,
                timeout := e.now, cb := false,
                received_file_size := 0, file_confirm_offset := 0,
                incoming_buf := List.replicate e.bufsize 0, incoming_offset := 0,
                outgoing_buf := List.replicate e.bufsize 0, outgoing_offset := 0,
                ctx := ctx,
                remote_addr := if ip = 0 then SockAddr.zero else
                  { sin_family := AF_INET, sin_port := htons_bytes port,
                    sin_addr := htonl_bytes (ip % U32) } } :: session.dcc_sessions },
          []) := by
  have hsock : ¬ e.sock < 0 := by omega
  by_cases h0 : ip = 0
  · simp [libirc_new_dcc_session, hm, hsock, h0, hbind, hlisten]
  · simp [libirc_new_dcc_session, hm, hsock, h0, hf]

/-- C20: the DCC address encoding, for an IPv4 address `a.b.c.d` held as four
bytes in network byte order. The number it denotes is
`(a<<24)|(b<<16)|(c<<8)|d`, whatever the byte order of the machine;
`irc_dcc_chat` and `irc_dcc_sendfile`, when they succeed, send an offer that
carries this number in decimal; `libirc_new_dcc_session` given this number
stores the remote address `a.b.c.d`; reading the number back from the offer
with `sscanf` and storing it with `htonl` yields the four bytes again; and
2130706433 denotes 127.0.0.1. -/
theorem dcc_address_round_trip (a b c d : Nat) (ha : a < 256) (hb : b < 256) (hc : c < 256)
    (hd : d < 256) :
    ntohl_bytes [a, b, c, d] = (a <<< 24) ||| (b <<< 16) ||| (c <<< 8) ||| d
    ∧ (∀ (e : NewDccEnv) (o : OfferEnv) (session : IrcSession) (ctx : Nat) (nick : List Nat)
        (callback : Bool) (saddr : SockAddr),
        session.state = DccState.CONNECTED → e.malloc_ok = true → 0 ≤ e.sock →
        e.bind_ok = true → e.listen_ok = true → o.getsockname = some saddr →
        o.notice = none → o.ctcp_request = none → saddr.sin_addr = [a, b, c, d] →
        (irc_dcc_chat e o session ctx nick callback).1 = 0
        ∧ Event.cmd_ctcp_request nick
            (dcc_chat_request (ntohl_bytes [a, b, c, d]) (ntohs_bytes saddr.sin_port))
          ∈ (irc_dcc_chat e o session ctx nick callback).2.2.1)
    ∧ (∀ (e : NewDccEnv) (o : OfferEnv) (f : FileEnv) (session : IrcSession) (ctx : Nat)
        (nick name : List Nat) (saddr : SockAddr),
        session.state = DccState.CONNECTED → f.stat_ok = true → f.is_reg = true →
        f.st_size ≠ 0 → f.open_fd ≠ -1 → e.malloc_ok = true → 0 ≤ e.sock →
        e.bind_ok = true → e.listen_ok = true → o.getsockname = some saddr →
        o.notice = none → o.ctcp_request = none → saddr.sin_addr = [a, b, c, d] →
        (irc_dcc_sendfile e o f session ctx nick (some name) true true).1 = 0
        ∧ Event.cmd_ctcp_request nick
            ([68, 67, 67, 32, 83, 69, 78, 68, 32] ++ strip_path (cstr name) ++ [32]
              ++ decimal (ntohl_bytes [a, b, c, d]) ++ [32]
              ++ decimal (ntohs_bytes saddr.sin_port) ++ [32] ++ decimal f.st_size)
          ∈ (irc_dcc_sendfile e o f session ctx nick (some name) true true).2.2.1)
    ∧ (∀ (e : NewDccEnv) (session : IrcSession) (port : Nat) (mode : DccMode) (ctx : Nat),
        e.malloc_ok = true → 0 ≤ e.sock → e.bind_ok = true → e.listen_ok = true →
        e.fcntl_ok = true →
        ∃ dcc, (libirc_new_dcc_session e session (ntohl_bytes [a, b, c, d]) port mode ctx).1
            = Status.OK
          ∧ (libirc_new_dcc_session e session (ntohl_bytes [a, b, c, d]) port mode
              ctx).2.1.dcc_sessions = dcc :: session.dcc_sessions
          ∧ dcc.remote_addr.sin_addr = [a, b, c, d])
    ∧ (∀ port, port < 65536 →
        sscanf fmt_dcc_chat (dcc_chat_request (ntohl_bytes [a, b, c, d]) port)
          = [ScanVal.num (ntohl_bytes [a, b, c, d]), ScanVal.num port])
    ∧ htonl_bytes (ntohl_bytes [a, b, c, d]) = [a, b, c, d]
    ∧ ntohl_bytes [127, 0, 0, 1] = 2130706433
    ∧ htonl_bytes 2130706433 = [127, 0, 0, 1] := by
  have hlt : ntohl_bytes [a, b, c, d] < U32 := by
    simp only [ntohl_bytes, byteAt, U32]
    simp
    omega
  have hround : htonl_bytes (ntohl_bytes [a, b, c, d]) = [a, b, c, d] := by
    have := htonl_ntohl a b c d ha hb hc hd
    rwa [Nat.mod_eq_of_lt hlt] at this
  refine ⟨ntohl_bytes_shift a b c d hb hc hd, ?_, ?_, ?_, ?_, hround, by decide, by decide⟩
  · intro e o session ctx nick callback saddr hst hm hs hbind hlisten hg hn hcr haddr
    have hsock : ¬ e.sock < 0 := by omega
    simp [irc_dcc_chat, libirc_new_dcc_session, send_offer, dcc_chat_request, hst, hm, hsock,
      hbind, hlisten, hg, hn, hcr, haddr]
  · intro e o f session ctx nick name saddr hst hstat hreg hsize hopen hm hs hbind hlisten hg
      hn hcr haddr
    have hsock : ¬ e.sock < 0 := by omega
    simp [irc_dcc_sendfile, libirc_new_dcc_session, send_offer, hst, hstat, hreg, hsize,
      hopen, hm, hsock, hbind, hlisten, hg, hn, hcr, haddr]
  · intro e session port mode ctx hm hs hbind hlisten hf
    rw [libirc_new_dcc_session_ok e session _ port mode ctx hm hs hbind hlisten hf]
    refine ⟨_, rfl, rfl, ?_⟩
    by_cases h0 : ntohl_bytes [a, b, c, d] = 0
    · have hz : a = 0 ∧ b = 0 ∧ c = 0 ∧ d = 0 := by
        simp only [ntohl_bytes, byteAt] at h0
        simp at h0
        omega
      obtain ⟨rfl, rfl, rfl, rfl⟩ := hz
      simp only [h0, if_true]
      rfl
    · simp only [h0, if_false]
      exact htonl_ntohl a b c d ha hb hc hd
  · intro port hport
    exact sscanf_dcc_chat _ port (by unfold ULONG; unfold U32 at hlt; omega) hport

/-- The address 127.0.0.1 and the number 2130706433. -/
theorem dcc_address_round_trip_witness :
    (127 : Nat) < 256 ∧ (0 : Nat) < 256 ∧ (1 : Nat) < 256
    ∧ ntohl_bytes [127, 0, 0, 1] = (127 <<< 24) ||| (0 <<< 16) ||| (0 <<< 8) ||| 1
    ∧ htonl_bytes (ntohl_bytes [127, 0, 0, 1]) = [127, 0, 0, 1] :=
  ⟨by decide, by decide, by decide,
    (dcc_address_round_trip 127 0 0 1 (by decide) (by decide) (by decide) (by decide)).1,
    (dcc_address_round_trip 127 0 0 1 (by decide) (by decide) (by decide)
      (by decide)).2.2.2.2.2.1⟩

/-- Destroying the second of two sessions: the call returns 0. -/
theorem dcc_destroy_tombstone_witness :
    ((exIrc [exSession 1 5 DccMode.CHAT DccState.CONNECTED,
        exSession 2 6 DccMode.CHAT DccState.INIT]).dcc_sessions.get ⟨1, by decide⟩).id = 2
    ∧ (∀ d ∈ (exIrc [exSession 1 5 DccMode.CHAT DccState.CONNECTED,
        exSession 2 6 DccMode.CHAT DccState.INIT]).dcc_sessions.take 1, d.id ≠ 2)
    ∧ (irc_dcc_destroy (exIrc [exSession 1 5 DccMode.CHAT DccState.CONNECTED,
        exSession 2 6 DccMode.CHAT DccState.INIT]) 2).1 = 0
    ∧ (irc_dcc_destroy (exIrc [exSession 1 5 DccMode.CHAT DccState.CONNECTED,
        exSession 2 6 DccMode.CHAT DccState.INIT]) 2).2.1.dcc_sessions
      = [exSession 1 5 DccMode.CHAT DccState.CONNECTED,
          { exSession 2 6 DccMode.CHAT DccState.INIT with
            sock := -1, state := DccState.REMOVED }] :=
  ⟨rfl, by decide,
    congrArg Prod.fst
      ((dcc_destroy_tombstone (exIrc [exSession 1 5 DccMode.CHAT DccState.CONNECTED,
        exSession 2 6 DccMode.CHAT DccState.INIT]) 2).1 1 (by decide) rfl (by decide)).1,
    by decide⟩

/-! ### Faults, registration and locks: evaluations of the code -/

/-- C21 (evaluation of the code): a SENDFILE session whose `accept` fails and a
RECVFILE session whose connect check fails are marked REMOVED, their socket is
closed, and no callback is invoked; a CHAT session in the same situation is told
`ERR_ACCEPT` before it is marked. -/
theorem dcc_file_session_fault_without_callback :
    dcc_process_one ({ exEnv with accept := fun _ => -1 } : Env) [5] []
        (exSession 1 5 DccMode.SENDFILE DccState.LISTENING)
      = some ({ exSession 1 5 DccMode.SENDFILE DccState.LISTENING with
            sock := -1, state := DccState.REMOVED },
          [Event.accept 5, Event.close 5], false)
    ∧ dcc_process_one ({ exEnv with getpeername := fun _ => false } : Env) [] [5]
        (exSession 1 5 DccMode.RECVFILE DccState.CONNECTING)
      = some ({ exSession 1 5 DccMode.RECVFILE DccState.CONNECTING with
            sock := -1, state := DccState.REMOVED },
          [Event.getpeername 5, Event.close 5], false)
    ∧ dcc_process_one ({ exEnv with accept := fun _ => -1 } : Env) [5] []
        (exSession 1 5 DccMode.CHAT DccState.LISTENING)
      = some ({ exSession 1 5 DccMode.CHAT DccState.LISTENING with
            sock := -1, state := DccState.REMOVED },
          [Event.accept 5, Event.callback (CbCall.mk 1 Status.ERR_ACCEPT none 0),
            Event.close 5], false) := by
  decide

/-- C26 (evaluation of the code): for a SENDFILE session in state CONNECTED at
the head of the list, whose file read gives three bytes,
`libirc_dcc_add_descriptors` adds the socket to the read set as well as to the
write set. -/
theorem libirc_dcc_add_descriptors_registers_sender_for_read :
    libirc_dcc_add_descriptors exSendEnv [exSender 9 DccState.CONNECTED]
        { in_set := [], out_set := [], maxfd := 0 }
      = some ([{ exSender 9 DccState.CONNECTED with
              outgoing_buf := [1, 2, 3, 0, 0, 0, 0, 0], outgoing_offset := 3 }],
          { in_set := [9], out_set := [9], maxfd := 9 }, [Event.fileRead 7 8]) := by
  decide

/-- C27 (evaluation of the code): a file is offered with `irc_dcc_sendfile`, the
peer connects, `libirc_dcc_add_descriptors` registers the socket of the sender
for reading, the peer sends one byte, and the next pass of
`libirc_dcc_process_descriptors` reads it on a session in state CONNECTED whose
mode is neither CHAT nor RECVFILE: it reaches `abort ()`. -/
theorem libirc_dcc_process_descriptors_aborts_on_sender_input :
    irc_dcc_sendfile exNewEnv exOfferEnv exFileEnv (exIrc []) 3 [110] (some [102]) true true
      = (0, { exIrc [exSender 5 DccState.LISTENING] with dcc_last_id := 11 },
          [Event.cmd_notice [110]
              [68, 67, 67, 32, 83, 101, 110, 100, 32, 102, 32, 40, 49, 50, 55, 46, 48, 46, 48,
                46, 49, 41],
            Event.cmd_ctcp_request [110]
              [68, 67, 67, 32, 83, 69, 78, 68, 32, 102, 32, 50, 49, 51, 48, 55, 48, 54, 52, 51,
                51, 32, 52, 48, 48, 48, 32, 51]],
          some 10)
    ∧ libirc_dcc_process_descriptors exSendEnv [5] [] [exSender 5 DccState.LISTENING]
      = some ([exSender 9 DccState.CONNECTED], [Event.accept 5, Event.close 5])
    ∧ libirc_dcc_add_descriptors exSendEnv [exSender 9 DccState.CONNECTED]
        { in_set := [], out_set := [], maxfd := 0 }
      = some ([{ exSender 9 DccState.CONNECTED with
              outgoing_buf := [1, 2, 3, 0, 0, 0, 0, 0], outgoing_offset := 3 }],
          { in_set := [9], out_set := [9], maxfd := 9 }, [Event.fileRead 7 8])
    ∧ libirc_dcc_process_descriptors exSendEnv [9] [9]
        [{ exSender 9 DccState.CONNECTED with
              outgoing_buf := [1, 2, 3, 0, 0, 0, 0, 0], outgoing_offset := 3 }]
      = none := by
  decide

/-- C28 (evaluation of the code): a SENDFILE session in state CONFIRM_SIZE that
awaits the ACK of 3 bytes reads five bytes in one read, the first four being
the ACK of value 3. The read block leaves it in state CONFIRM_SIZE with
`incoming_offset = 5` and invokes no callback; `libirc_dcc_add_descriptors`,
at whatever time, then keeps the session and registers its socket in neither
set. -/
theorem sendfile_stuck_in_confirm_size :
    dcc_process_one ({ exEnv with sockRead := fun _ => some [0, 0, 0, 3, 0] } : Env) [5] []
        { exSession 1 5 DccMode.SENDFILE DccState.CONFIRM_SIZE with file_confirm_offset := 3 }
      = some ({ exSession 1 5 DccMode.SENDFILE DccState.CONFIRM_SIZE with
            file_confirm_offset := 3
            incoming_buf := [0, 0, 0, 3, 0, 0, 0, 0]
            incoming_offset := 5 },
          [Event.read 5 7], true)
    ∧ libirc_dcc_add_descriptors ({ exEnv with now := 1000000 } : Env)
        [{ exSession 1 5 DccMode.SENDFILE DccState.CONFIRM_SIZE with
            file_confirm_offset := 3
            incoming_buf := [0, 0, 0, 3, 0, 0, 0, 0]
            incoming_offset := 5 }]
        { in_set := [], out_set := [], maxfd := 0 }
      = some ([{ exSession 1 5 DccMode.SENDFILE DccState.CONFIRM_SIZE with
              file_confirm_offset := 3
              incoming_buf := [0, 0, 0, 3, 0, 0, 0, 0]
              incoming_offset := 5 }],
          { in_set := [], out_set := [], maxfd := 0 }, []) := by
  decide

/-- C30 (evaluation of the code, with what holds in general):
`libirc_find_dcc_session` with `lock_list = 1` returns with the DCC mutex held
once more iff it found the session, and `irc_dcc_destroy`, `irc_dcc_msg` and
`irc_dcc_decline` leave the mutex as they found it on every path; so does
`irc_dcc_accept` when the id is unknown, the state is not INIT or the connect
fails, but when the connect is initiated it returns 0 with the mutex still
held: for a CHAT session in state INIT the count goes from 0 to 1. -/
theorem irc_dcc_accept_leaves_mutex_locked :
    (∀ (session : IrcSession) (dccid : Nat),
      (libirc_find_dcc_session_lock session dccid true).2.mutex_dcc
        = session.mutex_dcc
          + (if (libirc_find_dcc_session_lock session dccid true).1.isSome then 1 else 0))
    ∧ (∀ (session : IrcSession) (dccid : Nat),
        (irc_dcc_destroy session dccid).2.1.mutex_dcc = session.mutex_dcc)
    ∧ (∀ (session : IrcSession) (dccid : Nat) (text : List Nat),
        (irc_dcc_msg session dccid text).2.1.mutex_dcc = session.mutex_dcc)
    ∧ (∀ (session : IrcSession) (dccid : Nat),
        (irc_dcc_decline session dccid).2.1.mutex_dcc = session.mutex_dcc)
    ∧ (∀ (session : IrcSession) (dccid ctx : Nat) (callback : Bool) (conn : ConnectResult),
        (irc_dcc_accept session dccid ctx callback conn).2.1.mutex_dcc
          = session.mutex_dcc
            + (if (∃ d, libirc_find_dcc_session session.dcc_sessions dccid = some d
                    ∧ d.state = DccState.INIT) ∧ conn ≠ ConnectResult.failed then 1 else 0))
    ∧ (exIrc [exSession 1 5 DccMode.CHAT DccState.INIT]).mutex_dcc = 0
    ∧ irc_dcc_accept (exIrc [exSession 1 5 DccMode.CHAT DccState.INIT]) 1 3 true
        ConnectResult.in_progress
      = (0, { exIrc [{ exSession 1 5 DccMode.CHAT DccState.INIT with
                        cb := true, ctx := 3, state := DccState.CONNECTING }] with
                mutex_dcc := 1 },
          [Event.connect 5]) := by
  refine ⟨?_, ?_, ?_, ?_, ?_, rfl, by decide⟩
  · intro session dccid
    unfold libirc_find_dcc_session_lock
    cases h : libirc_find_dcc_session session.dcc_sessions dccid <;>
      simp [LOCK_DCC_MUTEX, UNLOCK_DCC_MUTEX, h]
  · intro session dccid
    unfold irc_dcc_destroy libirc_find_dcc_session_lock
    cases h : libirc_find_dcc_session session.dcc_sessions dccid <;>
      simp [LOCK_DCC_MUTEX, UNLOCK_DCC_MUTEX, h]
  · intro session dccid text
    unfold irc_dcc_msg libirc_find_dcc_session_lock
    cases h : libirc_find_dcc_session session.dcc_sessions dccid with
    | none => simp [LOCK_DCC_MUTEX, UNLOCK_DCC_MUTEX, h]
    | some d =>
      simp only [LOCK_DCC_MUTEX, UNLOCK_DCC_MUTEX, h, if_true]
      split_ifs <;> simp
  · intro session dccid
    unfold irc_dcc_decline libirc_find_dcc_session_lock
    cases h : libirc_find_dcc_session session.dcc_sessions dccid with
    | none => simp [LOCK_DCC_MUTEX, UNLOCK_DCC_MUTEX, h]
    | some d =>
      simp only [LOCK_DCC_MUTEX, UNLOCK_DCC_MUTEX, h, if_true]
      split_ifs <;> simp
  · intro session dccid ctx callback conn
    unfold irc_dcc_accept libirc_find_dcc_session_lock
    cases h : libirc_find_dcc_session session.dcc_sessions dccid with
    | none => simp [LOCK_DCC_MUTEX, UNLOCK_DCC_MUTEX, h]
    | some d =>
      simp only [LOCK_DCC_MUTEX, UNLOCK_DCC_MUTEX, h, if_true]
      by_cases hst : d.state = DccState.INIT
      · by_cases hc : conn = ConnectResult.failed
        · simp [hst, hc]
        · simp [hst, hc]
      · simp [hst]

/-- C22 (as the code has it): for a file that `stat` does not find,
`irc_dcc_sendfile` sets `lasterror` to `ERR_OPENFILE`, not to
`ERR_NODCCSEND`. -/
theorem irc_dcc_sendfile_missing_file_openfile :
    irc_dcc_sendfile exNewEnv exOfferEnv
        { stat_ok := false, is_reg := false, st_size := 0, open_fd := -1 }
        (exIrc []) 3 [110] (some [102]) true true
      = (1, { exIrc [] with lasterror := Status.ERR_OPENFILE }, [], none)
    ∧ Status.ERR_OPENFILE ≠ Status.ERR_NODCCSEND := by
  decide

/-- C22 (amended): `irc_dcc_sendfile` on a CONNECTED session with a file name,
a callback and a place for the id given returns 1 and creates no DCC session
(the DCC list, `dcc_last_id` and everything but `lasterror` are unchanged, and
there is no event) when the file is missing, is not a regular file, or has size
0; `lasterror` is `ERR_OPENFILE` when `stat` fails (the file is missing) and
`ERR_NODCCSEND` when the file is found but is not regular or is empty. -/
theorem irc_dcc_sendfile_bad_file (e : NewDccEnv) (o : OfferEnv) (f : FileEnv)
    (session : IrcSession) (ctx : Nat) (nick name : List Nat)
    (hst : session.state = DccState.CONNECTED) :
    (f.stat_ok = false →
      irc_dcc_sendfile e o f session ctx nick (some name) true true
        = (1, { session with lasterror := Status.ERR_OPENFILE }, [], none))
    ∧ (f.stat_ok = true → f.is_reg = false ∨ f.st_size = 0 →
      irc_dcc_sendfile e o f session ctx nick (some name) true true
        = (1, { session with lasterror := Status.ERR_NODCCSEND }, [], none)) := by
  constructor
  · intro h
    simp [irc_dcc_sendfile, hst, h]
  · intro h1 h2
    simp [irc_dcc_sendfile, hst, h1, h2]

/-- An empty regular file is refused with `ERR_NODCCSEND`. -/
theorem irc_dcc_sendfile_bad_file_witness :
    (exIrc []).state = DccState.CONNECTED
    ∧ irc_dcc_sendfile exNewEnv exOfferEnv
        { stat_ok := true, is_reg := true, st_size := 0, open_fd := 7 }
        (exIrc []) 3 [110] (some [102]) true true
      = (1, { exIrc [] with lasterror := Status.ERR_NODCCSEND }, [], none) :=
  ⟨rfl,
    (irc_dcc_sendfile_bad_file exNewEnv exOfferEnv
      { stat_ok := true, is_reg := true, st_size := 0, open_fd := 7 }
      (exIrc []) 3 [110] [102] rfl).2 rfl (Or.inr rfl)⟩

/-! ### The locks held when a callback is invoked -/

/-- The events of marking a session are no lock events. -/
theorem destroy_no_lock (d : DccSession) : ∀ e ∈ d.destroy.2, isLockEvent e = false := by
  unfold DccSession.destroy
  intro e he
  split_ifs at he
  · simp only [List.mem_singleton] at he
    rw [he]
    rfl
  · simp at he

/-- The events of a callback invocation are no lock events. -/
theorem invokeCb_no_lock (f : CbCall → Bool) (d d1 : DccSession) (st : Status)
    (data : Option (List Nat)) (len : Nat) (ev : List Event)
    (h : invokeCb f d st data len = some (d1, ev)) : ∀ e ∈ ev, isLockEvent e = false := by
  intro e he
  unfold invokeCb at h
  by_cases hcb : d.cb = true
  · rw [if_pos hcb] at h
    by_cases hf : f (CbCall.mk d.id st data len) = true
    · rw [if_pos hf] at h
      simp only [Option.some.injEq, Prod.mk.injEq] at h
      obtain ⟨-, rfl⟩ := h
      rcases List.mem_cons.1 he with he | he
      · rw [he]
        rfl
      · exact destroy_no_lock d e he
    · rw [if_neg hf] at h
      simp only [Option.some.injEq, Prod.mk.injEq] at h
      obtain ⟨-, rfl⟩ := h
      simp only [List.mem_singleton] at he
      rw [he]
      rfl
  · rw [if_neg hcb] at h
    exact absurd h (by simp)

/-- A trace without lock events is left as it is when the lock events are
taken out. -/
theorem filter_no_lock (ev : List Event) (h : ∀ e ∈ ev, isLockEvent e = false) :
    ev.filter (fun e => !isLockEvent e) = ev := by
  rw [List.filter_eq_self]
  intro e he
  rw [h e he]
  rfl

/-- Without its lock events, `invokeCbUnlocked` is `invokeCb`. -/
theorem invokeCbUnlocked_erase (f : CbCall → Bool) (d : DccSession) (st : Status)
    (data : Option (List Nat)) (len : Nat) :
    (invokeCbUnlocked f d st data len).map
        (fun r => (r.1, r.2.filter (fun e => !isLockEvent e)))
      = invokeCb f d st data len := by
  unfold invokeCbUnlocked
  cases h : invokeCb f d st data len with
  | none => rfl
  | some p =>
    obtain ⟨d1, ev⟩ := p
    have e1 : List.filter (fun e => !isLockEvent e) [Event.unlock_dcc] = [] := rfl
    have e2 : List.filter (fun e => !isLockEvent e) [Event.lock_dcc] = [] := rfl
    simp only [Option.map_some', List.filter_append, e1, e2, List.nil_append, List.append_nil,
      filter_no_lock ev (invokeCb_no_lock f d d1 st data len ev h)]

/-- Without its lock events, `dccFailUnlocked` is `dccFail`. -/
theorem dccFailUnlocked_erase (f : CbCall → Bool) (d : DccSession) (err : Status) :
    (dccFailUnlocked f d err).map (fun r => (r.1, r.2.filter (fun e => !isLockEvent e)))
      = dccFail f d err := by
  unfold dccFailUnlocked dccFail invokeCbUnlocked
  cases h : invokeCb f d err none 0 with
  | none => rfl
  | some p =>
    obtain ⟨d1, ev⟩ := p
    have e1 : List.filter (fun e => !isLockEvent e) [Event.unlock_dcc] = [] := rfl
    have e2 : List.filter (fun e => !isLockEvent e) [Event.lock_dcc] = [] := rfl
    simp only [Option.map_some', List.filter_append, e1, e2, List.nil_append, List.append_nil,
      filter_no_lock ev (invokeCb_no_lock f d d1 err none 0 ev h),
      filter_no_lock _ (destroy_no_lock d1)]

/-- The completion of a receiver (dcc.c, lines 476-482) without its lock
events. -/
theorem completion_erase (f : CbCall → Bool) (d2 : DccSession) (preL pre : List Event)
    (h : preL.filter (fun e => !isLockEvent e) = pre) :
    Option.map (fun r : DccSession × List Event =>
          (r.1, r.2.filter (fun e => !isLockEvent e)))
        (match invokeCbUnlocked f d2 Status.OK none 0 with
          | none => none
          | some (d3, ev3) =>
            some (d3.destroy.1, preL ++ ev3 ++ d3.destroy.2 ++ [Event.unlock_outbuf]))
      = match invokeCb f d2 Status.OK none 0 with
        | none => none
        | some (d3, ev3) => some (d3.destroy.1, pre ++ ev3 ++ d3.destroy.2) := by
  have e1 : List.filter (fun e => !isLockEvent e) [Event.unlock_outbuf] = [] := rfl
  rw [← invokeCbUnlocked_erase f d2 Status.OK none 0]
  cases invokeCbUnlocked f d2 Status.OK none 0 with
  | none => rfl
  | some p =>
    obtain ⟨d3, ev3⟩ := p
    simp only [Option.map_some', List.filter_append, h, e1, List.append_nil,
      filter_no_lock _ (destroy_no_lock d3)]

/-- Without its lock events, the write block with locks is the write block. -/
theorem dcc_write_ready_locked_erase (f : CbCall → Bool) (wr : Int) (d : DccSession) :
    (dcc_write_ready_locked f wr d).map
        (fun r => (r.1, r.2.filter (fun e => !isLockEvent e)))
      = dcc_write_ready f wr d := by
  have e1 : List.filter (fun e => !isLockEvent e) [Event.unlock_outbuf] = [] := rfl
  have e2 : ∀ x, List.filter (fun e => !isLockEvent e) [Event.lock_outbuf, x]
      = List.filter (fun e => !isLockEvent e) [x] := fun _ => rfl
  have e3 : ∀ s o w, List.filter (fun e => !isLockEvent e) [Event.write s o w]
      = [Event.write s o w] := fun _ _ _ => rfl
  have e4 : List.filter (fun e => !isLockEvent e) [Event.lock_outbuf, Event.unlock_outbuf]
      = [] := rfl
  unfold dcc_write_ready_locked dcc_write_ready
  dsimp only
  generalize hoffI : (if d.dccmode = DccMode.CHAT then
      libirc_findcrlf d.outgoing_buf (d.outgoing_offset : Int)
    else (d.outgoing_offset : Int)) = offsetI
  by_cases hpos : offsetI > 0
  · rw [if_pos hpos, if_pos hpos]
    by_cases hw : wr < 0
    · rw [if_pos hw, if_pos hw, ← dccFailUnlocked_erase]
      cases dccFailUnlocked f d Status.ERR_WRITE with
      | none => rfl
      | some p => simp only [Option.map_some', List.filter_append, e1, e2, e3, List.append_nil]
    · rw [if_neg hw, if_neg hw]
      by_cases hw0 : wr = 0
      · rw [if_pos hw0, if_pos hw0, ← dccFailUnlocked_erase]
        cases dccFailUnlocked f d Status.ERR_CLOSED with
        | none => rfl
        | some p => simp only [Option.map_some', List.filter_append, e1, e2, e3, List.append_nil]
      · rw [if_neg hw0, if_neg hw0]
        have e5 : List.filter (fun e => !isLockEvent e) [Event.unlock_dcc] = [] := rfl
        have e6 : List.filter (fun e => !isLockEvent e) [Event.lock_dcc] = [] := rfl
        by_cases hsend : d.state = DccState.CONNECTED ∧ d.dccmode = DccMode.SENDFILE
        · rw [if_pos hsend, if_pos hsend]
          unfold invokeCbUnlocked
          cases hi : invokeCb f
              { d with
                file_confirm_offset := (d.file_confirm_offset + offsetI.toNat) % U32
                state := DccState.CONFIRM_SIZE }
              Status.OK none offsetI.toNat with
          | none => rfl
          | some p =>
            obtain ⟨d0, e0⟩ := p
            have hm : d0.dccmode = DccMode.SENDFILE :=
              ((invokeCb_keeps f _ d0 _ _ _ e0 hi).1.2.1).trans hsend.2
            have c3 : ¬ (d0.state = DccState.CONFIRM_SIZE ∧ d0.dccmode = DccMode.RECVFILE
                ∧ d0.outgoing_offset - wr.toNat = 0) := by
              rw [hm]
              exact fun hx => absurd hx.2.1 (by decide)
            dsimp only
            rw [if_neg c3, if_neg c3]
            simp only [Option.map_some', List.filter_append, e1, e2, e3, e5, e6, List.append_nil,
              List.nil_append, filter_no_lock e0 (invokeCb_no_lock f _ d0 _ _ _ e0 hi)]
        · rw [if_neg hsend, if_neg hsend]
          dsimp only
          by_cases c3 : d.state = DccState.CONFIRM_SIZE ∧ d.dccmode = DccMode.RECVFILE
              ∧ d.outgoing_offset - wr.toNat = 0
          · rw [if_pos c3, if_pos c3]
            by_cases c4 : d.received_file_size = d.file_confirm_offset
            · rw [if_pos c4, if_pos c4]
              exact completion_erase f _ _ _ (by
                simp only [List.filter_append, e2, e3, List.filter_nil, List.append_nil])
            · rw [if_neg c4, if_neg c4]
              simp only [Option.map_some', List.filter_append, e1, e2, e3, List.append_nil,
                List.filter_nil]
          · rw [if_neg c3, if_neg c3]
            simp only [Option.map_some', List.filter_append, e1, e2, e3, List.append_nil,
              List.filter_nil]
  · rw [if_neg hpos, if_neg hpos]
    simp only [Option.map_some', e4]

/-- C23 (evaluation of the code): the write block is entered with the DCC
mutex held once (line 223) and takes `LOCK_DCC_OUTBUF` at line 426. The progress
callback of a sender whose write of 3 bytes is accepted, and the completion
callback of a receiver whose ACK is written, are invoked with the DCC mutex
released and the outbuf lock held; the error callback of the same block is
invoked after `UNLOCK_DCC_OUTBUF`, with no lock held. -/
theorem dcc_write_callbacks_hold_outbuf_lock :
    (dcc_write_ready_locked (fun _ => false) 3
        { exSender 9 DccState.CONNECTED with
          outgoing_buf := [1, 2, 3, 0, 0, 0, 0, 0], outgoing_offset := 3 }).map
        (fun r => r.2)
      = some [Event.lock_outbuf, Event.write 9 [1, 2, 3] 3, Event.unlock_dcc,
          Event.callback (CbCall.mk 10 Status.OK none 3), Event.lock_dcc,
          Event.unlock_outbuf]
    ∧ (dcc_write_ready_locked (fun _ => false) 3
        { exSender 9 DccState.CONNECTED with
          outgoing_buf := [1, 2, 3, 0, 0, 0, 0, 0], outgoing_offset := 3 }).map
        (fun r => callbackLocks (Locks.mk 1 0) r.2)
      = some [(CbCall.mk 10 Status.OK none 3, Locks.mk 0 1)]
    ∧ (dcc_write_ready_locked (fun _ => false) 4
        { exOffered DccState.CONFIRM_SIZE true 3 with
          file_confirm_offset := 3
          outgoing_buf := [0, 0, 0, 3, 0, 0, 0, 0]
          outgoing_offset := 4 }).map
        (fun r => callbackLocks (Locks.mk 1 0) r.2)
      = some [(CbCall.mk 10 Status.OK none 0, Locks.mk 0 1)]
    ∧ (dcc_write_ready_locked (fun _ => false) (-1)
        { exSender 9 DccState.CONNECTED with
          outgoing_buf := [1, 2, 3, 0, 0, 0, 0, 0], outgoing_offset := 3 }).map
        (fun r => callbackLocks (Locks.mk 1 0) r.2)
      = some [(CbCall.mk 10 Status.ERR_WRITE none 0, Locks.mk 0 0)] := by
  decide

/-! ### A file transfer from end to end -/

/-- An iteration of the first loop on a connected sender that is not timed out
and whose file read gives data. -/
theorem dcc_preprocess_one_data (env : Env) (dcc : DccSession) (b : Nat) (bs : List Nat)
    (hst : dcc.state = DccState.CONNECTED) (hmode : dcc.dccmode = DccMode.SENDFILE)
    (hfd : dcc.fd ≥ 0) (hoff : dcc.outgoing_offset = 0) (ht : ¬ dcc_timed_out env dcc)
    (hfr : env.fileRead dcc.fd = some (b :: bs)) :
    dcc_preprocess_one env dcc
      = some ({ dcc with
            outgoing_buf := bufWrite dcc.outgoing_buf 0 (b :: bs)
            outgoing_offset := (b :: bs).length },
          false, [Event.fileRead dcc.fd dcc.outgoing_buf.length]) := by
  have h1 := dcc_timeout_check_fresh env dcc ht
  have hp : dcc.state = DccState.CONNECTED ∧ dcc.dccmode = DccMode.SENDFILE ∧ dcc.fd ≥ 0
      ∧ dcc.outgoing_offset = 0 := ⟨hst, hmode, hfd, hoff⟩
  unfold dcc_preprocess_one
  simp only [h1, dcc_send_pump, if_pos hp, hfr]
  simp [hst]

/-- An iteration of the first loop on a connected sender that is not timed out
and whose file read gives the end of the file. -/
theorem dcc_preprocess_one_eof (env : Env) (dcc : DccSession)
    (hst : dcc.state = DccState.CONNECTED) (hmode : dcc.dccmode = DccMode.SENDFILE)
    (hfd : dcc.fd ≥ 0) (hoff : dcc.outgoing_offset = 0) (hcb : dcc.cb = true)
    (ht : ¬ dcc_timed_out env dcc) (hfr : env.fileRead dcc.fd = some []) :
    dcc_preprocess_one env dcc
      = some ({ dcc with sock := -1, state := DccState.REMOVED }, true,
          [Event.fileRead dcc.fd dcc.outgoing_buf.length,
            Event.callback (CbCall.mk dcc.id Status.OK none 0)]
          ++ dcc.destroy.2 ++ [Event.close dcc.fd]) := by
  have h1 := dcc_timeout_check_fresh env dcc ht
  have h2 := dcc_send_pump_end env dcc hst hmode hfd hoff hcb (some []) hfr (Or.inr rfl)
  unfold dcc_preprocess_one
  simp only [h1, h2]
  simp [removeEvents, hfd]

/-- The bytes stored at the start of a buffer are its first bytes. -/
theorem bufWrite_zero_take (buf bs : List Nat) : (bufWrite buf 0 bs).take bs.length = bs := by
  simp [bufWrite_zero]

/-- Storing at the start of a buffer that has room keeps its size. -/
theorem bufWrite_zero_length (buf bs : List Nat) (h : bs.length ≤ buf.length) :
    (bufWrite buf 0 bs).length = buf.length := by
  simp [bufWrite_zero]
  omega

/-- C24: a DCC SEND round trip for a file of `S` bytes, `0 < S`, that fits in
one buffer of the sender and in one read of the receiver, with callbacks that
do not destroy their session. The sender, CONNECTED with an empty outgoing
buffer, reads the file at its pump; its write of the `S` bytes is fully
accepted and it awaits the ACK in CONFIRM_SIZE. The receiver, CONNECTED and
expecting `S` bytes, reads what the sender wrote in one read: its callback is
given exactly these bytes with status 0; its write of four bytes puts the ACK
`S` in network byte order on the wire, its completion callback (status 0, null
data, length 0) is invoked and it is REMOVED. The sender reads the ACK, is
CONNECTED again with an empty inbound buffer, and at its next pump reads the
end of the file, invokes its callback with status 0 and length 0, is REMOVED
and is not kept in the list. -/
theorem dcc_send_round_trip (cbS cbR : CbCall → Bool) (env1 env2 : Env) (S R : DccSession)
    (file : List Nat) (hndS : ∀ c, cbS c = false) (hndR : ∀ c, cbR c = false)
    (hS1 : S.dccmode = DccMode.SENDFILE) (hS2 : S.state = DccState.CONNECTED)
    (hS3 : S.cb = true) (hS4 : S.fd ≥ 0) (hS5 : S.outgoing_offset = 0)
    (hS6 : S.file_confirm_offset = 0) (hS7 : S.incoming_offset = 0)
    (hR1 : R.dccmode = DccMode.RECVFILE) (hR2 : R.state = DccState.CONNECTED)
    (hR3 : R.cb = true) (hR4 : R.incoming_offset = 0) (hR5 : R.file_confirm_offset = 0)
    (hR6 : R.received_file_size = file.length)
    (hpos : 0 < file.length) (hbuf : file.length ≤ S.outgoing_buf.length)
    (hrd : file.length ≤ R.incoming_buf.length - 1) (h32 : file.length < U32)
    (he1 : env1.fileRead S.fd = some file) (ht1 : ¬ dcc_timed_out env1 S)
    (he2 : env2.fileRead S.fd = some []) (ht2 : env2.now - S.timeout ≤ env2.dcc_timeout) :
    ∃ (S1 S2 S3 S4 R1 R2 : DccSession) (evW evA : List Event),
      dcc_preprocess_one env1 S
        = some (S1, false, [Event.fileRead S.fd S.outgoing_buf.length])
      ∧ dcc_write_ready cbS (file.length : Int) S1 = some (S2, evW)
      ∧ evW = [Event.write S.sock file (file.length : Int),
                Event.callback (CbCall.mk S.id Status.OK none file.length)]
      ∧ wireBytes evW = file
      ∧ S2.state = DccState.CONFIRM_SIZE
      ∧ dcc_read_ready cbR (some (wireBytes evW)) R
        = some (R1, [Event.read R.sock (R.incoming_buf.length - 1),
            Event.callback (CbCall.mk R.id Status.OK (some file) file.length)])
      ∧ dcc_write_ready cbR 4 R1 = some (R2, evA)
      ∧ evA = [Event.write R.sock (htonl_bytes file.length) 4,
                Event.callback (CbCall.mk R.id Status.OK none 0)]
              ++ (if R.sock ≥ 0 then [Event.close R.sock] else [])
      ∧ wireBytes evA = htonl_bytes file.length
      ∧ ntohl_bytes (wireBytes evA) = file.length
      ∧ R2.state = DccState.REMOVED
      ∧ dcc_read_ready cbS (some (wireBytes evA)) S2
        = some (S3, [Event.read S.sock (S.incoming_buf.length - 1)])
      ∧ S3.state = DccState.CONNECTED ∧ S3.incoming_offset = 0
      ∧ dcc_preprocess_one env2 S3
        = some (S4, true,
            [Event.fileRead S.fd S.outgoing_buf.length,
              Event.callback (CbCall.mk S.id Status.OK none 0)]
            ++ S.destroy.2 ++ [Event.close S.fd])
      ∧ S4.state = DccState.REMOVED ∧ dcc_kept env2 S3 = none := by
  obtain ⟨b, bs, hfile⟩ : ∃ b bs, file = b :: bs := by
    cases file with
    | nil => simp at hpos
    | cons b bs => exact ⟨b, bs, rfl⟩
  have hlen : ((file.length : Int)).toNat = file.length := Int.toNat_ofNat _
  -- the pump of the sender
  have p1 : dcc_preprocess_one env1 S
      = some ({ S with
            outgoing_buf := bufWrite S.outgoing_buf 0 file
            outgoing_offset := file.length },
          false, [Event.fileRead S.fd S.outgoing_buf.length]) := by
    rw [hfile] at he1 ⊢
    exact dcc_preprocess_one_data env1 S b bs hS2 hS1 hS4 hS5 ht1 he1
  -- the write of the sender
  have w2 := dcc_write_ready_sendfile cbS
    { S with outgoing_buf := bufWrite S.outgoing_buf 0 file, outgoing_offset := file.length }
    (file.length : Int) hS1 hS2 hS3 (by exact_mod_cast hpos) hpos hndS
  simp only [hlen, Nat.sub_self, gt_iff_lt, lt_self_iff_false, if_false, hS6, Nat.zero_add,
    Nat.mod_eq_of_lt h32, bufWrite_zero_take] at w2
  simp only [hS6] at p1
  -- the read of the receiver
  have r3 := dcc_read_ready_recvfile cbR R file hR1 hR2 hR4 hR3 hpos (hndR _)
  simp only [hR5, hR6, Nat.zero_add, Nat.mod_eq_of_lt h32] at r3
  -- the write of the ACK
  have a4 := dcc_write_ready_recv_ack cbR
    { R with
      state := DccState.CONFIRM_SIZE
      file_confirm_offset := file.length
      incoming_buf := bufWrite R.incoming_buf 0 file
      incoming_offset := 0
      outgoing_buf := bufWrite R.outgoing_buf 0 (htonl_bytes file.length)
      outgoing_offset := 4 }
    4 hR1 rfl hR3 (by decide) (by show (4 : Int) ≤ ((4 : Nat) : Int); decide) hndR
  have h4 : ((4 : Int)).toNat = 4 := rfl
  have htk : (bufWrite R.outgoing_buf 0 (htonl_bytes file.length)).take 4
      = htonl_bytes file.length := bufWrite_zero_take _ (htonl_bytes file.length)
  simp only [h4, Nat.sub_self, if_true, hR6, htk] at a4
  -- the read of the ACK by the sender
  have hack : ntohl_bytes (bufWrite S.incoming_buf 0 (htonl_bytes file.length))
      = file.length := by
    rw [bufWrite_zero, ntohl_htonl]
    exact Nat.mod_eq_of_lt h32
  have s5 := dcc_read_ready_sendfile_ack cbS
    { S with
      state := DccState.CONFIRM_SIZE
      file_confirm_offset := file.length
      outgoing_buf := bufWrite S.outgoing_buf 0 file
      outgoing_offset := 0 }
    (htonl_bytes file.length) hS1 rfl (by rw [htonl_bytes_length]; decide)
    (by show S.incoming_offset + 4 = 4; omega)
  simp only [hS7, hack, if_true, Nat.sub_zero] at s5
  -- the next pump of the sender
  have ht3 : ¬ dcc_timed_out env2
      { S with
        state := DccState.CONNECTED
        file_confirm_offset := file.length
        incoming_buf := bufWrite S.incoming_buf 0 (htonl_bytes file.length)
        incoming_offset := 0
        outgoing_buf := bufWrite S.outgoing_buf 0 file
        outgoing_offset := 0 } := by
    unfold dcc_timed_out
    intro h
    have := h.2
    dsimp only at this
    omega
  have p6 := dcc_preprocess_one_eof env2
    { S with
      state := DccState.CONNECTED
      file_confirm_offset := file.length
      incoming_buf := bufWrite S.incoming_buf 0 (htonl_bytes file.length)
      incoming_offset := 0
      outgoing_buf := bufWrite S.outgoing_buf 0 file
      outgoing_offset := 0 }
    rfl hS1 hS4 rfl hS3 ht3 he2
  simp only [bufWrite_zero_length _ _ hbuf] at p6
  have hwW : wireBytes [Event.write S.sock file (file.length : Int),
      Event.callback (CbCall.mk S.id Status.OK none file.length)] = file := by
    simp [wireBytes]
  have hwA : wireBytes ([Event.write R.sock (htonl_bytes file.length) 4,
      Event.callback (CbCall.mk R.id Status.OK none 0)]
        ++ (if R.sock ≥ 0 then [Event.close R.sock] else [])) = htonl_bytes file.length := by
    split_ifs <;> simp [wireBytes, htonl_bytes]
  have hnt : ntohl_bytes (htonl_bytes file.length) = file.length := by
    have := ntohl_htonl file.length []
    rw [List.append_nil] at this
    rw [this]
    exact Nat.mod_eq_of_lt h32
  refine ⟨_, _, _, _, _, _, _, _, p1, w2, rfl, hwW, rfl, ?_, a4, rfl, hwA, ?_, rfl, ?_, rfl, rfl,
    p6, rfl, ?_⟩
  · rw [hwW]
    exact r3
  · rw [hwA]
    exact hnt
  · rw [hwA]
    simp only [hS7]
    exact s5
  · simp only [dcc_kept, p6]

/-- A file of the three bytes 1, 2, 3 sent from `exSender` to `exOffered`. -/
theorem dcc_send_round_trip_witness :
    (exSender 9 DccState.CONNECTED).dccmode = DccMode.SENDFILE
    ∧ (exOffered DccState.CONNECTED true 3).dccmode = DccMode.RECVFILE
    ∧ (exOffered DccState.CONNECTED true 3).received_file_size = [1, 2, 3].length
    ∧ exSendEnv.fileRead (exSender 9 DccState.CONNECTED).fd = some [1, 2, 3]
    ∧ exEofEnv.fileRead (exSender 9 DccState.CONNECTED).fd = some []
    ∧ ∃ (S1 S2 S3 S4 R1 R2 : DccSession) (evW evA : List Event),
      dcc_preprocess_one exSendEnv (exSender 9 DccState.CONNECTED)
        = some (S1, false, [Event.fileRead (exSender 9 DccState.CONNECTED).fd (exSender 9 DccState.CONNECTED).outgoing_buf.length])
      ∧ dcc_write_ready (fun _ => false) ([1, 2, 3].length : Int) S1 = some (S2, evW)
      ∧ evW = [Event.write (exSender 9 DccState.CONNECTED).sock [1, 2, 3] ([1, 2, 3].length : Int),
                Event.callback (CbCall.mk (exSender 9 DccState.CONNECTED).id Status.OK none [1, 2, 3].length)]
      ∧ wireBytes evW = [1, 2, 3]
      ∧ S2.state = DccState.CONFIRM_SIZE
      ∧ dcc_read_ready (fun _ => false) (some (wireBytes evW)) (exOffered DccState.CONNECTED true 3)
        = some (R1, [Event.read (exOffered DccState.CONNECTED true 3).sock ((exOffered DccState.CONNECTED true 3).incoming_buf.length - 1),
            Event.callback (CbCall.mk (exOffered DccState.CONNECTED true 3).id Status.OK (some [1, 2, 3]) [1, 2, 3].length)])
      ∧ dcc_write_ready (fun _ => false) 4 R1 = some (R2, evA)
      ∧ evA = [Event.write (exOffered DccState.CONNECTED true 3).sock (htonl_bytes [1, 2, 3].length) 4,
                Event.callback (CbCall.mk (exOffered DccState.CONNECTED true 3).id Status.OK none 0)]
              ++ (if (exOffered DccState.CONNECTED true 3).sock ≥ 0 then [Event.close (exOffered DccState.CONNECTED true 3).sock] else [])
      ∧ wireBytes evA = htonl_bytes [1, 2, 3].length
      ∧ ntohl_bytes (wireBytes evA) = [1, 2, 3].length
      ∧ R2.state = DccState.REMOVED
      ∧ dcc_read_ready (fun _ => false) (some (wireBytes evA)) S2
        = some (S3, [Event.read (exSender 9 DccState.CONNECTED).sock ((exSender 9 DccState.CONNECTED).incoming_buf.length - 1)])
      ∧ S3.state = DccState.CONNECTED ∧ S3.incoming_offset = 0
      ∧ dcc_preprocess_one exEofEnv S3
        = some (S4, true,
            [Event.fileRead (exSender 9 DccState.CONNECTED).fd (exSender 9 DccState.CONNECTED).outgoing_buf.length,
              Event.callback (CbCall.mk (exSender 9 DccState.CONNECTED).id Status.OK none 0)]
            ++ (exSender 9 DccState.CONNECTED).destroy.2 ++ [Event.close (exSender 9 DccState.CONNECTED).fd])
      ∧ S4.state = DccState.REMOVED ∧ dcc_kept exEofEnv S3 = none :=
  ⟨rfl, rfl, rfl, rfl, rfl,
    dcc_send_round_trip (fun _ => false) (fun _ => false) exSendEnv exEofEnv
      (exSender 9 DccState.CONNECTED) (exOffered DccState.CONNECTED true 3) [1, 2, 3]
      (fun _ => rfl) (fun _ => rfl) rfl rfl rfl (by decide) rfl rfl rfl rfl rfl rfl rfl rfl rfl
      (by decide) (by decide) (by decide) (by decide) rfl (by decide) rfl (by decide)⟩

/-! ### Bounds of the two scanning functions -/

/-- The offset `libirc_findcrlf` returns is 0 or lies between 2 and the length. -/
theorem libirc_findcrlf_loop_bounds (buf : List Nat) (length : Int) :
    ∀ (fuel offset : Nat),
      libirc_findcrlf_loop buf length fuel offset = 0
        ∨ (2 ≤ libirc_findcrlf_loop buf length fuel offset
            ∧ libirc_findcrlf_loop buf length fuel offset ≤ length) := by
  intro fuel
  induction fuel with
  | zero => intro offset; exact Or.inl rfl
  | succ fuel ih =>
    intro offset
    unfold libirc_findcrlf_loop
    split_ifs with h1 h2
    · right
      omega
    · exact ih (offset + 1)
    · exact Or.inl rfl

/-- The offset `libirc_findcrlf` returns is 0 or lies between 2 and the length. -/
theorem libirc_findcrlf_bounds (buf : List Nat) (length : Int) :
    libirc_findcrlf buf length = 0
      ∨ (2 ≤ libirc_findcrlf buf length ∧ libirc_findcrlf buf length ≤ length) :=
  libirc_findcrlf_loop_bounds buf length _ 0

/-- The offset `libirc_findcrorlf` returns lies between 0 and the length, and
the buffer keeps its size. -/
theorem libirc_findcrorlf_loop_bounds (buf : List Nat) (length : Int) :
    ∀ (fuel offset : Nat),
      (libirc_findcrorlf_loop buf length fuel offset).1.length = buf.length
      ∧ 0 ≤ (libirc_findcrorlf_loop buf length fuel offset).2
      ∧ ((libirc_findcrorlf_loop buf length fuel offset).2 = 0
          ∨ (libirc_findcrorlf_loop buf length fuel offset).2 ≤ length) := by
  intro fuel
  induction fuel with
  | zero => intro offset; exact ⟨rfl, le_refl _, Or.inl rfl⟩
  | succ fuel ih =>
    intro offset
    unfold libirc_findcrorlf_loop
    dsimp only
    split_ifs with h1 h2 h3
    · refine ⟨by simp, by dsimp only; omega, Or.inr ?_⟩
      dsimp only
      omega
    · refine ⟨by simp, by dsimp only; omega, Or.inr ?_⟩
      dsimp only
      omega
    · exact ih (offset + 1)
    · exact ⟨rfl, le_refl _, Or.inl rfl⟩

/-- The offset `libirc_findcrorlf` returns lies between 0 and the length, and
the buffer keeps its size. -/
theorem libirc_findcrorlf_bounds (buf : List Nat) (length : Int) :
    (libirc_findcrorlf buf length).1.length = buf.length
      ∧ 0 ≤ (libirc_findcrorlf buf length).2
      ∧ ((libirc_findcrorlf buf length).2 = 0 ∨ (libirc_findcrorlf buf length).2 ≤ length) :=
  libirc_findcrorlf_loop_bounds buf length _ 0

/-! ### The outgoing stream of a chat session -/

/-- Storing within a buffer keeps its size. -/
theorem bufWrite_length (buf bs : List Nat) (off : Nat) (h : off + bs.length ≤ buf.length) :
    (bufWrite buf off bs).length = buf.length := by
  simp only [bufWrite, List.length_append, List.length_take, List.length_drop]
  omega

/-- After storing `bs` at `off`, the first `off + bs.length` bytes are the old
first `off` bytes and `bs`. -/
theorem bufWrite_take (buf bs : List Nat) (off : Nat) (h : off ≤ buf.length) :
    (bufWrite buf off bs).take (off + bs.length) = buf.take off ++ bs := by
  have hl : (buf.take off ++ bs).length = off + bs.length := by
    simp only [List.length_append, List.length_take]
    omega
  unfold bufWrite
  rw [← hl, List.take_left']
  rfl

/-- A successful `irc_dcc_msg` appends the text and CR LF to the bytes queued
and keeps the buffer within its bounds. -/
theorem dcc_msg_store_spec (text : List Nat) (d : DccSession)
    (hoff : d.outgoing_offset ≤ d.outgoing_buf.length)
    (hfit : ¬ strlen text + 2 ≥ d.outgoing_buf.length - d.outgoing_offset) :
    (dcc_msg_store text d).outgoing_buf.take (dcc_msg_store text d).outgoing_offset
        = d.outgoing_buf.take d.outgoing_offset ++ (cstr text ++ [0x0D, 0x0A])
    ∧ (dcc_msg_store text d).outgoing_offset = d.outgoing_offset + strlen text + 2
    ∧ (dcc_msg_store text d).outgoing_offset < (dcc_msg_store text d).outgoing_buf.length
    ∧ (dcc_msg_store text d).outgoing_buf.length = d.outgoing_buf.length
    ∧ (dcc_msg_store text d).dccmode = d.dccmode := by
  have hl : (cstr text ++ [0x0D, 0x0A]).length = strlen text + 2 := by
    simp [strlen]
  have hlen : (dcc_msg_store text d).outgoing_buf.length = d.outgoing_buf.length := by
    unfold dcc_msg_store
    exact bufWrite_length _ _ _ (by rw [hl]; omega)
  refine ⟨?_, rfl, ?_, hlen, rfl⟩
  · have := bufWrite_take d.outgoing_buf (cstr text ++ [0x0D, 0x0A]) d.outgoing_offset hoff
    rw [hl, ← Nat.add_assoc] at this
    exact this
  · rw [hlen]
    show d.outgoing_offset + strlen text + 2 < d.outgoing_buf.length
    omega

/-- The write block on a chat session when a line is offered. -/
theorem dcc_write_ready_chat (f : CbCall → Bool) (wr : Int) (d : DccSession)
    (hmode : d.dccmode = DccMode.CHAT)
    (hpos : libirc_findcrlf d.outgoing_buf d.outgoing_offset > 0) (hw : 0 < wr) :
    dcc_write_ready f wr d
      = some ({ d with
            outgoing_buf :=
              if d.outgoing_offset - wr.toNat > 0 then
                memmove_front d.outgoing_buf wr.toNat (d.outgoing_offset - wr.toNat)
              else d.outgoing_buf
            outgoing_offset := d.outgoing_offset - wr.toNat },
          [Event.write d.sock
            (d.outgoing_buf.take (libirc_findcrlf d.outgoing_buf d.outgoing_offset).toNat)
            wr]) := by
  have h1 : ¬ wr < 0 := by omega
  have h2 : ¬ wr = 0 := by omega
  unfold dcc_write_ready
  simp [hmode, hpos, h1, h2]

/-- The write block on a chat session when no line is offered. -/
theorem dcc_write_ready_chat_idle (f : CbCall → Bool) (wr : Int) (d : DccSession)
    (hmode : d.dccmode = DccMode.CHAT)
    (hpos : ¬ libirc_findcrlf d.outgoing_buf d.outgoing_offset > 0) :
    dcc_write_ready f wr d = some (d, []) := by
  unfold dcc_write_ready
  simp only [hmode, if_true]
  rw [if_neg hpos]

/-- A write on a chat session puts on the wire the first bytes queued and keeps
the rest in order. -/
theorem dcc_write_ready_chat_stream (f : CbCall → Bool) (wr : Int) (d : DccSession)
    (hmode : d.dccmode = DccMode.CHAT) (hoff : d.outgoing_offset ≤ d.outgoing_buf.length)
    (hok : ¬ (libirc_findcrlf d.outgoing_buf d.outgoing_offset > 0
        ∧ ¬ (0 < wr ∧ wr ≤ libirc_findcrlf d.outgoing_buf d.outgoing_offset))) :
    ∃ d1 e1, dcc_write_ready f wr d = some (d1, e1)
      ∧ wireBytes e1 ++ d1.outgoing_buf.take d1.outgoing_offset
          = d.outgoing_buf.take d.outgoing_offset
      ∧ d1.dccmode = DccMode.CHAT ∧ d1.outgoing_offset ≤ d1.outgoing_buf.length
      ∧ d1.outgoing_buf.length = d.outgoing_buf.length := by
  by_cases hpos : libirc_findcrlf d.outgoing_buf d.outgoing_offset > 0
  · have hw : 0 < wr ∧ wr ≤ libirc_findcrlf d.outgoing_buf d.outgoing_offset := by
      by_contra hn
      exact hok ⟨hpos, hn⟩
    have hb : libirc_findcrlf d.outgoing_buf d.outgoing_offset ≤ (d.outgoing_offset : Int) := by
      rcases libirc_findcrlf_bounds d.outgoing_buf d.outgoing_offset with h | h
      · omega
      · exact h.2
    have hwn : wr.toNat ≤ (libirc_findcrlf d.outgoing_buf d.outgoing_offset).toNat := by omega
    have hon : (libirc_findcrlf d.outgoing_buf d.outgoing_offset).toNat ≤ d.outgoing_offset := by
      omega
    refine ⟨_, _, dcc_write_ready_chat f wr d hmode hpos hw.1, ?_, hmode, ?_, ?_⟩
    · have hrest : (if d.outgoing_offset - wr.toNat > 0 then
            memmove_front d.outgoing_buf wr.toNat (d.outgoing_offset - wr.toNat)
          else d.outgoing_buf).take (d.outgoing_offset - wr.toNat)
          = (d.outgoing_buf.drop wr.toNat).take (d.outgoing_offset - wr.toNat) := by
        by_cases hz : d.outgoing_offset - wr.toNat > 0
        · rw [if_pos hz]
          exact memmove_front_take _ _ _ (by omega)
        · have : d.outgoing_offset - wr.toNat = 0 := by omega
          rw [this]
          simp
      show wireBytes [Event.write d.sock _ wr] ++ _ = _
      simp only [wireBytes, List.append_nil, List.take_take, hrest]
      rw [Nat.min_eq_left hwn]
      have := List.take_add d.outgoing_buf wr.toNat (d.outgoing_offset - wr.toNat)
      rw [← this]
      congr 1
      omega
    · show d.outgoing_offset - wr.toNat ≤ _
      have : (if d.outgoing_offset - wr.toNat > 0 then
            memmove_front d.outgoing_buf wr.toNat (d.outgoing_offset - wr.toNat)
          else d.outgoing_buf).length = d.outgoing_buf.length := by
        split_ifs
        · exact memmove_front_length _ _ _
        · rfl
      show d.outgoing_offset - wr.toNat
        ≤ (if d.outgoing_offset - wr.toNat > 0 then
            memmove_front d.outgoing_buf wr.toNat (d.outgoing_offset - wr.toNat)
          else d.outgoing_buf).length
      rw [this]
      omega
    · show (if d.outgoing_offset - wr.toNat > 0 then
            memmove_front d.outgoing_buf wr.toNat (d.outgoing_offset - wr.toNat)
          else d.outgoing_buf).length = d.outgoing_buf.length
      split_ifs
      · exact memmove_front_length _ _ _
      · rfl
  · exact ⟨d, [], dcc_write_ready_chat_idle f wr d hmode hpos, by simp [wireBytes], hmode, hoff,
      rfl⟩

/-- The bytes written so far, followed by the bytes queued, are the bytes
queued at the start followed by the texts of the messages, each with CR LF, in
the order of the calls. -/
theorem chat_run_stream (f : CbCall → Bool) :
    ∀ (steps : List ChatStep) (d d1 : DccSession) (ev : List Event),
      d.dccmode = DccMode.CHAT → d.outgoing_offset ≤ d.outgoing_buf.length →
      chat_run f steps d = some (d1, ev) →
      wireBytes ev ++ d1.outgoing_buf.take d1.outgoing_offset
          = d.outgoing_buf.take d.outgoing_offset ++ chatTexts steps
        ∧ d1.dccmode = DccMode.CHAT ∧ d1.outgoing_offset ≤ d1.outgoing_buf.length
        ∧ d1.outgoing_buf.length = d.outgoing_buf.length := by
  intro steps
  induction steps with
  | nil =>
    intro d d1 ev hmode hoff h
    simp only [chat_run, Option.some.injEq, Prod.mk.injEq] at h
    obtain ⟨rfl, rfl⟩ := h
    simp [wireBytes, chatTexts, hmode, hoff]
  | cons st steps ih =>
    intro d d1 ev hmode hoff h
    cases st with
    | msg text =>
      simp only [chat_run] at h
      by_cases hfit : strlen text + 2 ≥ d.outgoing_buf.length - d.outgoing_offset
      · rw [if_pos hfit] at h
        exact absurd h (by simp)
      · rw [if_neg hfit] at h
        obtain ⟨m1, -, m3, m4, m5⟩ := dcc_msg_store_spec text d hoff hfit
        obtain ⟨i1, i2, i3, i4⟩ := ih (dcc_msg_store text d) d1 ev (m5.trans hmode)
          (Nat.le_of_lt m3) h
        refine ⟨?_, i2, i3, i4.trans m4⟩
        rw [i1, m1]
        simp only [chatTexts, List.append_assoc]
    | write wr =>
      simp only [chat_run] at h
      by_cases hok : libirc_findcrlf d.outgoing_buf d.outgoing_offset > 0
          ∧ ¬ (0 < wr ∧ wr ≤ libirc_findcrlf d.outgoing_buf d.outgoing_offset)
      · rw [if_pos hok] at h
        exact absurd h (by simp)
      · rw [if_neg hok] at h
        obtain ⟨d2, e2, hw, w1, w2, w3, w4⟩ :=
          dcc_write_ready_chat_stream f wr d hmode hoff hok
        rw [hw] at h
        dsimp only at h
        split at h
        · exact absurd h (by simp)
        · rename_i d3 e3 hrun
          simp only [Option.some.injEq, Prod.mk.injEq] at h
          obtain ⟨rfl, rfl⟩ := h
          obtain ⟨i1, i2, i3, i4⟩ := ih d2 d3 e3 w2 w3 hrun
          refine ⟨?_, i2, i3, i4.trans w4⟩
          rw [wireBytes_append, List.append_assoc, i1, ← List.append_assoc, w1]
          rfl

/-- C25: the output of a chat session is a byte stream in the order of the
calls. For a CHAT session whose outgoing buffer is empty and any interleaving
of calls of `irc_dcc_msg` that succeed and of write blocks in which the socket
accepts a positive number of the bytes offered, the bytes written so far
followed by the first `outgoing_offset` bytes of the outgoing buffer are the
texts, each followed by CR LF, in the order of the calls. A successful
`irc_dcc_msg` returns 0, changes the session it found only, appends the text and
CR LF to the bytes queued and raises `outgoing_offset` by `strlen (text) + 2`. -/
theorem dcc_chat_stream (f : CbCall → Bool) (steps : List ChatStep) (d d1 : DccSession)
    (ev : List Event) (hmode : d.dccmode = DccMode.CHAT) (hemp : d.outgoing_offset = 0)
    (hrun : chat_run f steps d = some (d1, ev)) :
    wireBytes ev ++ d1.outgoing_buf.take d1.outgoing_offset = chatTexts steps
    ∧ (∀ (session : IrcSession) (dccid : Nat) (text : List Nat) (c : DccSession),
        libirc_find_dcc_session session.dcc_sessions dccid = some c →
        c.dccmode = DccMode.CHAT → c.outgoing_offset ≤ c.outgoing_buf.length →
        ¬ strlen text + 2 ≥ c.outgoing_buf.length - c.outgoing_offset →
        irc_dcc_msg session dccid text
          = (0, { session with
                  dcc_sessions := modify_dcc session.dcc_sessions dccid (dcc_msg_store text) },
              [])
        ∧ (dcc_msg_store text c).outgoing_offset = c.outgoing_offset + strlen text + 2
        ∧ (dcc_msg_store text c).outgoing_buf.take (dcc_msg_store text c).outgoing_offset
            = c.outgoing_buf.take c.outgoing_offset ++ (cstr text ++ [0x0D, 0x0A])) := by
  constructor
  · have h := (chat_run_stream f steps d d1 ev hmode (by omega) hrun).1
    rw [hemp] at h
    simpa using h
  · intro session dccid text c hfind hm hoff hfit
    obtain ⟨m1, m2, -⟩ := dcc_msg_store_spec text c hoff hfit
    refine ⟨?_, m2, m1⟩
    have hne : ¬ c.dccmode ≠ DccMode.CHAT := not_not.2 hm
    unfold irc_dcc_msg libirc_find_dcc_session_lock
    simp only [if_true, LOCK_DCC_MUTEX, hfind, if_neg hne, if_neg hfit, UNLOCK_DCC_MUTEX,
      Int.add_sub_cancel]
    rfl

/-- Two messages, `hi` and `yo`, written in pieces of 2, 2 and 3 bytes: `hi`,
CR LF and `yo` CR are on the wire and the LF is queued. -/
theorem dcc_chat_stream_witness :
    (exSession 1 5 DccMode.CHAT DccState.CONNECTED).dccmode = DccMode.CHAT
    ∧ (exSession 1 5 DccMode.CHAT DccState.CONNECTED).outgoing_offset = 0
    ∧ chat_run (fun _ => false)
        [ChatStep.msg [104, 105], ChatStep.write 2, ChatStep.msg [121, 111], ChatStep.write 2,
          ChatStep.write 3]
        (exSession 1 5 DccMode.CHAT DccState.CONNECTED)
      = some ({ exSession 1 5 DccMode.CHAT DccState.CONNECTED with
              outgoing_buf := [10, 111, 13, 10, 13, 10, 0, 0], outgoing_offset := 1 },
          [Event.write 5 [104, 105, 13, 10] 2, Event.write 5 [13, 10] 2,
            Event.write 5 [121, 111, 13, 10] 3])
    ∧ wireBytes [Event.write 5 [104, 105, 13, 10] 2, Event.write 5 [13, 10] 2,
            Event.write 5 [121, 111, 13, 10] 3]
        ++ ({ exSession 1 5 DccMode.CHAT DccState.CONNECTED with
              outgoing_buf := [10, 111, 13, 10, 13, 10, 0, 0],
              outgoing_offset := 1 } : DccSession).outgoing_buf.take
            ({ exSession 1 5 DccMode.CHAT DccState.CONNECTED with
              outgoing_buf := [10, 111, 13, 10, 13, 10, 0, 0],
              outgoing_offset := 1 } : DccSession).outgoing_offset
      = chatTexts [ChatStep.msg [104, 105], ChatStep.write 2, ChatStep.msg [121, 111],
          ChatStep.write 2, ChatStep.write 3] :=
  ⟨rfl, rfl, by decide,
    (dcc_chat_stream (fun _ => false)
      [ChatStep.msg [104, 105], ChatStep.write 2, ChatStep.msg [121, 111], ChatStep.write 2,
        ChatStep.write 3]
      (exSession 1 5 DccMode.CHAT DccState.CONNECTED)
      { exSession 1 5 DccMode.CHAT DccState.CONNECTED with
        outgoing_buf := [10, 111, 13, 10, 13, 10, 0, 0], outgoing_offset := 1 }
      [Event.write 5 [104, 105, 13, 10] 2, Event.write 5 [13, 10] 2,
        Event.write 5 [121, 111, 13, 10] 3]
      rfl rfl (by decide)).1⟩

/-! ### Buffer offsets stay within the buffers -/

/-- A session with the same buffers and offsets is within bounds. -/
theorem fitsAfter_of_sameBuffers (d d1 : DccSession) (h : SameBuffers d d1) (hb : InBounds d) :
    FitsAfter d d1 := by
  obtain ⟨h1, h2, h3, h4⟩ := h
  unfold FitsAfter InBounds at *
  rw [h1, h2, h3, h4]
  exact ⟨hb, rfl, rfl⟩

/-- Invoking the callback leaves the buffers and the offsets. -/
theorem invokeCb_buffers (f : CbCall → Bool) (d d1 : DccSession) (st : Status)
    (data : Option (List Nat)) (len : Nat) (ev : List Event)
    (h : invokeCb f d st data len = some (d1, ev)) : SameBuffers d d1 := by
  rcases (invokeCb_keeps f d d1 st data len ev h).2 with rfl | rfl
  · exact ⟨rfl, rfl, rfl, rfl⟩
  · exact ⟨rfl, rfl, rfl, rfl⟩

/-- The error exit of a block leaves the buffers and the offsets. -/
theorem dccFail_buffers (f : CbCall → Bool) (d d1 : DccSession) (err : Status)
    (ev : List Event) (h : dccFail f d err = some (d1, ev)) : SameBuffers d d1 := by
  unfold dccFail at h
  split at h
  · exact absurd h (by simp)
  · rename_i d0 e0 hi
    simp only [Option.some.injEq, Prod.mk.injEq] at h
    obtain ⟨rfl, rfl⟩ := h
    obtain ⟨h1, h2, h3, h4⟩ := invokeCb_buffers f d d0 err none 0 e0 hi
    exact ⟨h1, h2, h3, h4⟩

/-- The write block keeps the offsets within the buffers; the amount it
subtracts from `outgoing_offset` is the return value of `write`, which is at
most the number of bytes offered and so at most `outgoing_offset`. -/
theorem dcc_write_ready_bounds (f : CbCall → Bool) (wr : Int) (d d1 : DccSession)
    (ev : List Event) (h : dcc_write_ready f wr d = some (d1, ev)) (hb : InBounds d) :
    FitsAfter d d1 := by
  unfold dcc_write_ready at h
  dsimp only at h
  generalize hoffI : (if d.dccmode = DccMode.CHAT then
      libirc_findcrlf d.outgoing_buf (d.outgoing_offset : Int)
    else (d.outgoing_offset : Int)) = offsetI at h
  have hmm : ∀ (d0 : DccSession), (if d0.outgoing_offset - wr.toNat > 0 then
        memmove_front d0.outgoing_buf wr.toNat (d0.outgoing_offset - wr.toNat)
      else d0.outgoing_buf).length = d0.outgoing_buf.length := by
    intro d0
    split_ifs
    · exact memmove_front_length _ _ _
    · rfl
  by_cases hpos : offsetI > 0
  · rw [if_pos hpos] at h
    by_cases hw : wr < 0
    · rw [if_pos hw] at h
      simp only [Option.map_eq_some'] at h
      obtain ⟨⟨d0, e0⟩, hf, heq⟩ := h
      simp only [Prod.mk.injEq] at heq
      obtain ⟨rfl, rfl⟩ := heq
      exact fitsAfter_of_sameBuffers _ _ (dccFail_buffers f d d0 _ e0 hf) hb
    · rw [if_neg hw] at h
      by_cases hw0 : wr = 0
      · rw [if_pos hw0] at h
        simp only [Option.map_eq_some'] at h
        obtain ⟨⟨d0, e0⟩, hf, heq⟩ := h
        simp only [Prod.mk.injEq] at heq
        obtain ⟨rfl, rfl⟩ := heq
        exact fitsAfter_of_sameBuffers _ _ (dccFail_buffers f d d0 _ e0 hf) hb
      · rw [if_neg hw0] at h
        have key : ∀ (d0 : DccSession), SameBuffers d d0 →
            FitsAfter d
              { d0 with
                outgoing_buf :=
                  if d0.outgoing_offset - wr.toNat > 0 then
                    memmove_front d0.outgoing_buf wr.toNat (d0.outgoing_offset - wr.toNat)
                  else d0.outgoing_buf
                outgoing_offset := d0.outgoing_offset - wr.toNat } := by
          intro d0 hs
          obtain ⟨h1, h2, h3, h4⟩ := hs
          unfold FitsAfter InBounds at *
          dsimp only
          rw [hmm d0, h1, h2, h3, h4]
          exact ⟨⟨hb.1, by omega⟩, rfl, rfl⟩
        split at h
        · exact absurd h (by simp)
        · rename_i d0 ev1 hsent
          have hs : SameBuffers d d0 := by
            split_ifs at hsent
            · obtain ⟨h1, h2, h3, h4⟩ := invokeCb_buffers f _ d0 _ _ _ ev1 hsent
              exact ⟨h1, h2, h3, h4⟩
            · simp only [Option.some.injEq, Prod.mk.injEq] at hsent
              obtain ⟨rfl, -⟩ := hsent
              exact ⟨rfl, rfl, rfl, rfl⟩
          have kd2 := key d0 hs
          by_cases c3 : d0.state = DccState.CONFIRM_SIZE ∧ d0.dccmode = DccMode.RECVFILE
              ∧ d0.outgoing_offset - wr.toNat = 0
          · rw [if_pos c3] at h
            by_cases c4 : d0.received_file_size = d0.file_confirm_offset
            · rw [if_pos c4] at h
              split at h
              · exact absurd h (by simp)
              · rename_i d3 ev3 hi
                simp only [Option.some.injEq, Prod.mk.injEq] at h
                obtain ⟨rfl, -⟩ := h
                obtain ⟨h1, h2, h3, h4⟩ := invokeCb_buffers f _ d3 _ _ _ ev3 hi
                obtain ⟨⟨k1, k2⟩, k3, k4⟩ := kd2
                unfold FitsAfter InBounds DccSession.destroy
                dsimp only
                rw [h1, h2, h3, h4]
                exact ⟨⟨k1, k2⟩, k3, k4⟩
            · rw [if_neg c4] at h
              simp only [Option.some.injEq, Prod.mk.injEq] at h
              obtain ⟨rfl, -⟩ := h
              exact kd2
          · rw [if_neg c3] at h
            simp only [Option.some.injEq, Prod.mk.injEq] at h
            obtain ⟨rfl, -⟩ := h
            exact kd2
  · rw [if_neg hpos] at h
    simp only [Option.some.injEq, Prod.mk.injEq] at h
    obtain ⟨rfl, rfl⟩ := h
    exact fitsAfter_of_sameBuffers _ _ ⟨rfl, rfl, rfl, rfl⟩ hb

/-- Within bounds after a step, and the same buffers and offsets after the
next. -/
theorem fitsAfter_then_sameBuffers (d d1 d2 : DccSession) (h : FitsAfter d d1)
    (hs : SameBuffers d1 d2) : FitsAfter d d2 := by
  obtain ⟨h1, h2, h3, h4⟩ := hs
  unfold FitsAfter InBounds at *
  rw [h1, h2, h3, h4]
  exact h

/-- The read block keeps the offsets within the buffers, for a read that
returns no more bytes than it was asked for and an outgoing buffer of at least
four bytes. -/
theorem dcc_read_ready_bounds (f : CbCall → Bool) (rd : Option (List Nat))
    (d d1 : DccSession) (ev : List Event) (h : dcc_read_ready f rd d = some (d1, ev))
    (hb : InBounds d)
    (hrd : ∀ bs, rd = some bs → bs.length ≤ d.incoming_buf.length - 1 - d.incoming_offset)
    (h4 : 4 ≤ d.outgoing_buf.length) : FitsAfter d d1 := by
  unfold dcc_read_ready at h
  rcases rd with _ | ⟨_ | ⟨b, bs⟩⟩
  · simp only [Option.map_eq_some'] at h
    obtain ⟨⟨d0, e0⟩, hf, heq⟩ := h
    simp only [Prod.mk.injEq] at heq
    obtain ⟨rfl, rfl⟩ := heq
    exact fitsAfter_of_sameBuffers _ _ (dccFail_buffers f d d0 _ e0 hf) hb
  · simp only [Option.map_eq_some'] at h
    obtain ⟨⟨d0, e0⟩, hf, heq⟩ := h
    simp only [Prod.mk.injEq] at heq
    obtain ⟨rfl, rfl⟩ := heq
    have h0 : SameBuffers d (if d.fd ≥ 0 then { d with fd := -1 } else d) := by
      split_ifs
      · exact ⟨rfl, rfl, rfl, rfl⟩
      · exact ⟨rfl, rfl, rfl, rfl⟩
    exact fitsAfter_then_sameBuffers _ _ _ (fitsAfter_of_sameBuffers _ _ h0 hb)
      (dccFail_buffers f _ d0 _ e0 hf)
  · have hlen := hrd (b :: bs) rfl
    have hb1 := hb.1
    have hb2 := hb.2
    have hbl : (bufWrite d.incoming_buf d.incoming_offset (b :: bs)).length
        = d.incoming_buf.length :=
      bufWrite_length _ _ _ (by simp only [List.length_cons] at hlen ⊢; omega)
    dsimp only at h
    generalize hscan : (if d.dccmode ≠ DccMode.CHAT then
        (bufWrite d.incoming_buf d.incoming_offset (b :: bs),
          ((d.incoming_offset + (b :: bs).length : Nat) : Int))
      else libirc_findcrorlf (bufWrite d.incoming_buf d.incoming_offset (b :: bs))
        ((d.incoming_offset + (b :: bs).length : Nat) : Int)) = scan at h
    have hs1 : scan.1.length = d.incoming_buf.length := by
      rw [← hscan]
      split_ifs
      · exact hbl
      · rw [(libirc_findcrorlf_bounds _ _).1]
        exact hbl
    have k1 : FitsAfter d
        { d with incoming_buf := scan.1
                 incoming_offset := d.incoming_offset + (b :: bs).length } := by
      unfold FitsAfter InBounds
      dsimp only
      rw [hs1]
      exact ⟨⟨by omega, hb2⟩, rfl, rfl⟩
    have fin : ∀ (dX : DccSession), FitsAfter d dX →
        FitsAfter d
          { dX with
            incoming_buf :=
              if dX.incoming_offset - scan.2.toNat > 0 then
                memmove_front dX.incoming_buf scan.2.toNat (dX.incoming_offset - scan.2.toNat)
              else dX.incoming_buf
            incoming_offset := dX.incoming_offset - scan.2.toNat } := by
      intro dX hX
      have hm : (if dX.incoming_offset - scan.2.toNat > 0 then
            memmove_front dX.incoming_buf scan.2.toNat (dX.incoming_offset - scan.2.toNat)
          else dX.incoming_buf).length = dX.incoming_buf.length := by
        split_ifs
        · exact memmove_front_length _ _ _
        · rfl
      obtain ⟨⟨x1, x2⟩, x3, x4⟩ := hX
      unfold FitsAfter InBounds
      dsimp only
      rw [hm]
      exact ⟨⟨by omega, x2⟩, x3, x4⟩
    by_cases hc : d.state = DccState.CONFIRM_SIZE
    · rw [if_pos hc] at h
      by_cases hs : d.dccmode = DccMode.SENDFILE
      · rw [if_neg (not_not.2 hs)] at h
        by_cases h44 : d.incoming_offset + (b :: bs).length = 4
        · rw [if_pos h44] at h
          by_cases hack : d.file_confirm_offset = ntohl_bytes scan.1
          · rw [if_pos hack] at h
            simp only [Option.some.injEq, Prod.mk.injEq] at h
            obtain ⟨rfl, -⟩ := h
            unfold FitsAfter InBounds
            dsimp only
            rw [hs1]
            exact ⟨⟨by omega, hb2⟩, rfl, rfl⟩
          · rw [if_neg hack] at h
            simp only [Option.map_eq_some'] at h
            obtain ⟨⟨d0, e0⟩, hf, heq⟩ := h
            simp only [Prod.mk.injEq] at heq
            obtain ⟨rfl, -⟩ := heq
            exact fitsAfter_then_sameBuffers _ _ _ k1 (dccFail_buffers f _ d0 _ e0 hf)
        · rw [if_neg h44] at h
          simp only [Option.some.injEq, Prod.mk.injEq] at h
          obtain ⟨rfl, -⟩ := h
          exact k1
      · rw [if_pos hs] at h
        exact absurd h (by simp)
    · rw [if_neg hc] at h
      by_cases hchat : d.dccmode = DccMode.CHAT
      · rw [if_neg (not_not.2 hchat)] at h
        split at h
        · exact absurd h (by simp)
        · rename_i d0 e0 hi
          simp only [Option.some.injEq, Prod.mk.injEq] at h
          obtain ⟨rfl, -⟩ := h
          exact fin d0 (fitsAfter_then_sameBuffers _ _ _ k1 (invokeCb_buffers f _ d0 _ _ _ e0 hi))
      · rw [if_pos hchat] at h
        by_cases hm : d.dccmode = DccMode.RECVFILE
        · rw [if_neg (not_not.2 hm)] at h
          split at h
          · exact absurd h (by simp)
          · rename_i d2 e2 hcalled
            simp only [Option.some.injEq, Prod.mk.injEq] at h
            obtain ⟨rfl, -⟩ := h
            apply fin
            split at hcalled
            · exact absurd hcalled (by simp)
            · rename_i d0 e0 hi
              have k0 := fitsAfter_then_sameBuffers _ _ _ k1 (invokeCb_buffers f _ d0 _ _ _ e0 hi)
              split_ifs at hcalled <;>
                simp only [Option.some.injEq, Prod.mk.injEq] at hcalled <;>
                obtain ⟨rfl, -⟩ := hcalled
              · obtain ⟨⟨x1, x2⟩, x3, x4⟩ := k0
                unfold FitsAfter InBounds
                dsimp only
                rw [bufWrite_zero_length _ _ (by rw [htonl_bytes_length]; omega)]
                exact ⟨⟨x1, by omega⟩, x3, x4⟩
              · exact k0
        · rw [if_pos hm] at h
          exact absurd h (by simp)

/-- A lookup after a write through the pointer found gives the session
written. -/
theorem find_modify_dcc (f : DccSession → DccSession) (hf : ∀ d, (f d).id = d.id) :
    ∀ (l : List DccSession) (dccid : Nat) (s0 : DccSession),
      libirc_find_dcc_session l dccid = some s0 →
      libirc_find_dcc_session (modify_dcc l dccid f) dccid = some (f s0) := by
  intro l
  induction l with
  | nil => intro dccid s0 h; simp [libirc_find_dcc_session] at h
  | cons s rest ih =>
    intro dccid s0 h
    by_cases hs : s.id = dccid
    · have h0 : s0 = s := by
        simp [libirc_find_dcc_session, List.find?_cons, hs] at h
        exact h.symm
      subst h0
      simp [modify_dcc, hs, libirc_find_dcc_session, List.find?_cons, hf]
    · have hrest : libirc_find_dcc_session rest dccid = some s0 := by
        simpa [libirc_find_dcc_session, List.find?_cons, hs] using h
      have := ih dccid s0 hrest
      simp only [libirc_find_dcc_session] at this ⊢
      simp [modify_dcc, hs, List.find?_cons, this]

/-- A property of every session of the list that holds of the session written
holds of every session after the write. -/
theorem modify_dcc_forall (P : DccSession → Prop) (f : DccSession → DccSession) :
    ∀ (l : List DccSession) (dccid : Nat) (c : DccSession),
      libirc_find_dcc_session l dccid = some c → (∀ s ∈ l, P s) → P (f c) →
      ∀ s ∈ modify_dcc l dccid f, P s := by
  intro l
  induction l with
  | nil => intro _ _ h; simp [libirc_find_dcc_session] at h
  | cons a rest ih =>
    intro dccid c h hall hfc s hs
    unfold modify_dcc at hs
    by_cases ha : a.id = dccid
    · rw [if_pos ha] at hs
      have h0 : c = a := by
        simp [libirc_find_dcc_session, List.find?_cons, ha] at h
        exact h.symm
      subst h0
      rcases List.mem_cons.1 hs with rfl | h1
      · exact hfc
      · exact hall s (by simp [h1])
    · rw [if_neg ha] at hs
      have hrest : libirc_find_dcc_session rest dccid = some c := by
        simpa [libirc_find_dcc_session, List.find?_cons, ha] using h
      rcases List.mem_cons.1 hs with rfl | h1
      · exact hall s (by simp)
      · exact ih dccid c hrest (fun x hx => hall x (by simp [hx])) hfc s h1

/-- The session `libirc_find_dcc_session` finds is in the list. -/
theorem find_dcc_mem (l : List DccSession) (dccid : Nat) (s0 : DccSession)
    (h : libirc_find_dcc_session l dccid = some s0) : s0 ∈ l :=
  List.mem_of_find?_eq_some h

/-- The count handed to `write` is at most `outgoing_offset`. -/
theorem dcc_write_offset_le (d : DccSession) : dcc_write_offset d ≤ d.outgoing_offset := by
  unfold dcc_write_offset
  split_ifs
  · rcases libirc_findcrlf_bounds d.outgoing_buf d.outgoing_offset with h | h
    · rw [h]; exact Int.ofNat_nonneg _
    · exact h.2
  · exact le_refl _

/-- The test of line 668 and the stores of lines 672-677 of `irc_dcc_msg` keep
the offsets of every session within its buffers. -/
theorem irc_dcc_msg_bounds (session : IrcSession) (dccid : Nat) (text : List Nat)
    (hall : ∀ s ∈ session.dcc_sessions, InBounds s) :
    ∀ s ∈ (irc_dcc_msg session dccid text).2.1.dcc_sessions, InBounds s := by
  unfold irc_dcc_msg libirc_find_dcc_session_lock
  cases h : libirc_find_dcc_session session.dcc_sessions dccid with
  | none =>
    simp only [LOCK_DCC_MUTEX, UNLOCK_DCC_MUTEX, h, if_true]
    exact hall
  | some c =>
    simp only [LOCK_DCC_MUTEX, UNLOCK_DCC_MUTEX, h, if_true]
    split_ifs with h1 h2
    · exact hall
    · exact hall
    · dsimp only
      have hc := hall c (find_dcc_mem _ _ _ h)
      obtain ⟨-, -, m3, m4, -⟩ := dcc_msg_store_spec text c hc.2 h2
      refine modify_dcc_forall InBounds _ _ dccid c h hall ?_
      have m3 : (dcc_msg_store text c).outgoing_offset
          ≤ (dcc_msg_store text c).outgoing_buf.length := Nat.le_of_lt m3
      exact ⟨hc.1, m3⟩

/-- A successful `irc_dcc_msg` found a session and leaves it, with the text
stored, as the session of that id; its `outgoing_offset` is strictly below the
size of the buffer. -/
theorem irc_dcc_msg_success (session : IrcSession) (dccid : Nat) (text : List Nat)
    (hall : ∀ s ∈ session.dcc_sessions, InBounds s)
    (h0 : (irc_dcc_msg session dccid text).1 = 0) :
    ∃ s0, libirc_find_dcc_session session.dcc_sessions dccid = some s0
      ∧ libirc_find_dcc_session (irc_dcc_msg session dccid text).2.1.dcc_sessions dccid
          = some (dcc_msg_store text s0)
      ∧ (dcc_msg_store text s0).outgoing_offset < (dcc_msg_store text s0).outgoing_buf.length
      ∧ (dcc_msg_store text s0).outgoing_buf.length = s0.outgoing_buf.length := by
  unfold irc_dcc_msg libirc_find_dcc_session_lock at h0 ⊢
  cases h : libirc_find_dcc_session session.dcc_sessions dccid with
  | none =>
    simp only [LOCK_DCC_MUTEX, UNLOCK_DCC_MUTEX, h, if_true] at h0
    exact absurd h0 (by decide)
  | some c =>
    simp only [LOCK_DCC_MUTEX, UNLOCK_DCC_MUTEX, h, if_true] at h0 ⊢
    by_cases h1 : c.dccmode ≠ DccMode.CHAT
    · rw [if_pos h1] at h0
      exact absurd h0 (by simp)
    · rw [if_neg h1] at h0 ⊢
      by_cases h2 : strlen text + 2 ≥ c.outgoing_buf.length - c.outgoing_offset
      · rw [if_pos h2] at h0
        exact absurd h0 (by simp)
      · rw [if_neg h2]
        have hc := hall c (find_dcc_mem _ _ _ h)
        obtain ⟨-, -, m3, m4, -⟩ := dcc_msg_store_spec text c hc.2 h2
        exact ⟨c, rfl, find_modify_dcc (dcc_msg_store text) (fun _ => rfl) _ dccid c h, m3, m4⟩

/-- Timing a session out leaves the buffers and the offsets. -/
theorem dcc_timeout_check_buffers (env : Env) (d d1 : DccSession) (g : Bool)
    (ev : List Event) (h : dcc_timeout_check env d = some (d1, g, ev)) :
    SameBuffers d d1 ∧ d1.fd = d.fd := by
  unfold dcc_timeout_check at h
  split_ifs at h with h1 h2
  · dsimp only at h
    split at h
    · exact absurd h (by simp)
    · rename_i d0 e0 hi
      simp only [Option.some.injEq, Prod.mk.injEq] at h
      obtain ⟨rfl, -⟩ := h
      refine ⟨invokeCb_buffers _ _ _ _ _ _ _ hi, ?_⟩
      rcases (invokeCb_keeps _ _ _ _ _ _ _ hi).2 with rfl | rfl
      · rfl
      · rfl
  · simp only [Option.some.injEq, Prod.mk.injEq] at h
    obtain ⟨rfl, -⟩ := h
    exact ⟨⟨rfl, rfl, rfl, rfl⟩, rfl⟩
  · simp only [Option.some.injEq, Prod.mk.injEq] at h
    obtain ⟨rfl, -⟩ := h
    exact ⟨⟨rfl, rfl, rfl, rfl⟩, rfl⟩

/-- The block that asks a sender for data keeps the offsets within the buffers,
for a read of the file that returns no more bytes than it was asked for. -/
theorem dcc_send_pump_bounds (env : Env) (gone1 : Bool) (d d2 : DccSession)
    (e2 : List Event) (h : dcc_send_pump env gone1 d = some (d2, e2)) (hb : InBounds d)
    (hfile : ∀ bs, env.fileRead d.fd = some bs → bs.length ≤ d.outgoing_buf.length) :
    FitsAfter d d2 := by
  unfold dcc_send_pump at h
  cases gone1
  · simp only [Bool.false_eq_true, if_false] at h
    by_cases hp : d.state = DccState.CONNECTED ∧ d.dccmode = DccMode.SENDFILE ∧ d.fd ≥ 0
        ∧ d.outgoing_offset = 0
    · rw [if_pos hp] at h
      have key : ∀ r : Option (List Nat),
          (match invokeCb env.cbDestroys d
              (if r = none then Status.ERR_READ else Status.OK) none 0 with
            | none => none
            | some (d0, ev) =>
              some (d0.destroy.1,
                [Event.fileRead d.fd d.outgoing_buf.length] ++ ev ++ d0.destroy.2))
            = some (d2, e2) → FitsAfter d d2 := by
        intro r hr
        split at hr
        · exact absurd hr (by simp)
        · rename_i d0 e0 hi
          have hs := invokeCb_buffers _ _ _ _ _ _ _ hi
          simp only [Option.some.injEq, Prod.mk.injEq] at hr
          obtain ⟨rfl, -⟩ := hr
          exact fitsAfter_of_sameBuffers _ _ ⟨hs.1, hs.2.1, hs.2.2.1, hs.2.2.2⟩ hb
      rcases hfr : env.fileRead d.fd with _ | ⟨_ | ⟨b, bs⟩⟩
      · rw [hfr] at h
        exact key none h
      · rw [hfr] at h
        exact key (some []) h
      · rw [hfr] at h
        simp only [Option.some.injEq, Prod.mk.injEq] at h
        obtain ⟨rfl, -⟩ := h
        have hl := hfile _ hfr
        unfold FitsAfter InBounds
        dsimp only
        rw [bufWrite_zero_length _ _ hl]
        exact ⟨⟨hb.1, hl⟩, rfl, rfl⟩
    · rw [if_neg hp] at h
      simp only [Option.some.injEq, Prod.mk.injEq] at h
      obtain ⟨rfl, -⟩ := h
      exact fitsAfter_of_sameBuffers _ _ ⟨rfl, rfl, rfl, rfl⟩ hb
  · simp at h

/-- An iteration of the first loop of `libirc_dcc_add_descriptors` keeps the
offsets within the buffers. -/
theorem dcc_preprocess_one_bounds (env : Env) (d d2 : DccSession) (g : Bool)
    (ev : List Event) (h : dcc_preprocess_one env d = some (d2, g, ev)) (hb : InBounds d)
    (hfile : ∀ bs, env.fileRead d.fd = some bs → bs.length ≤ d.outgoing_buf.length) :
    FitsAfter d d2 := by
  unfold dcc_preprocess_one at h
  split at h
  · exact absurd h (by simp)
  · rename_i d1 g1 e1 ht
    split at h
    · exact absurd h (by simp)
    · rename_i d3 e3 hpump
      obtain ⟨hs, hfd⟩ := dcc_timeout_check_buffers env d d1 g1 e1 ht
      have f1 := fitsAfter_of_sameBuffers _ _ hs hb
      have f3 := dcc_send_pump_bounds env g1 d1 d3 e3 hpump f1.1
        (by rw [hfd, f1.2.2]; exact hfile)
      have hd : d3 = d2 := by
        split_ifs at h <;> simp only [Option.some.injEq, Prod.mk.injEq] at h <;> exact h.1
      rw [← hd]
      exact ⟨f3.1, f3.2.1.trans f1.2.1, f3.2.2.trans f1.2.2⟩

/-- An installed callback is not a null pointer. -/
theorem invokeCb_ne_none (f : CbCall → Bool) (d : DccSession) (st : Status)
    (data : Option (List Nat)) (len : Nat) (hcb : d.cb = true) :
    invokeCb f d st data len ≠ none := by
  obtain ⟨d1, ev, h⟩ := invokeCb_total f d st data len hcb
  rw [h]
  exact Option.some_ne_none _

/-- The callback is still installed after it was invoked. -/
theorem invokeCb_cb (f : CbCall → Bool) (d d1 : DccSession) (st : Status)
    (data : Option (List Nat)) (len : Nat) (ev : List Event)
    (h : invokeCb f d st data len = some (d1, ev)) : d1.cb = d.cb :=
  (invokeCb_keeps f d d1 st data len ev h).1.2.2.2.2.1

/-- The write block returns when the callback is installed. -/
theorem dcc_write_ready_total (f : CbCall → Bool) (wr : Int) (d : DccSession)
    (hcb : d.cb = true) : ∃ d1 ev, dcc_write_ready f wr d = some (d1, ev) := by
  cases hres : dcc_write_ready f wr d with
  | some r => exact ⟨r.1, r.2, rfl⟩
  | none =>
    exfalso
    unfold dcc_write_ready at hres
    dsimp only at hres
    by_cases hpos : (if d.dccmode = DccMode.CHAT then
        libirc_findcrlf d.outgoing_buf (d.outgoing_offset : Int)
      else (d.outgoing_offset : Int)) > 0
    · rw [if_pos hpos] at hres
      by_cases hw : wr < 0
      · rw [if_pos hw, dccFail_eq f d _ hcb] at hres
        exact absurd hres (by simp)
      · rw [if_neg hw] at hres
        by_cases hw0 : wr = 0
        · rw [if_pos hw0, dccFail_eq f d _ hcb] at hres
          exact absurd hres (by simp)
        · rw [if_neg hw0] at hres
          split at hres
          · rename_i hsent
            by_cases hsf : d.state = DccState.CONNECTED ∧ d.dccmode = DccMode.SENDFILE
            · rw [if_pos hsf] at hsent
              refine invokeCb_ne_none _ _ _ _ _ ?_ hsent
              exact hcb
            · rw [if_neg hsf] at hsent
              exact absurd hsent (by simp)
          · rename_i d0 e0 hsent
            have hcb0 : d0.cb = true := by
              by_cases hsf : d.state = DccState.CONNECTED ∧ d.dccmode = DccMode.SENDFILE
              · rw [if_pos hsf] at hsent
                rw [invokeCb_cb _ _ _ _ _ _ _ hsent]
                exact hcb
              · rw [if_neg hsf] at hsent
                simp only [Option.some.injEq, Prod.mk.injEq] at hsent
                rw [← hsent.1]
                exact hcb
            by_cases c3 : d0.state = DccState.CONFIRM_SIZE ∧ d0.dccmode = DccMode.RECVFILE
                ∧ d0.outgoing_offset - wr.toNat = 0
            · rw [if_pos c3] at hres
              by_cases c4 : d0.received_file_size = d0.file_confirm_offset
              · rw [if_pos c4] at hres
                split at hres
                · rename_i hi
                  refine invokeCb_ne_none _ _ _ _ _ ?_ hi
                  exact hcb0
                · exact absurd hres (by simp)
              · rw [if_neg c4] at hres
                exact absurd hres (by simp)
            · rw [if_neg c3] at hres
              exact absurd hres (by simp)
    · rw [if_neg hpos] at hres
      exact absurd hres (by simp)

/-- The read block returns when the callback is installed and the mode fits
the state: a sender in state CONFIRM_SIZE, a chat or a receiver otherwise. -/
theorem dcc_read_ready_total (f : CbCall → Bool) (rd : Option (List Nat)) (d : DccSession)
    (hcb : d.cb = true)
    (hconf : d.state = DccState.CONFIRM_SIZE → d.dccmode = DccMode.SENDFILE)
    (hconn : d.state ≠ DccState.CONFIRM_SIZE →
      d.dccmode = DccMode.CHAT ∨ d.dccmode = DccMode.RECVFILE) :
    ∃ d1 ev, dcc_read_ready f rd d = some (d1, ev) := by
  cases hres : dcc_read_ready f rd d with
  | some r => exact ⟨r.1, r.2, rfl⟩
  | none =>
    exfalso
    unfold dcc_read_ready at hres
    rcases rd with _ | ⟨_ | ⟨b, bs⟩⟩
    · dsimp only at hres
      rw [dccFail_eq f d _ hcb] at hres
      exact absurd hres (by simp)
    · dsimp only at hres
      rw [dccFail_eq f _ _ (by split_ifs <;> exact hcb)] at hres
      exact absurd hres (by simp)
    · dsimp only at hres
      generalize hscan : (if d.dccmode ≠ DccMode.CHAT then
          (bufWrite d.incoming_buf d.incoming_offset (b :: bs),
            ((d.incoming_offset + (b :: bs).length : Nat) : Int))
        else libirc_findcrorlf (bufWrite d.incoming_buf d.incoming_offset (b :: bs))
          ((d.incoming_offset + (b :: bs).length : Nat) : Int)) = scan at hres
      by_cases hc : d.state = DccState.CONFIRM_SIZE
      · rw [if_pos hc, if_neg (not_not.2 (hconf hc))] at hres
        by_cases h44 : d.incoming_offset + (b :: bs).length = 4
        · rw [if_pos h44] at hres
          by_cases hack : d.file_confirm_offset = ntohl_bytes scan.1
          · rw [if_pos hack] at hres
            exact absurd hres (by simp)
          · rw [if_neg hack, dccFail_eq f _ _ (by exact hcb)] at hres
            exact absurd hres (by simp)
        · rw [if_neg h44] at hres
          exact absurd hres (by simp)
      · rw [if_neg hc] at hres
        split at hres
        · rename_i hcalled
          by_cases hchat : d.dccmode = DccMode.CHAT
          · rw [if_neg (not_not.2 hchat)] at hcalled
            refine invokeCb_ne_none _ _ _ _ _ ?_ hcalled
            exact hcb
          · rw [if_pos hchat] at hcalled
            have hm : d.dccmode = DccMode.RECVFILE := by
              rcases hconn hc with h | h
              · exact absurd h hchat
              · exact h
            rw [if_neg (not_not.2 hm)] at hcalled
            split at hcalled
            · rename_i hi
              refine invokeCb_ne_none _ _ _ _ _ ?_ hi
              exact hcb
            · split_ifs at hcalled
        · exact absurd hres (by simp)

/-- C29: the offsets of a DCC session stay within its buffers. If
`incoming_offset <= sizeof (incoming_buf) - 1` and
`outgoing_offset <= sizeof (outgoing_buf)` hold of a session (of every session
of the list, for `irc_dcc_msg`), they hold, with the buffers of the same sizes,
after `irc_dcc_msg`, after the block of `libirc_dcc_add_descriptors` that reads
the file and after the whole iteration of its first loop, and after the read
block and the write block of `libirc_dcc_process_descriptors`, for every result
of the reads and of the write: a socket read that returns at most the `amount`
asked for, a file read that returns at most `sizeof (outgoing_buf)`, a write
that returns at most the count it was given; the outgoing buffer has at least
the four bytes of the acknowledgement. The amounts subtracted do not exceed the
offsets: the result of `libirc_findcrorlf` lies between 0 and the length
scanned, and the return value of `write` is at most `outgoing_offset`. A
successful `irc_dcc_msg` leaves `outgoing_offset` of the session it found
strictly below the size of the buffer. The write block returns when the
callback is installed, and the read block when moreover the mode fits the
state. -/
theorem dcc_offsets_stay_in_bounds (env : Env) (f : CbCall → Bool) (session : IrcSession)
    (dccid : Nat) (text : List Nat) (d : DccSession) (rd : Option (List Nat)) (wr : Int)
    (gone1 : Bool)
    (hb : InBounds d)
    (hall : ∀ s ∈ session.dcc_sessions, InBounds s)
    (h4 : 4 ≤ d.outgoing_buf.length)
    (hrd : ∀ bs, rd = some bs → bs.length ≤ d.incoming_buf.length - 1 - d.incoming_offset)
    (hfile : ∀ bs, env.fileRead d.fd = some bs → bs.length ≤ d.outgoing_buf.length)
    (hwr : wr ≤ dcc_write_offset d) :
    (∀ s ∈ (irc_dcc_msg session dccid text).2.1.dcc_sessions, InBounds s)
    ∧ ((irc_dcc_msg session dccid text).1 = 0 →
        ∃ s0, libirc_find_dcc_session session.dcc_sessions dccid = some s0
          ∧ libirc_find_dcc_session (irc_dcc_msg session dccid text).2.1.dcc_sessions dccid
              = some (dcc_msg_store text s0)
          ∧ (dcc_msg_store text s0).outgoing_offset
              < (dcc_msg_store text s0).outgoing_buf.length
          ∧ (dcc_msg_store text s0).outgoing_buf.length = s0.outgoing_buf.length)
    ∧ (∀ d2 e2, dcc_send_pump env gone1 d = some (d2, e2) → FitsAfter d d2)
    ∧ (∀ d2 g ev, dcc_preprocess_one env d = some (d2, g, ev) → FitsAfter d d2)
    ∧ (∀ d1 ev, dcc_read_ready f rd d = some (d1, ev) → FitsAfter d d1)
    ∧ (∀ d1 ev, dcc_write_ready f wr d = some (d1, ev) → FitsAfter d d1)
    ∧ (∀ (buf : List Nat) (n : Nat),
        0 ≤ (libirc_findcrorlf buf n).2 ∧ (libirc_findcrorlf buf n).2 ≤ n)
    ∧ wr.toNat ≤ d.outgoing_offset
    ∧ (d.cb = true → ∃ d1 ev, dcc_write_ready f wr d = some (d1, ev))
    ∧ (d.cb = true → (d.state = DccState.CONFIRM_SIZE → d.dccmode = DccMode.SENDFILE) →
        (d.state ≠ DccState.CONFIRM_SIZE →
          d.dccmode = DccMode.CHAT ∨ d.dccmode = DccMode.RECVFILE) →
        ∃ d1 ev, dcc_read_ready f rd d = some (d1, ev)) := by
  refine ⟨irc_dcc_msg_bounds session dccid text hall,
    irc_dcc_msg_success session dccid text hall,
    fun d2 e2 h => dcc_send_pump_bounds env gone1 d d2 e2 h hb hfile,
    fun d2 g ev h => dcc_preprocess_one_bounds env d d2 g ev h hb hfile,
    fun d1 ev h => dcc_read_ready_bounds f rd d d1 ev h hb hrd h4,
    fun d1 ev h => dcc_write_ready_bounds f wr d d1 ev h hb, ?_, ?_,
    dcc_write_ready_total f wr d, dcc_read_ready_total f rd d⟩
  · intro buf n
    obtain ⟨-, h0, h1⟩ := libirc_findcrorlf_bounds buf n
    refine ⟨h0, ?_⟩
    rcases h1 with h1 | h1
    · rw [h1]; exact Int.ofNat_nonneg _
    · exact h1
  · have := dcc_write_offset_le d
    omega

/-- A chat session with the line `hi` CR LF queued in buffers of eight bytes: a
read of three bytes, a write that takes two of the four bytes offered, and a
message to the session of a list. -/
theorem dcc_offsets_stay_in_bounds_witness :
    InBounds (dcc_msg_store [104, 105] (exSession 1 5 DccMode.CHAT DccState.CONNECTED))
    ∧ dcc_write_offset (dcc_msg_store [104, 105] (exSession 1 5 DccMode.CHAT DccState.CONNECTED))
        = 4
    ∧ (∀ s ∈ (irc_dcc_msg (exIrc [exSession 1 5 DccMode.CHAT DccState.CONNECTED]) 1
          [121, 111]).2.1.dcc_sessions, InBounds s)
    ∧ (∀ d1 ev,
        dcc_read_ready (fun _ => false) (some [104, 105, 10])
            (dcc_msg_store [104, 105] (exSession 1 5 DccMode.CHAT DccState.CONNECTED))
          = some (d1, ev) →
        FitsAfter (dcc_msg_store [104, 105] (exSession 1 5 DccMode.CHAT DccState.CONNECTED))
          d1)
    ∧ (∀ d1 ev,
        dcc_write_ready (fun _ => false) 2
            (dcc_msg_store [104, 105] (exSession 1 5 DccMode.CHAT DccState.CONNECTED))
          = some (d1, ev) →
        FitsAfter (dcc_msg_store [104, 105] (exSession 1 5 DccMode.CHAT DccState.CONNECTED))
          d1)
    ∧ (∃ d1 ev,
        dcc_write_ready (fun _ => false) 2
            (dcc_msg_store [104, 105] (exSession 1 5 DccMode.CHAT DccState.CONNECTED))
          = some (d1, ev)) :=
  have t := dcc_offsets_stay_in_bounds exSendEnv (fun _ => false)
    (exIrc [exSession 1 5 DccMode.CHAT DccState.CONNECTED]) 1 [121, 111]
    (dcc_msg_store [104, 105] (exSession 1 5 DccMode.CHAT DccState.CONNECTED))
    (some [104, 105, 10]) 2 false (by decide) (by decide) (by decide)
    (fun bs h => by cases h; decide)
    (fun bs h => by cases h; decide)
    (by decide)
  ⟨by decide, by decide, t.1, t.2.2.2.2.1, t.2.2.2.2.2.1, t.2.2.2.2.2.2.2.2.1 rfl⟩

end Libirc
